import Mathlib

/-!
# Backplane protocol engine of the SAM7 XPI bridge board

A shallow embedding of `src/fpga/xpi.cpp` / `src/inc/xpi.hpp` (class `XPI`):
the frame checksum, the outbound staging queue (`Put` / `Transmitter`), the
handlers `On_CRX`, `On_CTX`, `On_CTXE`, `On_EIRQ`, `On_FC` and `On_Timer`, the poll
list, `StartTransmissionIfIdle`, `ResetFPGA` and `InitializeFPGA`; and of the
interrupt loop of the dispatcher task `FPGA_IrqTasklet` (`src/fpga/fpga.cpp`).

Conventions of the embedding.

* `uchar` values are natural numbers below 256, `uint` arithmetic that can wrap
  is written with an explicit `% 2 ^ 32`.
* Memory (`buf`, `poll_list`, `sCRX.data`, `sCTX.data`) is a function from the
  offset inside the array to the byte stored there; pointers into `buf` are
  offsets from `buf`.  The array `buf` has `XPI_XMTR_BUF_SIZE + 32` octets; a
  `Put` that would write past its end has no result.
* The counting semaphores of the scheduler (`xSEMA`) are their item counts: in a
  run in which no other task releases the semaphore while the caller waits,
  `Wait( n, ticks )` succeeds exactly when `n` items are present.  The wait of
  `Put`, whose argument is computed from the caller's length, compares as the
  code does, with `n` taken as a signed 32-bit value (`semaWaitFails`).
* Calls that leave the engine are kept as logs inside the state: records handed
  to `usbOut.Put` (`usbOut`) and register writes `FPGA_Write` (`fpgaWrites`).
  Time stamps and the two magic octets of a record are not modelled.
* Descriptor 2 of `tracef` is opened on `usb_putc` (`lib/device.cpp`,
  `sam7xpud.cpp`): the text of a call `tracef( 2, fmt, ... )` is formatted as
  `lib/stdio.cpp` does it and handed octet by octet to `usb_putc`, which collects
  a line (`logLine`) and hands it to `usbOut.Put` as an `XPI_IMSG_LOG` record at
  every line feed or when 128 octets are collected.  The calls themselves are
  also listed in `traceOut`.
* Values read from outside the engine (FPGA registers, `xsvf.GetLastRC ()`) are
  arguments of the member that reads them.  The millisecond counter `dTimerTick`
  is a member of the state, advanced by the event `tick`; `long` values are
  integers wrapped to 32 bits by `toLong`.
* A run of the engine is a list of events applied to the constructed engine;
  each call of a member runs to its end before the next event, calls made by
  different tasks are not interleaved inside a member.
-/

namespace XPI_Model

/-! ## Constants -/

/-- Size of the circular transmit buffer (`XPI_XMTR_BUF_SIZE`). -/
def XPI_XMTR_BUF_SIZE : Nat := 4096
/-- Number of octets of the array `buf`: the ring and its overflow area
(`uchar buf[ XPI_XMTR_BUF_SIZE + 32 ]`). -/
def XPI_BUF_LEN : Nat := XPI_XMTR_BUF_SIZE + 32
/-- Poll delay armed for one step of an EIRQ sweep (`EIRQ_POLL_DELAY`). -/
def EIRQ_POLL_DELAY : Int := 4
/-- Delay after a class-11 frame (`INTER_SEND_DELAY`). -/
def INTER_SEND_DELAY : Int := 2
/-- Timeout of a receive or acknowledge wait (`RECEIVE_TIMEOUT`). -/
def RECEIVE_TIMEOUT : Int := 5
/-- Timeout of a command-channel-empty wait (`CTXE_TIMEOUT`). -/
def CTXE_TIMEOUT : Int := 10
/-- Number of board positions (`MAX_BOARD_COUNT`). -/
def MAX_BOARD_COUNT : Nat := 64

/-- Message type `XPI_IMSG_LOG`. -/
def XPI_IMSG_LOG : Nat := 0x02
/-- Message type `XPI_IMSG_FPGA_STATUS`. -/
def XPI_IMSG_FPGA_STATUS : Nat := 0x03
/-- Message type `XPI_IMSG_FC_EVENT`. -/
def XPI_IMSG_FC_EVENT : Nat := 0x05
/-- Message type `XPI_IMSG_FLOW_CTRL`. -/
def XPI_IMSG_FLOW_CTRL : Nat := 0x07
/-- Message type `XPI_IMSG_TRACE_CTX`. -/
def XPI_IMSG_TRACE_CTX : Nat := 0x08
/-- Message type `XPI_IMSG_TRACE_CRX`. -/
def XPI_IMSG_TRACE_CRX : Nat := 0x09
/-- Message type `XPI_IMSG_TRACE_EIRQ`. -/
def XPI_IMSG_TRACE_EIRQ : Nat := 0x0A

/-- Interrupt bit `XPI_IRQ_CTXE`. -/
def XPI_IRQ_CTXE : Nat := 0x20
/-- Interrupt bit `XPI_IRQ_EIRQ`. -/
def XPI_IRQ_EIRQ : Nat := 0x08
/-- Interrupt bit `XPI_IRQ_CRX`. -/
def XPI_IRQ_CRX : Nat := 0x04
/-- Interrupt bit `XPI_IRQ_CTX`. -/
def XPI_IRQ_CTX : Nat := 0x02
/-- Interrupt bit `XPI_IRQ_FC`. -/
def XPI_IRQ_FC : Nat := 0x01
/-- Interrupt bit of the PCM frame sync (`fpga.hpp`). -/
def XPI_IRQ_PCM : Nat := 0x10
/-- LED bit `XPI_LED_R`. -/
def XPI_LED_R : Nat := 0x04
/-- LED bit `XPI_LED_Y`. -/
def XPI_LED_Y : Nat := 0x02
/-- LED bit `XPI_LED_G`. -/
def XPI_LED_G : Nat := 0x01
/-- Function-channel bit `XPI_FC_FCE`. -/
def XPI_FC_FCE : Nat := 0x04
/-- Function-channel bit `XPI_FC_FCD`. -/
def XPI_FC_FCD : Nat := 0x02
/-- Function-channel bit `XPI_FC_FCC`. -/
def XPI_FC_FCC : Nat := 0x01
/-- Global status bit `XPI_GLB_MCPU`. -/
def XPI_GLB_MCPU : Nat := 0x01

/-- Trace mask bit `DBG_EIRQ`. -/
def DBG_EIRQ : Nat := 0x01
/-- Trace mask bit `DBG_ACK`. -/
def DBG_ACK : Nat := 0x02
/-- Trace mask bit `DBG_CTX_E0_PKT`. -/
def DBG_CTX_E0_PKT : Nat := 0x04
/-- Trace mask bit `DBG_CTX`. -/
def DBG_CTX : Nat := 0x08
/-- Trace mask bit `DBG_CRX`. -/
def DBG_CRX : Nat := 0x10

/-! ## Data model -/

/-- The states of the protocol engine (`enum STATE`). -/
inductive STATE where
  | DISABLED
  | IDLE
  | WAIT_SENT
  | WAIT_CTXE
  | WAIT_ACK
  | BLOCKED_SEND
  | POLL_EIRQ
  | RECEIVE_CRX
  | RECEIVE_CTX
  deriving DecidableEq, Repr

/-- Numeric value of a state, as stored into a record by `sMsg.data[ 1 ] = state`. -/
def STATE.toNat : STATE → Nat
  | .DISABLED => 0
  | .IDLE => 1
  | .WAIT_SENT => 2
  | .WAIT_CTXE => 3
  | .WAIT_ACK => 4
  | .BLOCKED_SEND => 5
  | .POLL_EIRQ => 6
  | .RECEIVE_CRX => 7
  | .RECEIVE_CTX => 8

/-- The write registers of the FPGA that the engine addresses (`XPI_W_*`). -/
inductive Reg where
  | XPI_W_PAGE_ADDR
  | XPI_W_P0_IRQ_ENABLE
  | XPI_W_P0_IRQ_DISABLE
  | XPI_W_P0_LED_SET
  | XPI_W_P0_LED_CLEAR
  | XPI_W_P0_FC_CONTROL
  | XPI_W_P0_GLB_CONTROL
  | XPI_W_P1_SC_CTX_DATA
  | XPI_W_P1_SC_CTX_INCFIFO
  deriving DecidableEq, Repr

/-- A telemetry record as handed to `usbOut.Put( &msg, sizeof( XPI_IMSG_HEADER ) + n, t )`:
message type, subtype and the `n` payload octets that are sent. -/
structure Msg where
  type : Nat
  subtype : Nat
  data : List Nat
  deriving DecidableEq, Repr

/-- One call of `tracef( 2, fmt, args... )`: the format text and the numeric
arguments. -/
structure TraceLine where
  fmt : String
  args : List Int
  deriving DecidableEq, Repr

/-- The member variables of `class XPI`, together with the logs of the calls
that leave the engine and the line that `usb_putc` has collected so far (its
static `sMsg.data[ 0 .. dataLen )`). -/
structure XPI where
  semaFull : Nat
  semaEmpty : Nat
  semaSent : Nat
  buf : Nat → Nat
  pRead : Nat
  pWrite : Nat
  ctx_count : Nat
  pCtx : Nat
  ctx_status : Int
  fpgaOK : Bool
  isMCPU : Bool
  boardPos : Nat
  maxboardc : Int
  traceMask : Nat
  state : STATE
  lastTick : Nat
  timer : Int
  isEIRQ : Bool
  isCTXE : Bool
  poll_list : Nat → Nat
  poll_cur : Int
  poll_active_cnt : Int
  rearrange_poll_list : Bool
  eirq_count : Nat
  stuck_eirq_count : Nat
  sCTX_subtype : Nat
  sCTX_data : Nat → Nat
  ctxLen : Nat
  ctxCkSum : Nat
  sCRX_subtype : Nat
  sCRX_data : Nat → Nat
  crxLen : Nat
  crxCkSum : Nat
  requestID : Nat
  dTimerTick : Nat
  usbOut : List Msg
  logLine : List Nat
  fpgaWrites : List (Reg × Nat)
  traceOut : List TraceLine

/-- Store of one octet: the memory `mem` with offset `i` set to `v`. -/
def setAt (mem : Nat → Nat) (i v : Nat) : Nat → Nat :=
  fun j => if j = i then v else mem j

/-- The library call `memcpy( dst, src, n )` into the memory `mem`, where `dst`
is an offset in `mem`. -/
def memcpy (mem : Nat → Nat) (dst : Nat) (src : Nat → Nat) (n : Nat) : Nat → Nat :=
  fun j => if dst ≤ j ∧ j < dst + n then src (j - dst) else mem j

/-- The `n` octets stored in `mem` from offset `p` on. -/
def frameAt (mem : Nat → Nat) (p n : Nat) : List Nat :=
  (List.range n).map (fun i => mem (p + i))

/-- A loop `for ( int i = lo; i < hi; i++ ) s = body( i, s )`. -/
def forRange {σ : Type} (lo hi : Int) (body : Int → σ → σ) (s : σ) : σ :=
  (List.range (hi - lo).toNat).foldl (fun s k => body (lo + (k : Int)) s) s

/-! ## Frame checksum -/

/-- One step of the checksum as coded in `On_CRX` and `On_CTX`:
`c ^= b; c <<= 1; if ( c & 0x100 ) { c &= 0xFF; c |= 0x01; }`. -/
def ckUpdate (c b : Nat) : Nat :=
  let c1 := c ^^^ b
  let c2 := c1 <<< 1
  if c2 &&& 0x100 ≠ 0 then (c2 &&& 0xFF) ||| 0x01 else c2

/-- The checksum accumulated over a byte sequence, from the seed `0xFF` that
begins every frame (`crxCkSum = 0xFF`). -/
def acc (s : List Nat) : Nat :=
  s.foldl ckUpdate 0xFF

/-- Rotation of an 8-bit value to the left by `k` positions, the operation the
specification names `rotl8`. -/
def rotl8 (x k : Nat) : Nat :=
  ((x <<< k) ||| (x >>> (8 - k))) % 256

/-- Two byte sequences of the same length that differ in exactly one position. -/
def DiffersInOneByte (f f' : List Nat) : Prop :=
  f.length = f'.length ∧
    ∃ i, i < f.length ∧ f[i]? ≠ f'[i]? ∧ ∀ j, j < f.length → j ≠ i → f[j]? = f'[j]?

/-! ## Elementary operations on the engine -/

/-- The inline member `Goto( new_state, timeout )`. -/
def XPI.Goto (x : XPI) (new_state : STATE) (timeout : Int) : XPI :=
  { x with
    state := new_state
    timer := if timeout < 0 then -1 else timeout
    lastTick := x.dTimerTick }

/-- A call `FPGA_Write( reg, data )`, appended to the log of register writes. -/
def XPI.FPGA_Write (x : XPI) (reg : Reg) (data : Nat) : XPI :=
  { x with fpgaWrites := x.fpgaWrites ++ [(reg, data)] }

/-- A call `usbOut.Put( &msg, ... )`, appended to the log of telemetry records. -/
def XPI.usbOutPut (x : XPI) (m : Msg) : XPI :=
  { x with usbOut := x.usbOut ++ [m] }

/-- The loop `do *bp++ = digits[ v % base ]; while( ( v /= base ) != 0 );` of
`tracef`: the digit values of `v`, least significant first.  The first argument
bounds the number of digits; 32 are enough for a 32-bit value. -/
def digitLoop (base : Nat) : Nat → Nat → List Nat
  | 0, _ => []
  | fuel + 1, v => (v % base) :: (if v / base = 0 then [] else digitLoop base fuel (v / base))

/-- The character `HexDigits[ d ]` (capital letters) or `hexDigits[ d ]`. -/
def hexDigit (capital : Bool) (d : Nat) : Int :=
  if d < 10 then 0x30 + d else if capital then 0x41 + (d - 10) else 0x61 + (d - 10)

/-- The loop `while( isDigit( *f ) ) { n *= 10; n += *f++ - '0'; }` of `tracef`:
the number read and the rest of the format. -/
def readNumber : List Nat → Nat → Nat × List Nat
  | [], v => (v, [])
  | c :: f, v => if 0x30 ≤ c ∧ c ≤ 0x39 then readNumber f (v * 10 + (c - 0x30)) else (v, c :: f)

/-- A number field of `tracef`: the characters `body` (the content of the local
`buf`, printed last digit first) padded to `width`, on the left with `0` or a
blank, or on the right with blanks when the field is flushed left. -/
def padField (flushLeft padZero : Bool) (width : Int) (body : List Int) : List Int :=
  let w := width - body.length
  if flushLeft then body ++ List.replicate w.toNat 0x20
  else List.replicate w.toNat (if padZero then 0x30 else 0x20) ++ body

/-- The characters that `tracef( 2, f, ap... )` hands to `putc`, in order
(`lib/stdio.cpp`; descriptor 2 is opened without time stamp and without the
translation of line feeds).  The format is a list of character codes, the first
argument bounds the number of steps (one per character of the format is enough).
After a `%` come the flag `-`, the flag `0` or `.`, the width (`*` or digits), the
precision (`.` then `*` or digits), `l` or `L`, `h` or `H` and the conversion:
`%`, `d` (an `int`), `x`, `X`, `u`, `o` (a `uint`) and `c`.  The conversion `s`
takes a pointer, which no call of the engine passes; it prints nothing here, as
an unknown conversion does. -/
def tracefText : Nat → List Nat → List Int → List Int
  | 0, _, _ => []
  | _, [], _ => []
  | fuel + 1, c :: f, ap =>
    if c ≠ 0x25 then (c : Int) :: tracefText fuel f ap
    else
      -- if ( *f == '-' ) ...; if ( *f == '0' || *f == '.' ) ...
      let flushLeft := f.head? = some 0x2D
      let f1 := if flushLeft then f.tail else f
      let padZero := f1.head? = some 0x30 ∨ f1.head? = some 0x2E
      let f2 := if padZero then f1.tail else f1
      -- field width
      let star := f2.head? = some 0x2A
      let width : Int := if star then ap.headD 0 else ((readNumber f2 0).1 : Int)
      let ap1 := if star then ap.tail else ap
      let f3 := if star then f2.tail else (readNumber f2 0).2
      -- field precision
      let dot := f3.head? = some 0x2E
      let f4 := if dot then f3.tail else f3
      let pstar := dot ∧ f4.head? = some 0x2A
      let ap2 := if pstar then ap1.tail else ap1
      let f5 := if pstar then f4.tail else if dot then (readNumber f4 0).2 else f4
      -- long and short specifiers
      let f6 := if f5.head? = some 0x4C ∨ f5.head? = some 0x6C then f5.tail else f5
      let f7 := if f6.head? = some 0x48 ∨ f6.head? = some 0x68 then f6.tail else f6
      match f7 with
      | [] => []
      | t :: rest =>
        if t = 0x25 then 0x25 :: tracefText fuel rest ap2
        else if t = 0x64 then
          let v := (ap2.headD 0 + 2 ^ 31) % 2 ^ 32 - 2 ^ 31
          let digits := ((digitLoop 10 32 v.natAbs).map (hexDigit true)).reverse
          padField flushLeft padZero width ((if v < 0 then [0x2D] else []) ++ digits)
            ++ tracefText fuel rest ap2.tail
        else if t = 0x78 ∨ t = 0x58 ∨ t = 0x75 ∨ t = 0x6F then
          let v := (ap2.headD 0 % 2 ^ 32).toNat
          let digits :=
            if t = 0x75 then (digitLoop 10 32 v).map (hexDigit true)
            else if t = 0x6F then (digitLoop 8 32 v).map (hexDigit true)
            else if t = 0x58 then (digitLoop 16 32 v).map (hexDigit true)
            else (digitLoop 16 32 v).map (hexDigit false)
          padField flushLeft padZero width digits.reverse ++ tracefText fuel rest ap2.tail
        else if t = 0x63 then ap2.headD 0 :: tracefText fuel rest ap2.tail
        else tracefText fuel rest ap2

/-- The function `usb_putc( ch )` (`sam7xpud.cpp`) on the line collected so far
and the records handed to `usbOut.Put`: a character other than the line feed is
stored, and at a line feed or with 128 octets stored the line goes out as an
`XPI_IMSG_LOG` record with subtype 0. -/
def usb_putc (s : List Nat × List Msg) (ch : Int) : List Nat × List Msg :=
  let line := if ch ≠ 0x0A then s.1 ++ [(ch % 256).toNat] else s.1
  if ch = 0x0A ∨ line.length ≥ 128 then
    ([], s.2 ++ [{ type := XPI_IMSG_LOG, subtype := 0, data := line }])
  else (line, s.2)

/-- The line left in `usb_putc` and the records handed to `usbOut.Put` by one
call `tracef( 2, fmt, args... )` that finds the line `line` collected. -/
def usbLog (line : List Nat) (fmt : String) (args : List Int) : List Nat × List Msg :=
  (tracefText fmt.length (fmt.toList.map Char.toNat) args).foldl usb_putc (line, [])

/-- A call `tracef( 2, fmt, args... )`: the records of its text are appended to
`usbOut`, the call to the list of calls. -/
def XPI.tracef (x : XPI) (fmt : String) (args : List Int) : XPI :=
  { x with
    usbOut := x.usbOut ++ (usbLog x.logLine fmt args).2
    logLine := (usbLog x.logLine fmt args).1
    traceOut := x.traceOut ++ [{ fmt := fmt, args := args }] }

/-- The telemetry records of a stream: all records but the text lines
(`XPI_IMSG_LOG`) of `tracef`. -/
def telemetry (l : List Msg) : List Msg :=
  l.filter (fun m => decide (m.type ≠ XPI_IMSG_LOG))

/-- The record `sCRX` with its first `crxLen` data octets, as sent by
`usbOut.Put( &sCRX, sizeof( XPI_IMSG_HEADER ) + crxLen, 1000 )`. -/
def XPI.sCRX (x : XPI) : Msg :=
  { type := XPI_IMSG_TRACE_CRX, subtype := x.sCRX_subtype, data := frameAt x.sCRX_data 0 x.crxLen }

/-- The record `sCTX` with its first `ctxLen` data octets. -/
def XPI.sCTX (x : XPI) : Msg :=
  { type := XPI_IMSG_TRACE_CTX, subtype := x.sCTX_subtype, data := frameAt x.sCTX_data 0 x.ctxLen }

/-! ## Poll list -/

/-- The member `ResetPollList`: all boards passive, in slot order. -/
def XPI.ResetPollList (x : XPI) : XPI :=
  { x with
    poll_list := forRange 0 x.maxboardc (fun i pl => setAt pl i.toNat (i.toNat % 256)) x.poll_list
    poll_cur := -1
    poll_active_cnt := 0
    rearrange_poll_list := false }

/-- The member `MarkBoardActive( active )`. -/
def XPI.MarkBoardActive (x : XPI) (active : Bool) : XPI :=
  if x.poll_cur < 0 then x
  else
    let cur := x.poll_cur.toNat
    let x1 : XPI :=
      if active then { x with poll_list := setAt x.poll_list cur (x.poll_list cur ||| 0x80) }
      else { x with poll_list := setAt x.poll_list cur (x.poll_list cur &&& 0x7F) }
    if active ∧ x1.poll_cur ≥ x1.poll_active_cnt then
      { x1.tracef "SC: Board %02x Active\n" [((x1.poll_list cur &&& 0x3F : Nat) : Int)] with
        rearrange_poll_list := true }
    else if ¬ active ∧ x1.poll_cur < x1.poll_active_cnt then
      { x1.tracef "SC: Board %02x Passive\n" [((x1.poll_list cur &&& 0x3F : Nat) : Int)] with
        rearrange_poll_list := true }
    else x1

/-- The loop state of `RearrangePollList`: the list, the scratch cursor `j`
(or the target cursor `k`) and a counter. -/
structure RearrangeLoop where
  pl : Nat → Nat
  cursor : Int
  count : Int

/-- A collecting pass of `RearrangePollList` over `lo <= i < hi`:
entries whose high bit equals `flagged` are copied to `poll_list[ j++ ]`
and counted. -/
def collectPass (lo hi : Int) (flagged : Bool) (s : RearrangeLoop) : RearrangeLoop :=
  forRange lo hi
    (fun i (s : RearrangeLoop) =>
      if (decide (s.pl i.toNat &&& 0x80 ≠ 0)) = flagged then
        { pl := setAt s.pl s.cursor.toNat (s.pl i.toNat)
          cursor := s.cursor + 1
          count := s.count + 1 }
      else s)
    s

/-- The member `RearrangePollList`. -/
def XPI.RearrangePollList (x : XPI) : XPI :=
  if ¬ x.rearrange_poll_list then x
  else
    let N : Int :=
      if x.poll_cur ≥ x.maxboardc then x.maxboardc
      else if x.poll_cur < x.poll_active_cnt then x.poll_active_cnt
      else x.poll_cur + 1
    -- new active boards from the old passive list
    let s1 := collectPass x.poll_active_cnt N true
      { pl := x.poll_list, cursor := x.maxboardc, count := 0 }
    let new_active := s1.count
    -- new passive boards from the old active list
    let s2 := collectPass 0 x.poll_active_cnt false { s1 with count := 0 }
    let new_passive := s2.count
    -- old passive boards from the old passive list
    let s3 := collectPass x.poll_active_cnt N false s2
    let j := s3.cursor
    -- old active boards from the old active list, moved to the front
    let s4 := forRange 0 x.poll_active_cnt
      (fun i (s : RearrangeLoop) =>
        if s.pl i.toNat &&& 0x80 ≠ 0 then
          if s.cursor ≠ i then
            { s with pl := setAt s.pl s.cursor.toNat (s.pl i.toNat), cursor := s.cursor + 1 }
          else { s with cursor := s.cursor + 1 }
        else s)
      { pl := s3.pl, cursor := 0, count := 0 }
    -- the rest of the boards
    let s5 := forRange x.maxboardc j
      (fun i (s : RearrangeLoop) => { s with pl := setAt s.pl s.cursor.toNat (s.pl i.toNat), cursor := s.cursor + 1 })
      s4
    let x1 := { x with rearrange_poll_list := false, poll_list := s5.pl }
    let x2 := x1.tracef "SC: Active boards %d+%d-%d\n" [x.poll_active_cnt, new_active, new_passive]
    { x2 with poll_active_cnt := x.poll_active_cnt + new_active - new_passive }

/-- The member `PollNextBoard`. -/
def XPI.PollNextBoard (x : XPI) : XPI :=
  let x1 := { x with poll_cur := if x.poll_cur < 0 then 0 else x.poll_cur + 1 }
  if x1.poll_cur ≥ x1.maxboardc then
    let x2 := x1.tracef "SC: SEVERE ERROR: EIRQ stuck.\n" []
    let x3 := { x2 with stuck_eirq_count := (x2.stuck_eirq_count + 1) % 2 ^ 32 }
    let x4 := x3.RearrangePollList
    let x5 := (x4.FPGA_Write .XPI_W_PAGE_ADDR 0).FPGA_Write .XPI_W_P0_IRQ_ENABLE XPI_IRQ_EIRQ
    x5.Goto .IDLE (-1)
  else
    let x2 := { x1 with isCTXE := false }
    let x3 := x2.FPGA_Write .XPI_W_PAGE_ADDR 1
    let x4 := x3.FPGA_Write .XPI_W_P1_SC_CTX_DATA (x3.poll_list x3.poll_cur.toNat &&& 0x3F)
    let x5 := x4.FPGA_Write .XPI_W_P1_SC_CTX_INCFIFO 0x00
    x5.Goto .POLL_EIRQ EIRQ_POLL_DELAY

/-! ## The constructor -/

/-- The engine as built by the constructor `XPI::XPI` (the object has static
storage, so the arrays start zeroed). -/
def XPI.init : XPI :=
  XPI.ResetPollList
    { semaFull := XPI_XMTR_BUF_SIZE
      semaEmpty := 0
      semaSent := 0
      buf := fun _ => 0
      pRead := 0
      pWrite := 0
      ctx_count := 0
      pCtx := 0
      ctx_status := 0
      fpgaOK := false
      isMCPU := false
      boardPos := 0xFF
      maxboardc := MAX_BOARD_COUNT
      traceMask := 0
      state := .DISABLED
      lastTick := 0
      timer := -1
      isEIRQ := false
      isCTXE := false
      poll_list := fun _ => 0
      poll_cur := -1
      poll_active_cnt := 0
      rearrange_poll_list := false
      eirq_count := 0
      stuck_eirq_count := 0
      sCTX_subtype := 0
      sCTX_data := fun _ => 0
      ctxLen := 0
      ctxCkSum := 0xFF
      sCRX_subtype := 0
      sCRX_data := fun _ => 0
      crxLen := 0
      crxCkSum := 0xFF
      requestID := 0
      dTimerTick := 0
      usbOut := []
      logLine := []
      fpgaWrites := []
      traceOut := [] }

/-! ## Response channel: `On_CRX` -/

/-- The statements `sCRX.data[ crxLen ] = octet;` up to `++crxLen;` shared by
both roles: store the octet, update the checksum, advance the length. -/
def XPI.collectCRX (x : XPI) (octet : Nat) : XPI :=
  let x1 := { x with sCRX_data := setAt x.sCRX_data x.crxLen (octet % 256) }
  let x2 := { x1 with crxCkSum := ckUpdate x1.crxCkSum (x1.sCRX_data x1.crxLen) }
  { x2 with crxLen := x2.crxLen + 1 }

/-- The record `sMsg` that reports an octet received in a state that does not
expect it (subtype 3, payload: the octet and the state). -/
def unsolicitedCRX (octet : Nat) (st : STATE) : Msg :=
  { type := XPI_IMSG_TRACE_CRX, subtype := 3, data := [octet % 256, st.toNat] }

/-- The tail of the master branch of `On_CRX` from `// Collect CRX data` on. -/
def XPI.On_CRX_collect (x : XPI) (octet : Nat) : XPI :=
  let x1 := x.collectCRX octet
  if x1.crxLen < 2 ∨ x1.crxLen ≠ 3 + (x1.sCRX_data 1 &&& 0x0F) then
    x1.Goto .RECEIVE_CRX RECEIVE_TIMEOUT
  else
    let x2 := { x1 with sCRX_subtype := if x1.crxCkSum ≠ 0 then 1 else 0 }
    let x3 := x2.usbOutPut x2.sCRX
    let x4 := { x3 with crxLen := 0, crxCkSum := 0xFF }
    let x5 :=
      if ¬ x4.isCTXE then
        x4.tracef "SC: Error: trying to ACK CRX but CTXE is not empty\n" []
      else
        let ackid := 0x40 ||| (x4.sCRX_data 0 &&& 0x3F)
        let y1 := { x4 with isCTXE := false }
        let y2 := y1.FPGA_Write .XPI_W_PAGE_ADDR 1
        let y3 := y2.FPGA_Write .XPI_W_P1_SC_CTX_DATA ackid
        y3.FPGA_Write .XPI_W_P1_SC_CTX_INCFIFO 0x00
    let x6 := x5.RearrangePollList
    x6.Goto .WAIT_CTXE CTXE_TIMEOUT

/-- The member `On_CRX` from the test of the role on; `octet` is the value of
`FPGA_Read( XPI_R_P0_SC_CRX )`.  The statements before, which select page 0 and
read the octet, are made by the caller (see `XPI.step`). -/
def XPI.On_CRX (x : XPI) (octet : Nat) : XPI :=
  if x.isMCPU then
    if x.state = .WAIT_ACK then
      let ackid := 0x40 ||| (x.buf x.pRead &&& 0x3F)
      let x1 : XPI :=
        if octet = ackid then { x with ctx_status := 0 }
        else { x with ctx_status := ((0x80 ||| x.buf x.pRead : Nat) : Int) }
      let x2 :=
        if x1.traceMask &&& DBG_ACK ≠ 0 then
          x1.usbOutPut
            { type := XPI_IMSG_TRACE_CRX
              subtype := if x1.ctx_status ≠ 0 then 4 else 0
              data := [octet % 256] }
        else x1
      let x3 := { x2 with semaSent := x2.semaSent + 1 }
      if x3.isCTXE then x3.Goto .IDLE (-1)
      else x3.Goto .WAIT_CTXE CTXE_TIMEOUT
    else if x.state = .POLL_EIRQ ∨ x.state = .RECEIVE_CRX then
      if x.state = .POLL_EIRQ then
        if x.poll_cur < 0 then x
        else if (x.poll_list x.poll_cur.toNat &&& 0x3F) ≠ (octet &&& 0x3F) then
          let x1 := x.tracef "SC: Poll #%d: %02x, Respond %02x\n"
            [x.poll_cur, ((x.poll_list x.poll_cur.toNat &&& 0x3F : Nat) : Int), (octet : Int)]
          (x1.MarkBoardActive false).PollNextBoard
        else if octet &&& 0xC0 = 0x00 then
          (x.MarkBoardActive true).PollNextBoard
        else if octet &&& 0xC0 = 0x40 then x
        else
          let x1 := x.MarkBoardActive true
          let x2 := { x1 with crxLen := 0, crxCkSum := 0xFF }
          let x3 := (x2.FPGA_Write .XPI_W_PAGE_ADDR 0).FPGA_Write .XPI_W_P0_IRQ_ENABLE XPI_IRQ_EIRQ
          x3.On_CRX_collect octet
      else x.On_CRX_collect octet
    else
      x.usbOutPut (unsolicitedCRX octet x.state)
  else if x.state = .IDLE ∨ x.state = .RECEIVE_CRX ∨ x.state = .POLL_EIRQ then
    let x1 : XPI :=
      if x.state = .IDLE ∨ x.state = .POLL_EIRQ then { x with crxLen := 0, crxCkSum := 0xFF }
      else x
    let x2 := x1.Goto .RECEIVE_CRX RECEIVE_TIMEOUT
    let x3 := x2.collectCRX octet
    if x3.sCRX_data 0 &&& 0xC0 = 0x40 then
      let x4 := { x3 with sCRX_subtype := 0 }
      let x5 := x4.usbOutPut x4.sCRX
      let x6 := { x5 with crxLen := 0 }
      x6.Goto .IDLE (-1)
    else if x3.crxLen ≥ 2 ∧ x3.crxLen = 3 + (x3.sCRX_data 1 &&& 0x0F) then
      let x4 := { x3 with sCRX_subtype := if x3.crxCkSum ≠ 0 then 1 else 0 }
      let x5 := x4.usbOutPut x4.sCRX
      let x6 := { x5 with crxLen := 0, crxCkSum := 0xFF }
      x6.Goto .IDLE (-1)
    else x3
  else
    x.usbOutPut (unsolicitedCRX octet x.state)

/-- Feeding a byte sequence to `On_CRX`, one octet per call. -/
def XPI.feedCRX (x : XPI) (f : List Nat) : XPI :=
  f.foldl XPI.On_CRX x

/-! ## Outbound staging queue: `Put` and `Transmitter` -/

/-- The flow-control record with which `Put` reports a full buffer: subtype
`0x77`, payload `pReqId[0]`, `pReqId[1]`. -/
def flowCtrlFull (data : Nat → Nat) : Msg :=
  { type := XPI_IMSG_FLOW_CTRL, subtype := 0x77, data := [data 0, data 1] }

/-- The conversion `(signed portBASE_TYPE) n` of a 32-bit value. -/
def toSigned (n : Nat) : Int :=
  if n % 2 ^ 32 < 2 ^ 31 then ((n % 2 ^ 32 : Nat) : Int) else ((n % 2 ^ 32 : Nat) : Int) - 2 ^ 32

/-- The test that makes `xSEMA::Wait( count, ticks )` fail when no other task
releases the semaphore during the wait: `xItemCount < (signed portBASE_TYPE) count`
(`rtos/sema.cpp`); `xItemCount` is a signed and `count` an unsigned 32-bit
value. -/
def semaWaitFails (items count : Nat) : Prop :=
  toSigned items < toSigned count

instance (items count : Nat) : Decidable (semaWaitFails items count) :=
  inferInstanceAs (Decidable (_ < _))

/-- The circular advance of a cursor: `if ( p >= pMax ) p -= bufSize;`. -/
def wrapPtr (p : Nat) : Nat :=
  if p ≥ XPI_XMTR_BUF_SIZE then p - XPI_XMTR_BUF_SIZE else p

/-- The member `Put( data, len, xTicksToWait )`; `data` is the caller's memory
from the pointer on, `len` a `uint` (a value below `2 ^ 32`).  The result is the
returned flag and the engine afterwards.  The argument `len + 2` of
`semaFull.Wait` is computed in `uint`, and the wait compares the item count with
it as a signed value (`xItemCount >= (signed portBASE_TYPE) count`, see
`semaWaitFails`).  The calls are run one at a time, so the mutex around the
write cursor (`LockWrite` / `UnlockWrite`) has no effect.  The header and
`memcpy` write the offsets `pWrite .. pWrite + len + 1`; when that reaches past
the end of the array `buf` the behaviour is undefined and there is no result. -/
def XPI.Put (x : XPI) (data : Nat → Nat) (len : Nat) (xTicksToWait : Nat) :
    Option (Bool × XPI) :=
  if semaWaitFails x.semaFull ((len + 2) % 2 ^ 32) then
    if xTicksToWait ≠ 0 then
      some (false, x.usbOutPut (flowCtrlFull data))
    else some (false, x)
  else if XPI_BUF_LEN < x.pWrite + 2 + len then none
  else
    -- *pWrite++ = ( len >> 8 ) & 0xFF; *pWrite++ = len & 0xFF;
    let mem1 := setAt x.buf x.pWrite ((len >>> 8) &&& 0xFF)
    let mem2 := setAt mem1 (x.pWrite + 1) (len &&& 0xFF)
    -- memcpy( pWrite, data, len ); pWrite += len; if ( pWrite >= pMax ) pWrite -= bufSize;
    let mem3 := memcpy mem2 (x.pWrite + 2) data len
    some (true,
      { x with
        semaFull := x.semaFull - (len + 2)
        buf := mem3
        pWrite := wrapPtr (x.pWrite + 2 + len)
        semaEmpty := x.semaEmpty + (len + 2) })

/-- What one call of `Transmitter` decoded and did: the frame length after
`len -= 2`, the request id, the frame octets `pRead[ 0 .. len )` as found when
they were decoded, the frame octets handed over at each delivery attempt
(`pCtx = pRead; ctx_count = len`), and the argument of the final
`semaFull.Release`. -/
structure TxResult where
  len : Nat
  requestID : Nat
  frame : List Nat
  attempts : List (List Nat)
  released : Nat
  deriving DecidableEq, Repr

/-- The resend step of `Transmitter` on the frame `pRead[ 0 .. len )`:
`pRead[0] |= ( 1 << 5 ); pCkSum = pRead + len - 1;
*pCkSum ^= ( 1 << ( ( 5 + len - 1 ) & 0x07 ) );` (`len` is a `uint`, addresses
are 32 bits wide). -/
def resendFlip (mem : Nat → Nat) (pRead len : Nat) : Nat → Nat :=
  let mem1 := setAt mem pRead (mem pRead ||| (1 <<< 5))
  let pCkSum := (pRead + len + 2 ^ 32 - 1) % 2 ^ 32
  setAt mem1 pCkSum (mem1 pCkSum ^^^ (1 <<< ((5 + len + 2 ^ 32 - 1) % 2 ^ 32 &&& 0x07)))

/-- The flow-control record that `Transmitter` sends after a failed delivery:
`sMsg.subtype = ctx_status` (stored into a `uchar`), payload the request id,
most significant octet first. -/
def flowCtrlFailed (ctx_status : Int) (requestID : Nat) : Msg :=
  { type := XPI_IMSG_FLOW_CTRL
    subtype := (ctx_status % 256).toNat
    data := [(requestID >>> 8) &&& 0xFF, requestID &&& 0xFF] }

/-- The delivery loop `for ( int retry = 0; retry < 2; retry++ )` of
`Transmitter` in master role.  The first argument lists the values that
`ctx_status` holds each time `semaSent.Wait` returns, one per delivery attempt;
each stands for one `semaSent.Release` of the dispatcher paired with the wait, so
the count of `semaSent` is left as it is.  When the list is used up the wait
never returns and there is no result.  The second argument is `retry`, the last
one collects the frames handed over so far.  The wake-up of the dispatcher
(`fpgaEvent.Release`) belongs to the scheduling and is left out; every wait is
taken to return within its 1000 ticks, so that the text line `SC: Wait`, printed
once for every further second of waiting, does not occur. -/
def XPI.deliverLoop (len : Nat) : List Int → Nat → XPI → List (List Nat) →
    Option (XPI × List (List Nat))
  | [], retry, x, att => if retry < 2 then none else some (x, att)
  | s :: rest, retry, x, att =>
    if retry < 2 then
      let x1 := { x with ctx_status := -1, pCtx := x.pRead, ctx_count := len }
      let att1 := att ++ [frameAt x1.buf x1.pCtx x1.ctx_count]
      -- semaSent.Wait( 1, 1000 ) has returned
      let x2 := { x1 with ctx_status := s }
      if x2.ctx_status = 0 then
        if x2.buf x2.pRead &&& 0xE0 ≠ 0xC0 then some (x2, att1)
        else
          let x3 := { x2 with buf := resendFlip x2.buf x2.pRead len }
          -- retry = 0, then retry++ of the loop
          XPI.deliverLoop len rest (0 + 1) x3 att1
      else
        let x3 := x2.tracef "SC: CTX Retrying %04x (%d)\n" [(x2.requestID : Int), (retry : Int) + 1]
        XPI.deliverLoop len rest (retry + 1) x3 att1
    else some (x, att)

/-- The master branch of `Transmitter`: the delivery loop, then the
flow-control record when the last status is not `0`. -/
def XPI.deliver (x : XPI) (len : Nat) (statuses : List Int) : Option (XPI × List (List Nat)) :=
  match XPI.deliverLoop len statuses 0 x [] with
  | none => none
  | some (y, att) =>
    if y.ctx_status ≠ 0 then some (y.usbOutPut (flowCtrlFailed y.ctx_status y.requestID), att)
    else some (y, att)

/-- The member `Transmitter`, one message.  There is no result when the call
never returns: the queue holds fewer octets than the call waits for, or (master
role) the completion statuses are used up. -/
def XPI.Transmitter (x : XPI) (statuses : List Int) : Option (XPI × TxResult) :=
  -- do ; while( ! semaEmpty.Wait( 2, 1000 ) );
  if x.semaEmpty < 2 then none
  else
    -- uint len = *pRead++; len = ( len << 8 ) | *pRead++;
    let len0 := (x.buf x.pRead <<< 8) ||| x.buf (x.pRead + 1)
    -- do ; while( ! semaEmpty.Wait( len, 1000 ) );
    if x.semaEmpty - 2 < len0 then none
    else
      -- requestID = *pRead++; requestID = ( requestID << 8 ) | *pRead++; len -= 2;
      let x1 :=
        { x with
          semaEmpty := x.semaEmpty - 2 - len0
          requestID := (x.buf (x.pRead + 2) <<< 8) ||| x.buf (x.pRead + 3)
          pRead := x.pRead + 4 }
      let len := (len0 + 2 ^ 32 - 2) % 2 ^ 32
      let frame := frameAt x1.buf x1.pRead len
      match (if x1.isMCPU then x1.deliver len statuses else some (x1, [])) with
      | none => none
      | some (x2, att) =>
        -- pRead += len; if ( pRead >= pMax ) pRead -= bufSize; semaFull.Release( len + 4 );
        some
          ({ x2 with
             pRead := wrapPtr ((x2.pRead + len) % 2 ^ 32)
             semaFull := x2.semaFull + (len + 4) % 2 ^ 32 },
           { len := len, requestID := x2.requestID, frame := frame, attempts := att,
             released := (len + 4) % 2 ^ 32 })

/-- A call on the queue: `Put`, `Transmitter` (with the completion statuses its
delivery attempts meet), or a change of the role flag by the dispatcher side
(`InitializeFPGA` / `ResetFPGA`) between two calls. -/
inductive Op where
  | put (data : Nat → Nat) (len : Nat) (xTicksToWait : Nat)
  | transmit (statuses : List Int)
  | role (isMCPU : Bool)

/-- What a call on the queue gave back. -/
inductive Ev where
  | putDone (ok : Bool)
  | sent (r : TxResult)
  deriving DecidableEq, Repr

/-- A sequence of calls on the queue, run one after the other; the events are
collected in order.  There is no result when a `Transmitter` call never returns
or a `Put` writes outside `buf`. -/
def XPI.run : XPI → List Op → Option (XPI × List Ev)
  | x, [] => some (x, [])
  | x, .put data len t :: ops =>
    match x.Put data len t with
    | none => none
    | some (ok, x1) =>
      match XPI.run x1 ops with
      | none => none
      | some (y, evs) => some (y, .putDone ok :: evs)
  | x, .transmit sts :: ops =>
    match x.Transmitter sts with
    | none => none
    | some (x1, r) =>
      match XPI.run x1 ops with
      | none => none
      | some (y, evs) => some (y, .sent r :: evs)
  | x, .role b :: ops => XPI.run { x with isMCPU := b } ops

/-- The messages handed to `Put` in a sequence of calls: length and octets. -/
def putMsgs : List Op → List (List Nat)
  | [] => []
  | .put data len _ :: ops => frameAt data 0 len :: putMsgs ops
  | _ :: ops => putMsgs ops

/-- The results of the `Transmitter` calls among the events. -/
def sentResults : List Ev → List TxResult
  | [] => []
  | .sent r :: evs => r :: sentResults evs
  | _ :: evs => sentResults evs

/-- The flags returned by the `Put` calls among the events. -/
def putFlags : List Ev → List Bool
  | [] => []
  | .putDone ok :: evs => ok :: putFlags evs
  | _ :: evs => putFlags evs

/-! ## `StartTransmissionIfIdle` -/

/-- The loop `for ( uint i = 0; i < ctx_count; i++ )` of `StartTransmissionIfIdle`:
each pending octet `*pCtx++` is written to the command-channel data register,
followed by a write that advances the FIFO. -/
def XPI.writeCtx : Nat → XPI → XPI
  | 0, x => x
  | n + 1, x =>
    let x1 := x.FPGA_Write .XPI_W_P1_SC_CTX_DATA (x.buf x.pCtx)
    let x2 := { x1 with pCtx := x1.pCtx + 1 }
    XPI.writeCtx n (x2.FPGA_Write .XPI_W_P1_SC_CTX_INCFIFO 0x00)

/-- The member `StartTransmissionIfIdle`. -/
def XPI.StartTransmissionIfIdle (x : XPI) : XPI :=
  if ¬ (x.isMCPU ∧ x.state = .IDLE ∧ x.isCTXE) then x
  else
    let x1 := (x.FPGA_Write .XPI_W_PAGE_ADDR 0).FPGA_Write .XPI_W_P0_LED_CLEAR XPI_LED_Y
    if x1.isEIRQ then
      let x2 :=
        { x1 with
          isEIRQ := false
          poll_cur := -1
          rearrange_poll_list := false
          eirq_count := (x1.eirq_count + 1) % 2 ^ 32
          isCTXE := false }
      let x3 := x2.FPGA_Write .XPI_W_PAGE_ADDR 1
      let x4 := x3.FPGA_Write .XPI_W_P1_SC_CTX_DATA
        (if x3.poll_cur < 0 then 0xC0 else x3.poll_list x3.poll_cur.toNat &&& 0x3F)
      let x5 := x4.FPGA_Write .XPI_W_P1_SC_CTX_INCFIFO 0x00
      let x6 := x5.Goto .POLL_EIRQ EIRQ_POLL_DELAY
      (x6.FPGA_Write .XPI_W_PAGE_ADDR 0).FPGA_Write .XPI_W_P0_LED_SET XPI_LED_Y
    else if x1.ctx_count > 0 then
      let x2 := { x1 with isCTXE := false }
      let x3 := x2.FPGA_Write .XPI_W_PAGE_ADDR 1
      let x4 := XPI.writeCtx x3.ctx_count x3
      let x5 := { x4 with ctx_count := 0 }
      let x6 :=
        if x5.buf x5.pRead &&& 0xC0 = 0x80 then x5.Goto .WAIT_ACK RECEIVE_TIMEOUT
        else x5.Goto .WAIT_SENT CTXE_TIMEOUT
      (x6.FPGA_Write .XPI_W_PAGE_ADDR 0).FPGA_Write .XPI_W_P0_LED_SET XPI_LED_Y
    else x1

/-- The octets written to the command-channel data register
(`XPI_W_P1_SC_CTX_DATA`) among a log of register writes, in order. -/
def ctxDataWrites (log : List (Reg × Nat)) : List Nat :=
  (log.filter (fun w => w.1 = Reg.XPI_W_P1_SC_CTX_DATA)).map Prod.snd

/-! ## Reset and initialisation -/

/-- The register writes of one `FPGA_FC_Command( cmd )` (`fpga.cpp`): page 0,
the control register cleared, the eight data bits of `cmd` from bit 7 down, each
written with the clock low and then high, the enable pulse, and the control
register cleared again. -/
def fcCommandWrites (cmd : Nat) : List (Reg × Nat) :=
  [(Reg.XPI_W_PAGE_ADDR, 0), (Reg.XPI_W_P0_FC_CONTROL, 0x00)] ++
  (List.range 8).flatMap
    (fun i =>
      let fcd := if (cmd <<< i) &&& 0x80 ≠ 0 then XPI_FC_FCD else 0
      [(Reg.XPI_W_P0_FC_CONTROL, fcd), (Reg.XPI_W_P0_FC_CONTROL, fcd ||| XPI_FC_FCC)]) ++
  [(Reg.XPI_W_P0_FC_CONTROL, XPI_FC_FCE), (Reg.XPI_W_P0_FC_CONTROL, 0x00)]

/-- A call `FPGA_FC_Command( cmd )` whose result (the SENSE bit) is not used. -/
def XPI.FPGA_FC_Command (x : XPI) (cmd : Nat) : XPI :=
  { x with fpgaWrites := x.fpgaWrites ++ fcCommandWrites cmd }

/-- The member `ResetFPGA`; `xsvfRC` is the value of `xsvf.GetLastRC ()`.  The
power LED, the interrupt controller and the reset line of the FPGA are pins
outside the engine and are not modelled; the empty packet
`usbOut.Put( NULL, 0, 1000 )` that precedes the status record carries no record. -/
def XPI.ResetFPGA (x : XPI) (xsvfRC : Int) : XPI :=
  let x1 := x.Goto .DISABLED (-1)
  if ¬ x1.fpgaOK then x1
  else
    -- if ( isMCPU ) for ( int i = 0; i < maxboardc; i++ ) FPGA_FC_Command( ( i << 2 ) | 0x00 );
    let x2 :=
      if x1.isMCPU then
        forRange 0 x1.maxboardc (fun i (y : XPI) => y.FPGA_FC_Command ((i.toNat <<< 2) ||| 0x00)) x1
      else x1
    let x3 := { x2 with fpgaOK := false, isMCPU := false, boardPos := 0xFF }
    x3.usbOutPut
      { type := XPI_IMSG_FPGA_STATUS
        subtype := 0
        data := [x3.fpgaOK.toNat, x3.isMCPU.toNat, x3.boardPos % 256, (xsvfRC % 256).toNat] }

/-- The values that `InitializeFPGA` reads from outside the engine: the magic
octets, the board position before and after the take-over of the bus, the global
status register, and `sMsgData3`, the octet that the last user of `sMsg` left in
`sMsg.data[ 3 ]` (the function assigns `sMsg.data[ 4 ]` and sends four octets). -/
structure InitReads where
  magicLSB : Nat
  magicMSB : Nat
  boardPos : Nat
  glbStatus : Nat
  boardPosMCPU : Nat
  sMsgData3 : Nat

/-- The member `InitializeFPGA( coldStart, forcePassive )`.  The reset line of
the FPGA (`FPGA_IsReset`, `FPGA_PulseReset`, `FPGA_SetReset`) and the interrupt
controller are outside the engine: of `coldStart` nothing else depends. -/
def XPI.InitializeFPGA (x : XPI) (coldStart forcePassive : Bool) (hw : InitReads) : XPI :=
  let _ := coldStart
  let x0 := { x with isMCPU := false, fpgaOK := false }
  let x1 := x0.FPGA_Write .XPI_W_PAGE_ADDR 1
  let magic := (hw.magicLSB % 256) ||| ((hw.magicMSB % 256) <<< 8)
  let x2 := { x1 with boardPos := hw.boardPos % 256 }
  let x3 : XPI :=
    if magic ≠ 0x11AA then x2
    else if forcePassive ∨ x2.boardPos &&& 0x30 ≠ 0x30 then
      let y1 := x2.FPGA_Write .XPI_W_PAGE_ADDR 0
      { y1 with
        isMCPU := decide ((hw.glbStatus % 256) &&& XPI_GLB_MCPU = XPI_GLB_MCPU)
        fpgaOK := true }
    else
      let y1 := x2.FPGA_Write .XPI_W_PAGE_ADDR 0
      let y2 := y1.FPGA_Write .XPI_W_P0_GLB_CONTROL XPI_GLB_MCPU
      let y3 := y2.FPGA_Write .XPI_W_PAGE_ADDR 1
      let y4 := { y3 with boardPos := hw.boardPosMCPU % 256 }
      if y4.boardPos &&& 0x30 ≠ 0 then
        { y4.tracef "FP: Something wrong! KA5..4 are not low!\n" [] with fpgaOK := false }
      else { y4 with isMCPU := true, fpgaOK := true }
  let x4 : XPI :=
    if x3.fpgaOK then
      let z1 := x3.FPGA_Write .XPI_W_PAGE_ADDR 0
      let z2 := z1.FPGA_Write .XPI_W_P0_LED_SET XPI_LED_G
      let z3 := z2.FPGA_Write .XPI_W_P0_LED_CLEAR (XPI_LED_R ||| XPI_LED_Y)
      let z4 := z3.FPGA_Write .XPI_W_PAGE_ADDR 0
      let z5 := z4.FPGA_Write .XPI_W_P0_IRQ_ENABLE
        (XPI_IRQ_EIRQ ||| XPI_IRQ_CRX ||| XPI_IRQ_CTX ||| XPI_IRQ_FC)
      let z6 := if z5.isMCPU then z5.FPGA_Write .XPI_W_P0_IRQ_ENABLE XPI_IRQ_CTXE else z5
      let z7 := z6.Goto .IDLE (-1)
      let z8 :=
        { z7 with
          isEIRQ := false
          isCTXE := false
          crxLen := 0
          crxCkSum := 0xFF
          ctxLen := 0
          ctxCkSum := 0xFF }
      z8.ResetPollList
    else x3
  x4.usbOutPut
    { type := XPI_IMSG_FPGA_STATUS
      subtype := 0
      data := [x4.fpgaOK.toNat, x4.isMCPU.toNat, x4.boardPos % 256, hw.sMsgData3 % 256] }

/-! ## The other event handlers -/

/-- The member `On_FC`; `fc_cmd` and `fc_sense` are the values read from
`XPI_R_P0_FC_FDFA` and `XPI_R_P0_FC_SENSE`. -/
def XPI.On_FC (x : XPI) (fc_cmd fc_sense : Nat) : XPI :=
  let x1 := x.FPGA_Write .XPI_W_PAGE_ADDR 0
  x1.usbOutPut
    { type := XPI_IMSG_FC_EVENT
      subtype := 0
      data := [(fc_cmd >>> 2) &&& 0x3F, fc_cmd &&& 0x03, fc_sense % 256, x1.state.toNat] }

/-- The member `On_EIRQ`; `fifo` is the value read from `XPI_R_P0_SC_EIRQ` in
passive role. -/
def XPI.On_EIRQ (x : XPI) (fifo : Nat) : XPI :=
  let x1 : XPI :=
    if x.isMCPU then
      let y1 := { x with isEIRQ := true }
      (y1.FPGA_Write .XPI_W_PAGE_ADDR 0).FPGA_Write .XPI_W_P0_IRQ_DISABLE XPI_IRQ_EIRQ
    else
      let y1 := x.FPGA_Write .XPI_W_PAGE_ADDR 0
      { y1 with isEIRQ := decide (fifo ≠ 0) }
  if x1.traceMask &&& DBG_EIRQ ≠ 0 then
    x1.usbOutPut
      { type := XPI_IMSG_TRACE_EIRQ
        subtype := 0
        data := [x1.isEIRQ.toNat, x1.ctxLen % 256, x1.state.toNat] }
  else x1

/-- The member `On_CTXE`. -/
def XPI.On_CTXE (x : XPI) : XPI :=
  let x1 := { x with isCTXE := true }
  let x2 := (x1.FPGA_Write .XPI_W_PAGE_ADDR 0).FPGA_Write .XPI_W_P0_IRQ_DISABLE XPI_IRQ_CTXE
  if x2.state = .WAIT_SENT then
    -- ctx_status = 0; semaSent.Release( 1 );
    let x3 := { x2 with ctx_status := 0, semaSent := x2.semaSent + 1 }
    if x3.buf x3.pRead &&& 0xC0 = 0xC0 then x3.Goto .BLOCKED_SEND INTER_SEND_DELAY
    else x3.Goto .IDLE (-1)
  else if x2.state = .WAIT_CTXE then x2.Goto .IDLE (-1)
  else if x2.state = .POLL_EIRQ then
    if x2.poll_cur < 0 then x2.PollNextBoard else x2
  else x2

/-- Conversion of a 32-bit value to `long`. -/
def toLong (i : Int) : Int :=
  (i + 2 ^ 31) % 2 ^ 32 - 2 ^ 31

/-- The value `long delta = curTick - lastTick` of `On_Timer`. -/
def XPI.tickDelta (x : XPI) : Int :=
  toLong ((x.dTimerTick : Int) - (x.lastTick : Int))

/-- The countdown timer expires in the next call of `On_Timer`: it is armed
(`timer < 0` is false) and `timer -= delta` does not leave it positive. -/
def XPI.timerExpires (x : XPI) : Prop :=
  ¬ x.timer < 0 ∧ ¬ toLong (x.timer - x.tickDelta) > 0

instance (x : XPI) : Decidable x.timerExpires :=
  inferInstanceAs (Decidable (¬ x.timer < 0 ∧ ¬ toLong (x.timer - x.tickDelta) > 0))

/-- The member `On_Timer`; `xsvfRC` is the value of `xsvf.GetLastRC ()` that
`ResetFPGA` reports. -/
def XPI.On_Timer (x : XPI) (xsvfRC : Int) : XPI :=
  -- ulong curTick = dTimerTick; long delta = curTick - lastTick; lastTick = curTick;
  let delta := x.tickDelta
  let x1 := { x with lastTick := x.dTimerTick }
  if x1.timer < 0 then x1
  else
    let x2 := { x1 with timer := toLong (x1.timer - delta) }
    if x2.timer > 0 then x2
    else
      let x3 := { x2 with timer := -1 }
      if x3.state = .POLL_EIRQ then
        (x3.MarkBoardActive false).PollNextBoard
      else if x3.state = .BLOCKED_SEND then x3.Goto .IDLE (-1)
      else if x3.state = .RECEIVE_CTX then
        let y1 := x3.tracef "SC: Timeout in RECEIVE_CTX\n" []
        let y2 := { y1 with ctxLen := 0, ctxCkSum := 0xFF }
        y2.Goto .IDLE (-1)
      else if x3.state = .RECEIVE_CRX then
        let y1 := x3.tracef "SC: Timeout in RECEIVE_CRX\n" []
        let y2 := { y1 with crxLen := 0, crxCkSum := 0xFF }
        let y3 := y2.Goto .IDLE (-1)
        (y3.FPGA_Write .XPI_W_PAGE_ADDR 0).FPGA_Write .XPI_W_P0_IRQ_ENABLE XPI_IRQ_EIRQ
      else if x3.state = .WAIT_CTXE then
        let y1 := x3.tracef "SC: SEVERE ERROR: FPGA Failed. Timeout in WAIT_CTXE.\n" []
        let y2 := y1.ResetFPGA xsvfRC
        { y2 with ctx_status := 0x78, semaSent := y2.semaSent + 1 }
      else if x3.state = .WAIT_SENT then
        let y1 := x3.tracef "SC: SEVERE ERROR: FPGA Failed. Timeout in WAIT_SENT.\n"
          [(x3.state.toNat : Int)]
        let y2 := y1.ResetFPGA xsvfRC
        { y2 with ctx_status := 0x79, semaSent := y2.semaSent + 1 }
      else if x3.state = .WAIT_ACK then
        let y1 := { x3 with ctx_status := 3, semaSent := x3.semaSent + 1 }
        y1.Goto .IDLE (-1)
      else
        x3.tracef "SC: Timeout in FSM %d\n" [(x3.state.toNat : Int)]

/-- The statements `sCTX.data[ ctxLen ] = octet;` up to `++ctxLen;` shared by
both roles of `On_CTX`. -/
def XPI.collectCTX (x : XPI) (octet : Nat) : XPI :=
  let x1 := { x with sCTX_data := setAt x.sCTX_data x.ctxLen (octet % 256) }
  let x2 := { x1 with ctxCkSum := ckUpdate x1.ctxCkSum (x1.sCTX_data x1.ctxLen) }
  { x2 with ctxLen := x2.ctxLen + 1 }

/-- The member `On_CTX`; `octet` is the value of `FPGA_Read( XPI_R_P0_SC_CTX )`. -/
def XPI.On_CTX (x : XPI) (octet : Nat) : XPI :=
  let x0 := x.FPGA_Write .XPI_W_PAGE_ADDR 0
  if x0.isMCPU then
    if x0.state = .IDLE ∨ x0.state = .WAIT_ACK ∨ x0.state = .WAIT_CTXE ∨ x0.state = .WAIT_SENT
        ∨ x0.state = .BLOCKED_SEND then
      let x1 := x0.collectCTX octet
      if x1.sCTX_data 0 = 0xC0 ∨ x1.sCTX_data 0 &&& 0xC0 = 0x00 then
        let x2 :=
          if x1.traceMask &&& DBG_EIRQ ≠ 0 then
            let y1 := { x1 with sCTX_subtype := 0 }
            y1.usbOutPut y1.sCTX
          else x1
        { x2 with ctxLen := 0, ctxCkSum := 0xFF }
      else if x1.sCTX_data 0 &&& 0xC0 = 0x40 then
        let x2 :=
          if x1.traceMask &&& DBG_ACK ≠ 0 then
            let y1 := { x1 with sCTX_subtype := 0 }
            y1.usbOutPut y1.sCTX
          else x1
        { x2 with ctxLen := 0, ctxCkSum := 0xFF }
      else if x1.ctxLen ≥ 2 ∧ x1.ctxLen = 3 + (x1.sCTX_data 1 &&& 0x0F) then
        let x2 := { x1 with sCTX_subtype := if x1.ctxCkSum ≠ 0 then 1 else 0 }
        let x3 :=
          if x2.traceMask &&& DBG_CTX ≠ 0 then
            if x2.traceMask &&& DBG_CTX_E0_PKT ≠ 0 then x2.usbOutPut x2.sCTX
            else if x2.sCTX_subtype ≠ 0 ∨ x2.sCTX_data 0 &&& 0xE0 ≠ 0xE0 then x2.usbOutPut x2.sCTX
            else x2
          else x2
        { x3 with ctxLen := 0, ctxCkSum := 0xFF }
      else if x1.ctxLen > 18 then
        let x2 := { x1 with sCTX_subtype := 2 }
        let x3 := x2.usbOutPut x2.sCTX
        { x3 with ctxLen := 0, ctxCkSum := 0xFF }
      else x1
    else if x0.state = .POLL_EIRQ then
      if x0.traceMask &&& DBG_EIRQ ≠ 0 then
        x0.usbOutPut { type := XPI_IMSG_TRACE_CTX, subtype := 0, data := [octet % 256] }
      else x0
    else
      x0.usbOutPut
        { type := XPI_IMSG_TRACE_CTX, subtype := 3, data := [octet % 256, x0.state.toNat] }
  else if x0.state = .IDLE ∨ x0.state = .RECEIVE_CTX then
    let x1 : XPI :=
      if x0.state = .IDLE then { x0 with ctxLen := 0, ctxCkSum := 0xFF } else x0
    let x2 := x1.Goto .RECEIVE_CTX RECEIVE_TIMEOUT
    let x3 := x2.collectCTX octet
    let x4 : XPI :=
      if x3.isEIRQ ∧ x3.sCTX_data 0 = 0xC0 then
        let y1 := { x3 with sCTX_subtype := 0 }
        let y2 := y1.usbOutPut y1.sCTX
        let y3 := { y2 with ctxLen := 0 }
        y3.Goto .POLL_EIRQ 100
      else x3
    if x4.sCTX_data 0 &&& 0xC0 = 0x40 then
      let y1 := { x4 with sCTX_subtype := 0 }
      let y2 := y1.usbOutPut y1.sCTX
      let y3 := { y2 with ctxLen := 0 }
      y3.Goto .IDLE (-1)
    else if x4.ctxLen ≥ 2 ∧ x4.ctxLen = 3 + (x4.sCTX_data 1 &&& 0x0F) then
      let y1 := { x4 with sCTX_subtype := if x4.ctxCkSum ≠ 0 then 1 else 0 }
      let y2 := y1.usbOutPut y1.sCTX
      let y3 := { y2 with ctxLen := 0, ctxCkSum := 0xFF }
      y3.Goto .IDLE (-1)
    else x4
  else if x0.state = .POLL_EIRQ then
    x0.usbOutPut { type := XPI_IMSG_TRACE_CTX, subtype := 0, data := [octet % 256] }
  else
    x0.usbOutPut
      { type := XPI_IMSG_TRACE_CTX, subtype := 3, data := [octet % 256, x0.state.toNat] }

/-! ## Runs of the engine -/

/-- The members that the queue side of the engine (`Put`, called by the USB
receiver task, and `Transmitter`, the main task) reads and writes, with the
records and text lines it adds to the logs and the line it leaves in
`usb_putc`. -/
structure QueueSide where
  semaFull : Nat
  semaEmpty : Nat
  semaSent : Nat
  buf : Nat → Nat
  pRead : Nat
  pWrite : Nat
  ctx_count : Nat
  pCtx : Nat
  ctx_status : Int
  requestID : Nat
  records : List Msg
  logLine : List Nat
  lines : List TraceLine

/-- A step of the queue side, seen from the dispatcher task: the queue members
take new values, everything else stays. -/
def XPI.queueStep (x : XPI) (q : QueueSide) : XPI :=
  { x with
    semaFull := q.semaFull
    semaEmpty := q.semaEmpty
    semaSent := q.semaSent
    buf := q.buf
    pRead := q.pRead
    pWrite := q.pWrite
    ctx_count := q.ctx_count
    pCtx := q.pCtx
    ctx_status := q.ctx_status
    requestID := q.requestID
    usbOut := x.usbOut ++ q.records
    logLine := q.logLine
    traceOut := x.traceOut ++ q.lines }

/-- What can happen to the constructed engine: a call of a public member or of
a handler by the dispatcher (`FPGA_IrqTasklet`) or the host (with the values read
from the hardware), `n` ticks of the millisecond counter `dTimerTick`, a change
of the trace mask, or a step of the queue side. -/
inductive Event where
  | InitializeFPGA (coldStart forcePassive : Bool) (hw : InitReads)
  | ResetFPGA (xsvfRC : Int)
  | StartTransmissionIfIdle
  | On_Timer (xsvfRC : Int)
  | On_CTXE
  | On_CTX (octet : Nat)
  | On_CRX (octet : Nat)
  | On_EIRQ (fifo : Nat)
  | On_FC (fc_cmd fc_sense : Nat)
  | tick (n : Nat)
  | SetTraceMask (mask : Nat)
  | queue (q : QueueSide)

/-- The engine after one event; octets read from the FPGA are `FPGA_Read`
values, that is below 256. -/
def XPI.step (x : XPI) : Event → XPI
  | .InitializeFPGA coldStart forcePassive hw => x.InitializeFPGA coldStart forcePassive hw
  | .ResetFPGA xsvfRC => x.ResetFPGA xsvfRC
  | .StartTransmissionIfIdle => x.StartTransmissionIfIdle
  | .On_Timer xsvfRC => x.On_Timer xsvfRC
  | .On_CTXE => x.On_CTXE
  | .On_CTX octet => x.On_CTX (octet % 256)
  | .On_CRX octet => (x.FPGA_Write .XPI_W_PAGE_ADDR 0).On_CRX (octet % 256)
  | .On_EIRQ fifo => x.On_EIRQ (fifo % 256)
  | .On_FC fc_cmd fc_sense => x.On_FC (fc_cmd % 256) (fc_sense % 256)
  | .tick n => { x with dTimerTick := (x.dTimerTick + n) % 2 ^ 32 }
  | .SetTraceMask mask => { x with traceMask := mask % 2 ^ 32 }
  | .queue q => x.queueStep q

/-- The engine after a sequence of events. -/
def XPI.runEvents (x : XPI) (evs : List Event) : XPI :=
  evs.foldl XPI.step x

/-- The states that the constructed engine can reach. -/
def Reachable (x : XPI) : Prop :=
  ∃ evs : List Event, XPI.init.runEvents evs = x

/-! ## The dispatcher -/

/-- The values read from the FPGA in one pass of the interrupt loop of
`FPGA_IrqTasklet` (`fpga.cpp`): the request bitmap `XPI_R_INT_REQUEST` and what
the handlers called in that pass read. -/
structure IrqReads where
  irq_list : Nat
  ctx : Nat
  crx : Nat
  eirq : Nat
  fc_cmd : Nat
  fc_sense : Nat

/-- The handler calls of one pass of the interrupt loop, in the order of the
source, for the bitmap `irq_list`. -/
def XPI.dispatch (x : XPI) (r : IrqReads) : XPI :=
  let irq_list := r.irq_list % 256
  let x1 := if irq_list &&& XPI_IRQ_CTXE ≠ 0 then x.On_CTXE else x
  let x2 := if irq_list &&& XPI_IRQ_CTX ≠ 0 then x1.On_CTX (r.ctx % 256) else x1
  let x3 :=
    if irq_list &&& XPI_IRQ_CRX ≠ 0 then (x2.FPGA_Write .XPI_W_PAGE_ADDR 0).On_CRX (r.crx % 256)
    else x2
  let x4 := if irq_list &&& XPI_IRQ_EIRQ ≠ 0 then x3.On_EIRQ (r.eirq % 256) else x3
  let x5 :=
    if irq_list &&& XPI_IRQ_FC ≠ 0 then x4.On_FC (r.fc_cmd % 256) (r.fc_sense % 256) else x4
  if irq_list &&& XPI_IRQ_PCM ≠ 0 then x5.FPGA_Write .XPI_W_PAGE_ADDR 2 else x5

/-- The loop `while( --irq_count >= 0 )` of `FPGA_IrqTasklet`.  The first
argument is the value of `irq_count` before the decrement, `reads k` are the
values that the pass with the `k`-th read of the bitmap meets.  The result is the
engine, the value of `irq_count` after the loop, and the number of reads of the
bitmap. -/
def XPI.irqLoop : Nat → (Nat → IrqReads) → Nat → XPI → XPI × Int × Nat
  | 0, _, k, x => (x, -1, k)
  | n + 1, reads, k, x =>
    let x1 := x.StartTransmissionIfIdle
    let x2 := x1.FPGA_Write .XPI_W_PAGE_ADDR 0
    -- uint irq_list = FPGA_Read( XPI_R_INT_REQUEST ); if ( ! irq_list ) break;
    if (reads k).irq_list % 256 = 0 then (x2, (n : Int), k + 1)
    else XPI.irqLoop n reads (k + 1) (x2.dispatch (reads k))

/-- How one wake of the dispatcher ends: with `xpi.ResetFPGA ()` or with
`AT91F_AIC_EnableIt`, the call that enables the interrupt line again. -/
inductive WakeEnd where
  | resetFPGA
  | enableIrq
  deriving DecidableEq, Repr

/-- What one wake of the dispatcher did. -/
structure WakeResult where
  engine : XPI
  reads : Nat
  ending : WakeEnd

/-- The part of the body of `FPGA_IrqTasklet` that follows a successful
`fpgaEvent.Wait`: the interrupt loop with `irq_count = 10000`, then the test for
an interrupt flood. -/
def XPI.FPGA_IrqWake (x : XPI) (reads : Nat → IrqReads) (xsvfRC : Int) : WakeResult :=
  let r := XPI.irqLoop 10000 reads 0 x
  if r.2.1 < 0 then
    { engine := (r.1.tracef "SEVERE ERROR: Too many interrupts\n" []).ResetFPGA xsvfRC
      reads := r.2.2
      ending := .resetFPGA }
  else
    { engine := r.1, reads := r.2.2, ending := .enableIrq }

/-! ## The queue as a list of messages -/

/-- Octets of ring space that the queued messages occupy: each message its
length plus the two octets of the length header. -/
def msgSpace (q : List (List Nat)) : Nat :=
  (q.map (fun m => m.length + 2)).sum

/-- The messages `q` are stored in `mem` one after the other from cursor `p` on,
each as `[len_MSB][len_LSB][octets]` and unsplit, the cursor advancing circularly
after each message, and the last message ends at cursor `pw`. -/
def Layout (mem : Nat → Nat) : Nat → List (List Nat) → Nat → Prop
  | p, [], pw => p = pw
  | p, m :: q, pw =>
    mem p = (m.length >>> 8) &&& 0xFF ∧ mem (p + 1) = m.length &&& 0xFF ∧
    frameAt mem (p + 2) m.length = m ∧ Layout mem (wrapPtr (p + 2 + m.length)) q pw

/-- The region of `n` octets from offset `a` on is free with respect to messages
that start at cursor `r` and occupy `t` octets of ring space: either they end
at or before `a`, or they start after the region and, wrapping around, end at or
before `a`. -/
def Free (a n r t : Nat) : Prop :=
  r + t ≤ a ∨ (a + n ≤ r ∧ r + t ≤ a + XPI_XMTR_BUF_SIZE)

/-- The queue of the engine `x` holds exactly the messages `q`, oldest first. -/
structure QueueInv (x : XPI) (q : List (List Nat)) : Prop where
  pRead_lt : x.pRead < XPI_XMTR_BUF_SIZE
  layout : Layout x.buf x.pRead q x.pWrite
  empty_eq : x.semaEmpty = msgSpace q
  full_eq : x.semaFull + x.semaEmpty = XPI_XMTR_BUF_SIZE
  lens : ∀ m ∈ q, 2 ≤ m.length

/-! ## The poll sweep -/

/-- The poll sweep begun from `y` after `k` timer expiries: the sentinel step and
`k - 1` board polls are over, the board at cursor `k - 1` is being polled. -/
structure SweepState (y : XPI) (k : Nat) (s : XPI) : Prop where
  state : s.state = .POLL_EIRQ
  cur : s.poll_cur = (k : Int) - 1
  timer : s.timer = EIRQ_POLL_DELAY
  tick : s.lastTick = s.dTimerTick
  boards : s.maxboardc = 64
  cnt : s.poll_active_cnt = y.poll_active_cnt
  stuck : s.stuck_eirq_count = y.stuck_eirq_count
  passive : ∀ i, i + 1 < k → s.poll_list i &&& 0x80 = 0
  flag : s.rearrange_poll_list = true ↔ (2 ≤ k ∧ 1 ≤ y.poll_active_cnt)

/-- One expiry of the poll timer: `d` ticks pass and `On_Timer` runs. -/
def XPI.expire (x : XPI) (xsvfRC : Int) (d : Nat) : XPI :=
  (x.step (.tick d)).step (.On_Timer xsvfRC)

/-! ## Invariants of the reachable states -/

/-- The countdown timer fits the state: it is armed (`timer >= 0`), or it is
`-1` and the state is `DISABLED` or `IDLE`. -/
def TimerOK (s : STATE) (t : Int) : Prop :=
  0 ≤ t ∨ (t = -1 ∧ (s = .DISABLED ∨ s = .IDLE))

/-- A reassembly context with `len` octets stored in `data` is short of a
complete frame: at most one octet is stored, or fewer than the `3 + (data[1] & 0x0F)`
octets of the frame whose length nibble has been stored. -/
def LenOK (len : Nat) (data : Nat → Nat) : Prop :=
  len ≤ 1 ∨ len < 3 + (data 1 &&& 0x0F)

/-! ## Concrete engines used as examples -/

/-- The engine in master role after `Put` of the five octets `81 82 83 84 85`
(request id `8182`, frame `83 84 85`) into the empty queue. -/
def exampleQueued : XPI :=
  (({ XPI.init with isMCPU := true }.Put (fun i => 0x81 + i) 5 100).getD (false, XPI.init)).2

/-- The engine in master role after `Put` of the five octets `c1 c2 c3 c4 c5`
(request id `c1c2`, sentinel-class frame `c3 c4 c5`) into the empty queue. -/
def exampleSentinelQueued : XPI :=
  (({ XPI.init with isMCPU := true }.Put (fun i => 0xC1 + i) 5 100).getD (false, XPI.init)).2

/-- The engine in master role, idle with the command channel empty, with the
frame `83 84 85` of `exampleQueued` loaded by Transmitter (`pCtx = pRead`,
`ctx_count = 3`). -/
def exampleLoaded : XPI :=
  { exampleQueued with state := .IDLE, isCTXE := true, pRead := 4, pCtx := 4, ctx_count := 3 }

/-- Two messages are queued, the role becomes master, and both are transmitted;
the first delivery succeeds at once, the second fails once and then succeeds. -/
def exampleOps : List Op :=
  [.put (fun i => 0x81 + i) 5 100, .put (fun i => 0x11 * (i + 1)) 4 0, .role true,
   .transmit [0], .transmit [3, 0]]

/-- The first four calls of `exampleOps`: the second message is still queued. -/
def exampleOpsMid : List Op :=
  [.put (fun i => 0x81 + i) 5 100, .put (fun i => 0x11 * (i + 1)) 4 0, .role true,
   .transmit [0]]

/-- Calls with a message of one octet: in master role the messages of 1, 197 and
30 octets are queued; the first `Transmitter` call runs after the second `Put`
and the second one after the third `Put`, all deliveries complete with status 0. -/
def exampleShortOps : List Op :=
  [.role true, .put (fun _ => 0x11) 1 100, .put (fun _ => 0) 197 100, .transmit [0, 0],
   .put (fun _ => 0) 30 100, .transmit [0]]

/-- The engine after the calls `exampleOpsMid`. -/
def exampleMid : XPI :=
  ((XPI.init.run exampleOpsMid).getD (XPI.init, [])).1

/-- The engine of `exampleLoaded` after `StartTransmissionIfIdle`: the frame
`83 84 85` (class tag `10`) is written out and the state is `WAIT_ACK`. -/
def exampleAwaitingAck : XPI :=
  exampleLoaded.StartTransmissionIfIdle

/-- The engine in master role, idle with the command channel empty, with the
sentinel-class frame `c3 c4 c5` of `exampleSentinelQueued` loaded by Transmitter. -/
def exampleSentinelLoaded : XPI :=
  { exampleSentinelQueued with
    state := .IDLE, isCTXE := true, pRead := 4, pCtx := 4, ctx_count := 3 }

/-- The engine of `exampleSentinelLoaded` after `StartTransmissionIfIdle`: the
frame is written out and the state is `WAIT_SENT`. -/
def exampleAwaitingSent : XPI :=
  exampleSentinelLoaded.StartTransmissionIfIdle

/-- The engine of `exampleLoaded` with the EIRQ flag set: a frame is pending and
an external interrupt has been seen. -/
def exampleEirqLoaded : XPI :=
  { exampleLoaded with isEIRQ := true }

/-- The values read by `InitializeFPGA` when the FPGA answers with the magic
`11AA` and no other master is on the backplane (`KA5..4` high before the
take-over of the bus and low after it). -/
def exampleMasterReads : InitReads :=
  { magicLSB := 0xAA, magicMSB := 0x11, boardPos := 0x30, glbStatus := 0, boardPosMCPU := 0x00,
    sMsgData3 := 0 }

/-- The values read by `InitializeFPGA` when the magic is not found; the octet
read as board position is `12`. -/
def exampleNoFpgaReads : InitReads :=
  { magicLSB := 0x00, magicMSB := 0x00, boardPos := 0x12, glbStatus := 0, boardPosMCPU := 0x00,
    sMsgData3 := 0 }

/-- The engine becomes master, the command channel reports empty and an external
interrupt is seen. -/
def exampleEirqEvents : List Event :=
  [.InitializeFPGA true false exampleMasterReads, .On_CTXE, .On_EIRQ 0]

/-- After `exampleEirqEvents` the poll sweep starts and the sentinel is sent
out, so that board 0 (cursor `0`) is polled. -/
def examplePollEvents : List Event :=
  exampleEirqEvents ++ [.StartTransmissionIfIdle, .On_CTXE]

/-- Board 0 answers the poll of `examplePollEvents` with the complete frame
`80 00 fd`; the engine acknowledges it and waits in `WAIT_CTXE`. -/
def exampleFrameEvents : List Event :=
  examplePollEvents ++ [.On_CRX 0x80, .On_CRX 0x00, .On_CRX 0xFD]

/-- After `examplePollEvents` board 0 does not answer within 4 ms, board 1
answers with the first octet `81` of a frame that is never completed (timeout
in `RECEIVE_CRX` after 5 ms); then a second external interrupt starts a new sweep
in which board 0 answers with the complete frame `80 00 fd`. -/
def exampleStaleFlagEvents : List Event :=
  examplePollEvents ++
    [.tick 4, .On_Timer 0, .On_CRX 0x81, .tick 5, .On_Timer 0, .On_CTXE, .On_EIRQ 0,
     .StartTransmissionIfIdle, .On_CTXE, .On_CRX 0x80, .On_CRX 0x00, .On_CRX 0xFD]

/-- The engine after `exampleFrameEvents` and 10 ms without a
command-channel-empty event: the timer of `WAIT_CTXE` is about to expire. -/
def exampleWedged : XPI :=
  XPI.init.runEvents (exampleFrameEvents ++ [.tick 10])

/-- As `exampleWedged`, but during the 10 ms the host has asked for a new
`InitializeFPGA`, which did not find the FPGA. -/
def exampleWedgedNoFpga : XPI :=
  XPI.init.runEvents
    (exampleFrameEvents ++ [.InitializeFPGA false false exampleNoFpgaReads, .tick 10])

/-- The poll list is partitioned: within the boards, an entry is flagged active
(high bit set) exactly when its index is below `poll_active_cnt`. -/
def Partitioned (x : XPI) : Prop :=
  ∀ i, i < x.maxboardc.toNat → (x.poll_list i &&& 0x80 ≠ 0 ↔ (i : Int) < x.poll_active_cnt)

instance (x : XPI) : Decidable (Partitioned x) :=
  inferInstanceAs (Decidable (∀ i, i < x.maxboardc.toNat →
    (x.poll_list i &&& 0x80 ≠ 0 ↔ (i : Int) < x.poll_active_cnt)))

/-- The engine in passive role after `Put` of a message of 4092 octets into the
empty queue and the `Transmitter` call that takes it out again: the queue is
empty and both cursors are at offset 4094. -/
def exampleRingEnd : XPI :=
  ((XPI.init.run [.put (fun _ => 0) 4092 100, .transmit []]).getD (XPI.init, [])).1

/-- The engine in master role after `Put` of the three octets `12 34 c5`
(request id `1234`, frame `c5` of one octet, sentinel class). -/
def exampleOneOctetQueued : XPI :=
  (({ XPI.init with isMCPU := true }.Put (fun i => [0x12, 0x34, 0xC5].getD i 0) 3 100).getD
    (false, XPI.init)).2

/-- The values read by `InitializeFPGA` when the FPGA answers with the magic
`11AA` and the global status shows that another board is the master. -/
def examplePassiveReads : InitReads :=
  { magicLSB := 0xAA, magicMSB := 0x11, boardPos := 0x05, glbStatus := 0, boardPosMCPU := 0x00,
    sMsgData3 := 0 }

/-- The engine comes up in passive role, reads a pending external interrupt,
sees the poll sentinel `c0` of the master on the command channel, and then
nothing for 100 ms. -/
def examplePassivePollEvents : List Event :=
  [.InitializeFPGA true false examplePassiveReads, .On_EIRQ 1, .On_CTX 0xC0, .tick 100]

/-- The engine becomes master, then a second `InitializeFPGA` does not find
the FPGA. -/
def exampleLostFpgaEvents : List Event :=
  [.InitializeFPGA true false exampleMasterReads,
   .InitializeFPGA false false exampleNoFpgaReads]

/-- Board 0 answers the poll of `examplePollEvents` with the octet `00` (its
id, class tag `00`): it is marked active and board 1 is polled. -/
def exampleActiveEvents : List Event :=
  examplePollEvents ++ [.On_CRX 0x00]

/-- After `examplePollEvents` board 0 answers with the first octet `80` of a
frame. -/
def exampleFirstOctetEvents : List Event :=
  examplePollEvents ++ [.On_CRX 0x80]

/-- Reads of one wake of the dispatcher: two passes with the EIRQ bit set in
the bitmap, then an empty bitmap. -/
def exampleIrqReads (k : Nat) : IrqReads :=
  { irq_list := if k < 2 then XPI_IRQ_EIRQ else 0, ctx := 0, crx := 0, eirq := 0, fc_cmd := 0,
    fc_sense := 0 }

/-- The passive engine that has received the first octet `81` of a frame on
the response channel. -/
def exampleCrxOneOctet : XPI :=
  { XPI.init with state := .IDLE }.On_CRX 0x81

/-- The passive engine that has seen the first octet `81` of a frame on the
command channel. -/
def exampleCtxOneOctet : XPI :=
  { XPI.init with state := .IDLE }.On_CTX 0x81

/-! ## Lemmas on the checksum -/

theorem xor_lt_256 {a b : Nat} (ha : a < 256) (hb : b < 256) : a ^^^ b < 256 :=
  @Nat.xor_lt_two_pow a b 8 ha hb

theorem ckUpdate_zero_left (c b : Nat) : ckUpdate c b = ckUpdate 0 (c ^^^ b) := by
  simp [ckUpdate]

set_option maxRecDepth 100000 in
theorem ckUpdate_zero_table :
    ∀ x, x < 256 → ckUpdate 0 x = rotl8 x 1 ∧ ckUpdate 0 x < 256 ∧
      (ckUpdate 0 x) / 2 + (ckUpdate 0 x % 2) * 128 = x := by
  decide

theorem ckUpdate_lt (c b : Nat) (hc : c < 256) (hb : b < 256) : ckUpdate c b < 256 := by
  rw [ckUpdate_zero_left]
  exact (ckUpdate_zero_table _ (xor_lt_256 hc hb)).2.1

theorem ckUpdate_inj_right (c b b' : Nat) (hc : c < 256) (hb : b < 256) (hb' : b' < 256)
    (h : ckUpdate c b = ckUpdate c b') : b = b' := by
  rw [ckUpdate_zero_left c b, ckUpdate_zero_left c b'] at h
  have h1 := (ckUpdate_zero_table _ (xor_lt_256 hc hb)).2.2
  have h2 := (ckUpdate_zero_table _ (xor_lt_256 hc hb')).2.2
  rw [h] at h1
  exact Nat.xor_right_injective (h1.symm.trans h2)


theorem foldl_ckUpdate_lt (s : List Nat) (hs : ∀ b ∈ s, b < 256) (c : Nat) (hc : c < 256) :
    s.foldl ckUpdate c < 256 := by
  induction s generalizing c with
  | nil => simpa using hc
  | cons b s ih =>
    simp only [List.foldl_cons]
    exact ih (fun x hx => hs x (List.mem_cons_of_mem _ hx)) _
      (ckUpdate_lt c b hc (hs b (List.mem_cons_self _ _)))

theorem ckUpdate_inj_left (c c' b : Nat) (hc : c < 256) (hc' : c' < 256) (hb : b < 256)
    (h : ckUpdate c b = ckUpdate c' b) : c = c' := by
  rw [ckUpdate_zero_left c b, ckUpdate_zero_left c' b] at h
  have h1 := (ckUpdate_zero_table _ (xor_lt_256 hc hb)).2.2
  have h2 := (ckUpdate_zero_table _ (xor_lt_256 hc' hb)).2.2
  rw [h] at h1
  exact Nat.xor_left_injective (h1.symm.trans h2)

theorem foldl_ckUpdate_seed_ne (s : List Nat) (hs : ∀ b ∈ s, b < 256) (c c' : Nat)
    (hc : c < 256) (hc' : c' < 256) (hne : c ≠ c') :
    s.foldl ckUpdate c ≠ s.foldl ckUpdate c' := by
  induction s generalizing c c' with
  | nil => simpa using hne
  | cons b s ih =>
    simp only [List.foldl_cons]
    have hb := hs b (List.mem_cons_self _ _)
    exact ih (fun x hx => hs x (List.mem_cons_of_mem _ hx)) _ _
      (ckUpdate_lt c b hc hb) (ckUpdate_lt c' b hc' hb)
      (fun h => hne (ckUpdate_inj_left c c' b hc hc' hb h))

theorem foldl_ckUpdate_one_byte_ne_aux : ∀ (f f' : List Nat) (i c : Nat),
    (∀ b ∈ f, b < 256) → (∀ b ∈ f', b < 256) → c < 256 → f.length = f'.length →
    i < f.length → f[i]? ≠ f'[i]? → (∀ j, j < f.length → j ≠ i → f[j]? = f'[j]?) →
    f.foldl ckUpdate c ≠ f'.foldl ckUpdate c := by
  intro f
  induction f with
  | nil => intro f' i c _ _ _ _ hi; simp at hi
  | cons x xs ih =>
    intro f' i c hf hf' hc hlen hi hne hsame
    cases f' with
    | nil => simp at hlen
    | cons y ys =>
      have hx := hf x (List.mem_cons_self _ _)
      have hy := hf' y (List.mem_cons_self _ _)
      have hxs : ∀ b ∈ xs, b < 256 := fun b hb => hf b (List.mem_cons_of_mem _ hb)
      have hys : ∀ b ∈ ys, b < 256 := fun b hb => hf' b (List.mem_cons_of_mem _ hb)
      have hl : xs.length = ys.length := by simpa using hlen
      simp only [List.foldl_cons]
      cases i with
      | zero =>
        have hxy : x ≠ y := by simpa using hne
        have hrest : xs = ys := by
          apply List.ext_getElem?
          intro j
          by_cases hj : j < xs.length
          · have := hsame (j + 1) (by simpa using hj) (by omega)
            simpa using this
          · rw [List.getElem?_eq_none (by omega), List.getElem?_eq_none (by omega)]
        subst hrest
        exact foldl_ckUpdate_seed_ne xs hxs _ _ (ckUpdate_lt c x hc hx) (ckUpdate_lt c y hc hy)
          (fun h => hxy (ckUpdate_inj_right c x y hc hx hy h))
      | succ k =>
        have hxy : x = y := by
          have := hsame 0 (by simp) (by omega)
          simpa using this
        subst hxy
        exact ih ys k _ hxs hys (ckUpdate_lt c x hc hx) hl (by simpa using hi)
          (by simpa using hne)
          (fun j hj hjk => by
            have := hsame (j + 1) (by simpa using hj) (by omega)
            simpa using this)

theorem foldl_ckUpdate_one_byte_ne (f f' : List Nat) (hf : ∀ b ∈ f, b < 256)
    (hf' : ∀ b ∈ f', b < 256) (hd : DiffersInOneByte f f') (c : Nat) (hc : c < 256) :
    f.foldl ckUpdate c ≠ f'.foldl ckUpdate c := by
  obtain ⟨hlen, i, hi, hne, hsame⟩ := hd
  exact foldl_ckUpdate_one_byte_ne_aux f f' i c hf hf' hc hlen hi hne hsame

theorem acc_append_self (s : List Nat) : acc (s ++ [acc s]) = 0 := by
  simp [acc, List.foldl_append, ckUpdate]


/-! ## Lemmas on memory, the delivery loop and the register log -/

set_option maxRecDepth 100000 in
theorem ckUpdate_zero_bit_table :
    ∀ j, j < 8 → ∀ x, x < 256 →
      ckUpdate 0 (x ^^^ (1 <<< j)) = ckUpdate 0 x ^^^ (1 <<< ((j + 1) % 8)) := by
  decide

set_option maxRecDepth 100000 in
theorem or_bit5_table : ∀ b, b < 256 → b &&& 0x20 = 0 → b ||| (1 <<< 5) = b ^^^ (1 <<< 5) := by
  decide

theorem ckUpdate_seed_bit (c b j : Nat) (hc : c < 256) (hb : b < 256) (hj : j < 8) :
    ckUpdate (c ^^^ (1 <<< j)) b = ckUpdate c b ^^^ (1 <<< ((j + 1) % 8)) := by
  rw [ckUpdate_zero_left (c ^^^ (1 <<< j)) b, ckUpdate_zero_left c b]
  have : c ^^^ 1 <<< j ^^^ b = (c ^^^ b) ^^^ 1 <<< j := by
    rw [Nat.xor_assoc, Nat.xor_comm (1 <<< j) b, ← Nat.xor_assoc]
  rw [this]
  exact ckUpdate_zero_bit_table j hj _ (xor_lt_256 hc hb)

theorem ckUpdate_byte_bit (c b d : Nat) :
    ckUpdate (c ^^^ d) (b ^^^ d) = ckUpdate c b := by
  rw [ckUpdate_zero_left (c ^^^ d) (b ^^^ d), ckUpdate_zero_left c b]
  congr 1
  rw [Nat.xor_assoc, ← Nat.xor_assoc d b d, Nat.xor_comm d b, Nat.xor_assoc b d d,
    Nat.xor_self, Nat.xor_zero]

theorem foldl_ckUpdate_seed_bit (s : List Nat) (hs : ∀ b ∈ s, b < 256) (c j : Nat)
    (hc : c < 256) (hj : j < 8) :
    s.foldl ckUpdate (c ^^^ (1 <<< j)) = s.foldl ckUpdate c ^^^ (1 <<< ((j + s.length) % 8)) := by
  induction s generalizing c j with
  | nil => simp [Nat.mod_eq_of_lt hj]
  | cons b s ih =>
    have hb := hs b (List.mem_cons_self _ _)
    simp only [List.foldl_cons, List.length_cons]
    rw [ckUpdate_seed_bit c b j hc hb hj,
      ih (fun y hy => hs y (List.mem_cons_of_mem _ hy)) _ _ (ckUpdate_lt c b hc hb)
        (Nat.mod_lt _ (by decide))]
    congr 2
    omega


theorem frameAt_succ (mem : Nat → Nat) (p n : Nat) :
    frameAt mem p (n + 1) = mem p :: frameAt mem (p + 1) n := by
  simp [frameAt, List.range_succ_eq_map, Function.comp_def, Nat.add_assoc, Nat.add_comm 1]

theorem frameAt_succ_last (mem : Nat → Nat) (p n : Nat) :
    frameAt mem p (n + 1) = frameAt mem p n ++ [mem (p + n)] := by
  simp [frameAt, List.range_succ]

theorem frameAt_congr (mem mem' : Nat → Nat) (p n : Nat)
    (h : ∀ i, i < n → mem' (p + i) = mem (p + i)) : frameAt mem' p n = frameAt mem p n := by
  apply List.map_congr_left
  intro i hi
  exact h i (List.mem_range.mp hi)

theorem frameAt_length (mem : Nat → Nat) (p n : Nat) : (frameAt mem p n).length = n := by
  simp [frameAt]

theorem mem_frameAt (mem : Nat → Nat) (p n b : Nat) (hb : b ∈ frameAt mem p n) :
    ∃ i, i < n ∧ b = mem (p + i) := by
  simp only [frameAt, List.mem_map, List.mem_range] at hb
  obtain ⟨i, hi, rfl⟩ := hb
  exact ⟨i, hi, rfl⟩

theorem resendFlip_eq (mem : Nat → Nat) (p len : Nat) (hlen : 1 ≤ len)
    (hin : p + len ≤ XPI_XMTR_BUF_SIZE + 32) :
    resendFlip mem p len =
      setAt (setAt mem p (mem p ||| (1 <<< 5))) (p + len - 1)
        (setAt mem p (mem p ||| (1 <<< 5)) (p + len - 1) ^^^ (1 <<< ((5 + len - 1) % 8))) := by
  have hin' : p + len ≤ 4128 := hin
  have h1 : (p + len + 2 ^ 32 - 1) % 2 ^ 32 = p + len - 1 := by omega
  have h2 : (5 + len + 2 ^ 32 - 1) % 2 ^ 32 = 5 + len - 1 := by omega
  have h3 : (5 + len - 1) &&& 0x07 = (5 + len - 1) % 8 := by
    simpa using Nat.and_pow_two_sub_one_eq_mod (5 + len - 1) 3
  simp only [resendFlip, h1, h2, h3]

theorem deliverLoop_done (len : Nat) (sts : List Int) (retry : Nat) (x : XPI)
    (att : List (List Nat)) (h : 2 ≤ retry) :
    XPI.deliverLoop len sts retry x att = some (x, att) := by
  have h' : ¬ retry < 2 := by omega
  cases sts <;> simp [XPI.deliverLoop, h']

theorem writeCtx_eq (n : Nat) (x : XPI) :
    XPI.writeCtx n x =
      { x with
        fpgaWrites := x.fpgaWrites ++ (frameAt x.buf x.pCtx n).flatMap
          (fun b => [(Reg.XPI_W_P1_SC_CTX_DATA, b), (Reg.XPI_W_P1_SC_CTX_INCFIFO, 0x00)])
        pCtx := x.pCtx + n } := by
  induction n generalizing x with
  | zero => simp [XPI.writeCtx, frameAt]
  | succ n ih =>
    simp only [XPI.writeCtx, ih, frameAt_succ]
    simp [XPI.FPGA_Write, Nat.add_assoc, Nat.add_comm 1]

theorem telemetry_nil : telemetry [] = [] := rfl

theorem telemetry_append (a b : List Msg) : telemetry (a ++ b) = telemetry a ++ telemetry b := by
  simp [telemetry]

theorem telemetry_singleton (m : Msg) (h : m.type ≠ XPI_IMSG_LOG) : telemetry [m] = [m] := by
  simp [telemetry, h]

theorem telemetry_cons (m : Msg) (l : List Msg) (h : m.type ≠ XPI_IMSG_LOG) :
    telemetry (m :: l) = m :: telemetry l := by
  simp [telemetry, h]

theorem telemetry_log (l : List Nat) :
    telemetry [{ type := XPI_IMSG_LOG, subtype := 0, data := l }] = [] := by
  simp [telemetry]

theorem usb_putc_telemetry (s : List Nat × List Msg) (ch : Int) :
    telemetry (usb_putc s ch).2 = telemetry s.2 := by
  unfold usb_putc
  dsimp only
  split_ifs <;> simp [telemetry_append, telemetry_log]

theorem foldl_usb_putc_telemetry (text : List Int) :
    ∀ s : List Nat × List Msg, telemetry (text.foldl usb_putc s).2 = telemetry s.2 := by
  induction text with
  | nil => intro s; rfl
  | cons c text ih =>
    intro s
    rw [List.foldl_cons, ih, usb_putc_telemetry]

/-- A call of `tracef` hands over text lines only. -/
theorem usbLog_telemetry (line : List Nat) (fmt : String) (args : List Int) :
    telemetry (usbLog line fmt args).2 = [] := by
  unfold usbLog
  rw [foldl_usb_putc_telemetry]
  rfl

set_option maxRecDepth 100000 in
/-- The line `SC: CTX Retrying c1c2 (2)`, the line `SC: Poll #-1: 05, Respond 81`
and a line that reaches 128 octets, as `usb_putc` hands them over. -/
theorem usbLog_examples :
    usbLog [] "SC: CTX Retrying %04x (%d)\n" [0xC1C2, 2] =
      ([], [{ type := XPI_IMSG_LOG, subtype := 0
              data := "SC: CTX Retrying c1c2 (2)".toList.map Char.toNat }]) ∧
    usbLog [] "SC: Poll #%d: %02x, Respond %02x\n" [-1, 5, 0x81] =
      ([], [{ type := XPI_IMSG_LOG, subtype := 0
              data := "SC: Poll #-1: 05, Respond 81".toList.map Char.toNat }]) ∧
    usbLog (List.replicate 126 0x2E) "%3d\n" [7] =
      ([], [{ type := XPI_IMSG_LOG, subtype := 0
              data := List.replicate 126 0x2E ++ [0x20, 0x20] },
            { type := XPI_IMSG_LOG, subtype := 0, data := [0x37] }]) := by
  decide

theorem tracef_telemetry (x : XPI) (fmt : String) (args : List Int) :
    telemetry (x.tracef fmt args).usbOut = telemetry x.usbOut := by
  simp [XPI.tracef, telemetry_append, usbLog_telemetry]

theorem usbOutPut_telemetry (x : XPI) (m : Msg) (h : m.type ≠ XPI_IMSG_LOG) :
    telemetry (x.usbOutPut m).usbOut = telemetry x.usbOut ++ [m] := by
  simp [XPI.usbOutPut, telemetry_append, telemetry_singleton m h]

/-! ## Lemmas on `On_CRX` -/

theorem setAt_same (mem : Nat → Nat) (i v : Nat) : setAt mem i v i = v := by
  simp [setAt]

theorem setAt_ne (mem : Nat → Nat) (i v j : Nat) (h : j ≠ i) : setAt mem i v j = mem j := by
  simp [setAt, h]

theorem RearrangePollList_crx (x : XPI) :
    telemetry x.RearrangePollList.usbOut = telemetry x.usbOut ∧
    x.RearrangePollList.crxLen = x.crxLen ∧
    x.RearrangePollList.crxCkSum = x.crxCkSum ∧ x.RearrangePollList.isMCPU = x.isMCPU ∧
    x.RearrangePollList.state = x.state ∧ x.RearrangePollList.sCRX_data = x.sCRX_data := by
  unfold XPI.RearrangePollList
  split <;> simp [XPI.tracef, telemetry_append, usbLog_telemetry]

theorem MarkBoardActive_crx (x : XPI) (a : Bool) :
    telemetry (x.MarkBoardActive a).usbOut = telemetry x.usbOut ∧
    (x.MarkBoardActive a).crxLen = x.crxLen ∧
    (x.MarkBoardActive a).crxCkSum = x.crxCkSum ∧ (x.MarkBoardActive a).isMCPU = x.isMCPU ∧
    (x.MarkBoardActive a).state = x.state ∧ (x.MarkBoardActive a).sCRX_data = x.sCRX_data := by
  unfold XPI.MarkBoardActive
  split
  · simp
  · cases a <;> simp <;> split <;> simp [XPI.tracef, telemetry_append, usbLog_telemetry]

/-- One octet in the middle of a frame. -/
theorem On_CRX_mid (x : XPI) (b j nib1 : Nat) (hb : b < 256)
    (hstate : x.state = .RECEIVE_CRX) (hlen : x.crxLen = j) (hj : 1 ≤ j)
    (hnib : (if j = 1 then b else x.sCRX_data 1) &&& 0x0F = nib1)
    (hmore : j + 1 ≠ 3 + nib1)
    (hclass : x.isMCPU = false → x.sCRX_data 0 &&& 0xC0 ≠ 0x40) :
    (x.On_CRX b).state = .RECEIVE_CRX ∧ (x.On_CRX b).crxLen = j + 1 ∧
    (x.On_CRX b).sCRX_data = setAt x.sCRX_data j b ∧
    (x.On_CRX b).crxCkSum = ckUpdate x.crxCkSum b ∧
    (x.On_CRX b).usbOut = x.usbOut ∧ (x.On_CRX b).isMCPU = x.isMCPU := by
  have hbm : b % 256 = b := Nat.mod_eq_of_lt hb
  have hj0 : j ≠ 0 := by omega
  have h1 : setAt x.sCRX_data j b 1 &&& 0x0F = nib1 := by
    rw [← hnib]
    by_cases h : j = 1
    · simp [setAt, h]
    · have : (1 : Nat) ≠ j := fun e => h e.symm
      simp [setAt, h, this]
  have h0 : setAt x.sCRX_data j b 0 = x.sCRX_data 0 := by
    have : (0 : Nat) ≠ j := fun e => hj0 e.symm
    simp [setAt, this]
  cases hm : x.isMCPU
  · have hc := hclass hm
    simp [XPI.On_CRX, hm, hstate, XPI.Goto, XPI.collectCRX, hlen, hbm, h1, h0, hc, hmore, setAt_same]
  · simp [XPI.On_CRX, hm, hstate, XPI.On_CRX_collect, XPI.Goto, XPI.collectCRX, hlen, hbm, h1,
      hmore, setAt_same]

/-- The octet that completes a frame. -/
theorem On_CRX_last (x : XPI) (b j : Nat) (hb : b < 256)
    (hstate : x.state = .RECEIVE_CRX) (hlen : x.crxLen = j)
    (hdone : j + 1 = 3 + ((if j = 1 then b else x.sCRX_data 1) &&& 0x0F))
    (hclass : x.isMCPU = false → x.sCRX_data 0 &&& 0xC0 ≠ 0x40) :
    telemetry (x.On_CRX b).usbOut = telemetry x.usbOut ++
      [{ type := XPI_IMSG_TRACE_CRX
         subtype := if ckUpdate x.crxCkSum b = 0 then 0 else 1
         data := frameAt (setAt x.sCRX_data j b) 0 (j + 1) }] ∧
    (x.isMCPU = false → (x.On_CRX b).usbOut = x.usbOut ++
      [{ type := XPI_IMSG_TRACE_CRX
         subtype := if ckUpdate x.crxCkSum b = 0 then 0 else 1
         data := frameAt (setAt x.sCRX_data j b) 0 (j + 1) }]) ∧
    (x.On_CRX b).crxLen = 0 ∧ (x.On_CRX b).crxCkSum = 0xFF := by
  have hbm : b % 256 = b := Nat.mod_eq_of_lt hb
  have hj0 : j ≠ 0 := by omega
  have h1 : setAt x.sCRX_data j b 1 = (if j = 1 then b else x.sCRX_data 1) := by
    by_cases h : j = 1
    · simp [setAt, h]
    · have : (1 : Nat) ≠ j := fun e => h e.symm
      simp [setAt, h, this]
  have h0 : setAt x.sCRX_data j b 0 = x.sCRX_data 0 := by
    have : (0 : Nat) ≠ j := fun e => hj0 e.symm
    simp [setAt, this]
  have h2 : 2 ≤ j + 1 := by omega
  have h2' : ¬ j + 1 < 2 := by omega
  have ht : XPI_IMSG_TRACE_CRX ≠ XPI_IMSG_LOG := by decide
  cases hm : x.isMCPU
  · have hc := hclass hm
    by_cases hz : ckUpdate x.crxCkSum b = 0 <;>
      simp [XPI.On_CRX, hm, hstate, XPI.Goto, XPI.collectCRX, hlen, hbm, h1, h0, hc, ← hdone, h2,
        setAt_same, XPI.usbOutPut, XPI.sCRX, hz, telemetry_append, telemetry_singleton, ht]
  · by_cases hz : ckUpdate x.crxCkSum b = 0 <;> by_cases he : x.isCTXE <;>
      simp [XPI.On_CRX, hm, hstate, XPI.On_CRX_collect, XPI.Goto, XPI.collectCRX, hlen, hbm, h1,
        ← hdone, h2', setAt_same, XPI.usbOutPut, XPI.sCRX, hz, he, (RearrangePollList_crx _).1,
        (RearrangePollList_crx _).2.1, (RearrangePollList_crx _).2.2.1, XPI.tracef,
        XPI.FPGA_Write, telemetry_append, telemetry_singleton, telemetry_cons, telemetry_nil, ht,
        usbLog_telemetry]

/-- The octet that begins a frame. -/
theorem On_CRX_first (x : XPI) (b : Nat) (hb : b < 256)
    (hstart :
      (x.isMCPU = false ∧ x.state = .IDLE ∧ b &&& 0xC0 ≠ 0x40) ∨
      (x.isMCPU = true ∧ x.state = .POLL_EIRQ ∧ 0 ≤ x.poll_cur ∧
        x.poll_list x.poll_cur.toNat &&& 0x3F = b &&& 0x3F ∧
        (b &&& 0xC0 = 0x80 ∨ b &&& 0xC0 = 0xC0))) :
    (x.On_CRX b).state = .RECEIVE_CRX ∧ (x.On_CRX b).crxLen = 1 ∧
    (x.On_CRX b).sCRX_data = setAt x.sCRX_data 0 b ∧
    (x.On_CRX b).crxCkSum = ckUpdate 0xFF b ∧
    telemetry (x.On_CRX b).usbOut = telemetry x.usbOut ∧
    (x.isMCPU = false → (x.On_CRX b).usbOut = x.usbOut) ∧
    (x.On_CRX b).isMCPU = x.isMCPU := by
  have hbm : b % 256 = b := Nat.mod_eq_of_lt hb
  rcases hstart with ⟨hm, hs, hc⟩ | ⟨hm, hs, hcur, hid, hcl⟩
  · simp [XPI.On_CRX, hm, hs, XPI.Goto, XPI.collectCRX, hbm, setAt_same, hc]
  · have hcur' : ¬ x.poll_cur < 0 := by omega
    have hc0 : ¬ b &&& 0xC0 = 0x00 := by rcases hcl with h | h <;> rw [h] <;> decide
    have hc1 : ¬ b &&& 0xC0 = 0x40 := by rcases hcl with h | h <;> rw [h] <;> decide
    simp [XPI.On_CRX, hm, hs, hcur', hid, hc0, hc1, XPI.On_CRX_collect, XPI.Goto, XPI.collectCRX,
      hbm, setAt_same, XPI.FPGA_Write, (MarkBoardActive_crx _ _).1,
      (MarkBoardActive_crx _ _).2.2.2.1, (MarkBoardActive_crx _ _).2.2.2.2.2]

theorem feedCRX_cons (x : XPI) (b : Nat) (rest : List Nat) :
    x.feedCRX (b :: rest) = (x.On_CRX b).feedCRX rest := by
  simp [XPI.feedCRX]

/-- The octets of a frame after the first `j` ones. -/
theorem feedCRX_rest (f : List Nat) (hf : ∀ b ∈ f, b < 256)
    (hlen : f.length = 3 + (f.getD 1 0 &&& 0x0F)) :
    ∀ (rest : List Nat) (j : Nat) (x : XPI), 1 ≤ j → f.drop j = rest → rest ≠ [] →
      x.state = .RECEIVE_CRX → x.crxLen = j → (∀ i, i < j → x.sCRX_data i = f.getD i 0) →
      x.crxCkSum = (f.take j).foldl ckUpdate 0xFF →
      (x.isMCPU = false → f.getD 0 0 &&& 0xC0 ≠ 0x40) →
      (∀ k, k < rest.length → (x.feedCRX (rest.take k)).usbOut = x.usbOut) ∧
      telemetry (x.feedCRX rest).usbOut = telemetry x.usbOut ++
        [{ type := XPI_IMSG_TRACE_CRX, subtype := if acc f = 0 then 0 else 1, data := f }] ∧
      (x.isMCPU = false → (x.feedCRX rest).usbOut = x.usbOut ++
        [{ type := XPI_IMSG_TRACE_CRX, subtype := if acc f = 0 then 0 else 1, data := f }]) ∧
      (x.feedCRX rest).crxLen = 0 ∧ (x.feedCRX rest).crxCkSum = 0xFF := by
  intro rest
  induction rest with
  | nil => intro j x _ _ h; exact absurd rfl h
  | cons b rest ih =>
    intro j x hj hdrop _ hstate hcrx hdata hck hclass
    have hjlt : j < f.length := by
      by_contra h
      rw [List.drop_eq_nil_of_le (by omega)] at hdrop
      exact List.noConfusion hdrop
    have hbj : f.getD j 0 = b := by
      rw [List.getD_eq_getElem?_getD, ← List.head?_drop, hdrop]
      rfl
    have hdrop' : f.drop (j + 1) = rest := by
      rw [← List.drop_drop 1 j f, hdrop]
      rfl
    have hb : b < 256 := by
      apply hf
      rw [← hbj, List.getD_eq_getElem _ _ hjlt]
      exact List.getElem_mem _
    have htake : f.take (j + 1) = f.take j ++ [b] := by
      rw [List.take_succ, List.getElem?_eq_getElem hjlt, ← hbj, List.getD_eq_getElem _ _ hjlt]
      rfl
    have hnib1 : (if j = 1 then b else x.sCRX_data 1) = f.getD 1 0 := by
      by_cases h : j = 1
      · simp [h, ← hbj]
      · simp [h, hdata 1 (by omega)]
    have hcls : x.isMCPU = false → x.sCRX_data 0 &&& 0xC0 ≠ 0x40 := by
      intro hm
      rw [hdata 0 (by omega)]
      exact hclass hm
    have hdata' : ∀ i, i < j + 1 → setAt x.sCRX_data j b i = f.getD i 0 := by
      intro i hi
      by_cases h : i = j
      · rw [h, setAt_same, hbj]
      · rw [setAt_ne _ _ _ _ h]
        exact hdata i (by omega)
    cases rest with
    | nil =>
      have hfl : f.length = j + 1 := by
        have := congrArg List.length hdrop'
        simp at this
        omega
      have hdone : j + 1 = 3 + ((if j = 1 then b else x.sCRX_data 1) &&& 0x0F) := by
        rw [hnib1, ← hlen, hfl]
      obtain ⟨h1, h1', h2, h3⟩ := On_CRX_last x b j hb hstate hcrx hdone hcls
      have hall : f.take (j + 1) = f := by
        rw [← hfl]; exact List.take_length f
      have hfr : frameAt (setAt x.sCRX_data j b) 0 (j + 1) = f := by
        apply List.ext_getElem
        · simp [frameAt, hfl]
        · intro i hi1 hi2
          simp only [frameAt, List.getElem_map, List.getElem_range, Nat.zero_add]
          rw [hdata' i (by simpa [frameAt] using hi1), List.getD_eq_getElem _ _ hi2]
      have hacc : ckUpdate x.crxCkSum b = acc f := by
        rw [hck, acc]
        conv_rhs => rw [← hall, htake]
        simp [List.foldl_append]
      refine ⟨?_, ?_, ?_, ?_, ?_⟩
      · intro k hk
        have : k = 0 := by simpa using hk
        subst this
        simp [XPI.feedCRX]
      · rw [feedCRX_cons]
        show telemetry (x.On_CRX b).usbOut = _
        rw [h1, hfr, hacc]
      · intro hm
        rw [feedCRX_cons]
        show (x.On_CRX b).usbOut = _
        rw [h1' hm, hfr, hacc]
      · rw [feedCRX_cons]; simpa [XPI.feedCRX] using h2
      · rw [feedCRX_cons]; simpa [XPI.feedCRX] using h3
    | cons b' rest' =>
      have hfl : j + 1 < f.length := by
        have := congrArg List.length hdrop'
        simp at this
        omega
      have hmore : j + 1 ≠ 3 + (f.getD 1 0 &&& 0x0F) := by omega
      obtain ⟨s1, s2, s3, s4, s5, s6⟩ :=
        On_CRX_mid x b j (f.getD 1 0 &&& 0x0F) hb hstate hcrx hj (by rw [hnib1]) hmore hcls
      obtain ⟨i1, i2, i2', i3, i4⟩ := ih (j + 1) (x.On_CRX b) (by omega) hdrop' (by simp) s1 s2
        (by intro i hi; rw [s3]; exact hdata' i hi)
        (by rw [s4, hck, htake]; simp [List.foldl_append])
        (by rw [s6]; exact hclass)
      refine ⟨?_, ?_, ?_, ?_, ?_⟩
      · intro k hk
        cases k with
        | zero => simp [XPI.feedCRX]
        | succ k =>
          rw [List.take_succ_cons, feedCRX_cons, i1 k (by simpa using hk), s5]
      · rw [feedCRX_cons, i2, s5]
      · intro hm
        rw [feedCRX_cons, i2' (by rw [s6]; exact hm), s5]
      · rw [feedCRX_cons, i3]
      · rw [feedCRX_cons, i4]

/-- One octet in the middle of a frame on the command channel. -/
theorem On_CTX_mid (x : XPI) (b j nib1 : Nat) (hb : b < 256)
    (hlen : x.ctxLen = j) (hj : 1 ≤ j)
    (hnib : (if j = 1 then b else x.sCTX_data 1) &&& 0x0F = nib1)
    (hmore : j + 1 ≠ 3 + nib1) (hsmall : j + 1 ≤ 18)
    (hclass : x.sCTX_data 0 &&& 0xC0 ≠ 0x40)
    (hstate :
      (x.isMCPU = true ∧
        (x.state = .IDLE ∨ x.state = .WAIT_ACK ∨ x.state = .WAIT_CTXE ∨ x.state = .WAIT_SENT ∨
          x.state = .BLOCKED_SEND) ∧
        x.sCTX_data 0 ≠ 0xC0 ∧ x.sCTX_data 0 &&& 0xC0 ≠ 0x00) ∨
      (x.isMCPU = false ∧ x.state = .RECEIVE_CTX ∧ ¬ (x.isEIRQ = true ∧ x.sCTX_data 0 = 0xC0))) :
    (x.On_CTX b).ctxLen = j + 1 ∧
    (x.On_CTX b).sCTX_data = setAt x.sCTX_data j b ∧
    (x.On_CTX b).ctxCkSum = ckUpdate x.ctxCkSum b := by
  have hbm : b % 256 = b := Nat.mod_eq_of_lt hb
  have hj0 : j ≠ 0 := by omega
  have h1 : setAt x.sCTX_data j b 1 &&& 0x0F = nib1 := by
    rw [← hnib]
    by_cases h : j = 1
    · simp [setAt, h]
    · have : (1 : Nat) ≠ j := fun e => h e.symm
      simp [setAt, h, this]
  have h0 : setAt x.sCTX_data j b 0 = x.sCTX_data 0 := by
    have : (0 : Nat) ≠ j := fun e => hj0 e.symm
    simp [setAt, this]
  have h18 : ¬ j + 1 > 18 := by omega
  rcases hstate with ⟨hm, hs, hp, hn⟩ | ⟨hm, hs, he⟩
  · simp [XPI.On_CTX, XPI.FPGA_Write, hm, hs, XPI.collectCTX, hlen, hbm, h1, h0, hp, hn, hclass,
      hmore, h18, setAt_same]
  · simp only [not_and] at he
    by_cases hE : x.isEIRQ = true
    · have := he hE
      simp [XPI.On_CTX, XPI.FPGA_Write, hm, hs, XPI.Goto, XPI.collectCTX, hlen, hbm, h1, h0, hE,
        this, hclass, hmore, setAt_same]
    · simp [XPI.On_CTX, XPI.FPGA_Write, hm, hs, XPI.Goto, XPI.collectCTX, hlen, hbm, h1, h0, hE,
        hclass, hmore, setAt_same]

/-! ## Lemmas on the queue -/

theorem msgSpace_cons (m : List Nat) (q : List (List Nat)) :
    msgSpace (m :: q) = m.length + 2 + msgSpace q := by
  simp [msgSpace]

theorem msgSpace_append (q : List (List Nat)) (m : List Nat) :
    msgSpace (q ++ [m]) = msgSpace q + (m.length + 2) := by
  simp [msgSpace]

theorem msgSpace_mem (q : List (List Nat)) (m : List Nat) (h : m ∈ q) :
    m.length + 2 ≤ msgSpace q := by
  induction q with
  | nil => cases h
  | cons a q ih =>
    rw [msgSpace_cons]
    rcases List.mem_cons.mp h with rfl | h'
    · omega
    · have := ih h'
      omega

theorem small_msb_not_sentinel : ∀ k, k < 16 → (k &&& 0xFF) &&& 0xE0 ≠ 0xC0 := by
  decide

theorem wrapPtr_cases (p : Nat) :
    (p < 4096 ∧ wrapPtr p = p) ∨ (4096 ≤ p ∧ wrapPtr p = p - 4096) := by
  unfold wrapPtr
  simp only [XPI_XMTR_BUF_SIZE]
  by_cases h : p ≥ 4096
  · right; exact ⟨h, by simp [h]⟩
  · left; exact ⟨by omega, by simp [h]⟩

theorem Layout_frame (mem mem' : Nat → Nat) (a n pw : Nat)
    (hsame : ∀ i, ¬ (a ≤ i ∧ i < a + n) → mem' i = mem i) :
    ∀ (q : List (List Nat)) (r : Nat), Layout mem r q pw → Free a n r (msgSpace q) →
      Layout mem' r q pw := by
  intro q
  induction q with
  | nil => intro r h _; exact h
  | cons m q ih =>
    intro r h hfree
    obtain ⟨h1, h2, h3, h4⟩ := h
    rw [msgSpace_cons] at hfree
    unfold Free at hfree
    simp only [XPI_XMTR_BUF_SIZE] at hfree
    refine ⟨?_, ?_, ?_, ?_⟩
    · rw [hsame r (by omega)]; exact h1
    · rw [hsame (r + 1) (by omega)]; exact h2
    · exact (frameAt_congr mem mem' (r + 2) m.length (fun i hi => hsame _ (by omega))).trans h3
    · apply ih _ h4
      unfold Free
      simp only [XPI_XMTR_BUF_SIZE]
      rcases wrapPtr_cases (r + 2 + m.length) with ⟨hw, he⟩ | ⟨hw, he⟩ <;> rw [he] <;> omega

theorem Layout_end (mem : Nat → Nat) (pw : Nat) :
    ∀ (q : List (List Nat)) (r : Nat), Layout mem r q pw → r < XPI_XMTR_BUF_SIZE →
      (∀ m ∈ q, m.length + 2 ≤ XPI_XMTR_BUF_SIZE) →
      pw < XPI_XMTR_BUF_SIZE ∧ ∃ c, r + msgSpace q = pw + XPI_XMTR_BUF_SIZE * c := by
  intro q
  induction q with
  | nil =>
    intro r h hr _
    have : r = pw := h
    subst this
    exact ⟨hr, 0, by simp [msgSpace]⟩
  | cons m q ih =>
    intro r h hr hlens
    obtain ⟨-, -, -, h4⟩ := h
    have hm := hlens m (List.mem_cons_self _ _)
    rw [msgSpace_cons]
    simp only [XPI_XMTR_BUF_SIZE] at *
    rcases wrapPtr_cases (r + 2 + m.length) with ⟨hw, he⟩ | ⟨hw, he⟩
    · rw [he] at h4
      obtain ⟨hpw, c, hc⟩ := ih _ h4 hw (fun m' hm' => hlens m' (List.mem_cons_of_mem _ hm'))
      exact ⟨hpw, c, by omega⟩
    · rw [he] at h4
      obtain ⟨hpw, c, hc⟩ := ih _ h4 (by omega)
        (fun m' hm' => hlens m' (List.mem_cons_of_mem _ hm'))
      exact ⟨hpw, c + 1, by omega⟩

theorem Layout_append (mem : Nat → Nat) (pw pw' : Nat) (m : List Nat)
    (hm : Layout mem pw [m] pw') :
    ∀ (q : List (List Nat)) (r : Nat), Layout mem r q pw → Layout mem r (q ++ [m]) pw' := by
  intro q
  induction q with
  | nil =>
    intro r h
    have : r = pw := h
    subst this
    exact hm
  | cons m' q ih =>
    intro r h
    obtain ⟨h1, h2, h3, h4⟩ := h
    exact ⟨h1, h2, h3, ih _ h4⟩

theorem header_decode (n : Nat) (hn : n < 65536) :
    (((n >>> 8) &&& 0xFF) <<< 8) ||| (n &&& 0xFF) = n := by
  have h1 : n &&& 0xFF = n % 256 := by
    simpa using Nat.and_pow_two_sub_one_eq_mod n 8
  have h2 : (n >>> 8) &&& 0xFF = n / 256 := by
    have := Nat.and_pow_two_sub_one_eq_mod (n >>> 8) 8
    rw [Nat.shiftRight_eq_div_pow] at this ⊢
    simp at this ⊢
    rw [this]
    omega
  rw [h1, h2, Nat.shiftLeft_eq]
  have h3 : n / 256 * 2 ^ 8 ||| n % 256 = n / 256 * 2 ^ 8 + n % 256 := by
    rw [Nat.mul_comm]
    exact (Nat.mul_add_lt_is_or (Nat.mod_lt _ (by decide)) _).symm
  rw [h3]
  omega

theorem semaWaitFails_of_lt (items count : Nat) (hc : count < 2 ^ 31) (h : items < count) :
    semaWaitFails items count := by
  unfold semaWaitFails toSigned
  split_ifs <;> omega

theorem le_of_not_semaWaitFails (items count : Nat) (hc : count < 2 ^ 31)
    (h : ¬ semaWaitFails items count) : count ≤ items := by
  unfold semaWaitFails toSigned at h
  split_ifs at h <;> omega

/-- A `Put` whose wait is passed finds `len + 2` items, when `len + 2` is a
positive signed value. -/
theorem le_of_Put_wait (items len : Nat) (hl : len + 2 < 2 ^ 31)
    (h : ¬ semaWaitFails items ((len + 2) % 2 ^ 32)) : len + 2 ≤ items := by
  rw [Nat.mod_eq_of_lt (by omega)] at h
  exact le_of_not_semaWaitFails _ _ hl h

/-- With fewer than `len + 2` items the wait of `Put` fails, when `len + 2` is
a positive signed value. -/
theorem Put_wait_fails (items len : Nat) (hl : len + 2 < 2 ^ 31) (h : items < len + 2) :
    semaWaitFails items ((len + 2) % 2 ^ 32) := by
  rw [Nat.mod_eq_of_lt (by omega)]
  exact semaWaitFails_of_lt _ _ hl h

theorem Put_true (x : XPI) (data : Nat → Nat) (len t : Nat) (y : XPI)
    (h : x.Put data len t = some (true, y)) :
    len + 2 ≤ x.semaFull ∧ x.pWrite + 2 + len ≤ XPI_BUF_LEN ∧
    y = { x with
          semaFull := x.semaFull - (len + 2)
          buf := memcpy (setAt (setAt x.buf x.pWrite ((len >>> 8) &&& 0xFF)) (x.pWrite + 1)
            (len &&& 0xFF)) (x.pWrite + 2) data len
          pWrite := wrapPtr (x.pWrite + 2 + len)
          semaEmpty := x.semaEmpty + (len + 2) } := by
  unfold XPI.Put at h
  by_cases h1 : semaWaitFails x.semaFull ((len + 2) % 2 ^ 32)
  · rw [if_pos h1] at h
    by_cases ht : t = 0 <;> simp [ht] at h
  · rw [if_neg h1] at h
    by_cases h2 : XPI_BUF_LEN < x.pWrite + 2 + len
    · simp [h2] at h
    · simp only [h2, if_false, Option.some.injEq, Prod.mk.injEq, true_and] at h
      have hl : len + 2 < 2 ^ 31 := by
        simp only [XPI_BUF_LEN, XPI_XMTR_BUF_SIZE] at h2
        omega
      have h3 := le_of_Put_wait _ _ hl h1
      exact ⟨h3, by omega, h.symm⟩

theorem Put_defined (x : XPI) (data : Nat → Nat) (len t : Nat)
    (hpw : x.pWrite < XPI_XMTR_BUF_SIZE) (hlen : len ≤ 30) :
    ∃ ok y, x.Put data len t = some (ok, y) := by
  simp only [XPI_XMTR_BUF_SIZE] at hpw
  have h2 : ¬ XPI_BUF_LEN < x.pWrite + 2 + len := by
    simp only [XPI_BUF_LEN, XPI_XMTR_BUF_SIZE]
    omega
  unfold XPI.Put
  by_cases h1 : semaWaitFails x.semaFull ((len + 2) % 2 ^ 32)
  · by_cases ht : t = 0
    · exact ⟨false, x, by rw [if_pos h1]; simp [ht]⟩
    · exact ⟨false, _, by rw [if_pos h1, if_pos ht]⟩
  · exact ⟨true, _, by rw [if_neg h1, if_neg h2]⟩

theorem Put_step (x : XPI) (q : List (List Nat)) (data : Nat → Nat) (len t : Nat) (y : XPI)
    (hinv : QueueInv x q) (hlo : 2 ≤ len) (hput : x.Put data len t = some (true, y)) :
    QueueInv y (q ++ [frameAt data 0 len]) := by
  obtain ⟨hroom, -, rfl⟩ := Put_true x data len t y hput
  obtain ⟨hpr, hlay, hemp, hfull, hlens⟩ := hinv
  simp only [XPI_XMTR_BUF_SIZE] at hpr hfull
  obtain ⟨hpw, c, hc⟩ := Layout_end x.buf x.pWrite q x.pRead hlay hpr
    (fun m hm => by have := msgSpace_mem q m hm; simp only [XPI_XMTR_BUF_SIZE]; omega)
  simp only [XPI_XMTR_BUF_SIZE] at hpw hc
  have hsame : ∀ i, ¬ (x.pWrite ≤ i ∧ i < x.pWrite + (len + 2)) →
      memcpy (setAt (setAt x.buf x.pWrite ((len >>> 8) &&& 0xFF)) (x.pWrite + 1) (len &&& 0xFF))
        (x.pWrite + 2) data len i = x.buf i := by
    intro i hi
    have h1 : ¬ (x.pWrite + 2 ≤ i ∧ i < x.pWrite + 2 + len) := by omega
    have h2 : i ≠ x.pWrite + 1 := by omega
    have h3 : i ≠ x.pWrite := by omega
    simp [memcpy, setAt, h1, h2, h3]
  have hfree : Free x.pWrite (len + 2) x.pRead (msgSpace q) := by
    unfold Free
    simp only [XPI_XMTR_BUF_SIZE]
    omega
  have hold := Layout_frame x.buf _ x.pWrite (len + 2) x.pWrite hsame q x.pRead hlay hfree
  have hnew : Layout
      (memcpy (setAt (setAt x.buf x.pWrite ((len >>> 8) &&& 0xFF)) (x.pWrite + 1) (len &&& 0xFF))
        (x.pWrite + 2) data len)
      x.pWrite [frameAt data 0 len] (wrapPtr (x.pWrite + 2 + len)) := by
    refine ⟨?_, ?_, ?_, ?_⟩
    · have h1 : ¬ (x.pWrite + 2 ≤ x.pWrite ∧ x.pWrite < x.pWrite + 2 + len) := by omega
      simp [memcpy, setAt, h1, frameAt_length]
    · have h1 : ¬ (x.pWrite + 2 ≤ x.pWrite + 1 ∧ x.pWrite + 1 < x.pWrite + 2 + len) := by omega
      simp [memcpy, setAt, h1, frameAt_length]
    · rw [frameAt_length]
      apply List.map_congr_left
      intro i hi
      have hi' : i < len := List.mem_range.mp hi
      have h1 : x.pWrite + 2 ≤ x.pWrite + 2 + i ∧ x.pWrite + 2 + i < x.pWrite + 2 + len := by omega
      simp [memcpy, h1]
    · rw [frameAt_length]
      rfl
  refine ⟨?_, ?_, ?_, ?_, ?_⟩
  · simpa [XPI_XMTR_BUF_SIZE] using hpr
  · exact Layout_append _ _ _ _ hnew q x.pRead hold
  · simp [msgSpace_append, frameAt_length, hemp]
  · simp [XPI_XMTR_BUF_SIZE]
    omega
  · intro m hm
    rcases List.mem_append.mp hm with h | h
    · exact hlens m h
    · have : m = frameAt data 0 len := by simpa using h
      rw [this, frameAt_length]
      exact hlo

theorem deliverLoop_preserves (P : (Nat → Nat) → Prop) (len p : Nat)
    (hP : ∀ mem, P mem → mem p &&& 0xE0 = 0xC0 → P (resendFlip mem p len)) :
    ∀ (sts : List Int) (retry : Nat) (x : XPI) (att : List (List Nat)) (y : XPI)
      (att' : List (List Nat)),
      x.pRead = p → P x.buf → XPI.deliverLoop len sts retry x att = some (y, att') →
      P y.buf ∧ y.pRead = x.pRead ∧ y.pWrite = x.pWrite ∧ y.semaFull = x.semaFull ∧
      y.semaEmpty = x.semaEmpty ∧ y.requestID = x.requestID ∧
      telemetry y.usbOut = telemetry x.usbOut ∧ y.isMCPU = x.isMCPU := by
  intro sts
  induction sts with
  | nil =>
    intro retry x att y att' _ hPx h
    by_cases hr : retry < 2
    · simp [XPI.deliverLoop, hr] at h
    · simp only [XPI.deliverLoop, hr, if_false, Option.some.injEq, Prod.mk.injEq] at h
      obtain ⟨rfl, -⟩ := h
      exact ⟨hPx, rfl, rfl, rfl, rfl, rfl, rfl, rfl⟩
  | cons s rest ih =>
    intro retry x att y att' hp hPx h
    by_cases hr : retry < 2
    · by_cases hs : s = 0
      · by_cases hc : x.buf x.pRead &&& 0xE0 = 0xC0
        · simp only [XPI.deliverLoop, hr, if_true, hs, hc, ne_eq, not_true_eq_false,
            if_false] at h
          have := ih _ _ _ _ _ (by exact hp) (by rw [← hp] at hP; exact hP _ hPx hc) h
          simpa using this
        · simp only [XPI.deliverLoop, hr, if_true, hs, hc, ne_eq, not_false_eq_true,
            Option.some.injEq, Prod.mk.injEq] at h
          obtain ⟨rfl, -⟩ := h
          exact ⟨hPx, rfl, rfl, rfl, rfl, rfl, rfl, rfl⟩
      · simp only [XPI.deliverLoop, hr, if_true, hs, if_false] at h
        have := ih _ _ _ _ _ (by exact hp) (by exact hPx) h
        simpa [XPI.tracef, telemetry_append, usbLog_telemetry] using this
    · simp only [XPI.deliverLoop, hr, if_false, Option.some.injEq, Prod.mk.injEq] at h
      obtain ⟨rfl, -⟩ := h
      exact ⟨hPx, rfl, rfl, rfl, rfl, rfl, rfl, rfl⟩

theorem deliver_preserves (P : (Nat → Nat) → Prop) (len p : Nat)
    (hP : ∀ mem, P mem → mem p &&& 0xE0 = 0xC0 → P (resendFlip mem p len))
    (sts : List Int) (x y : XPI) (att : List (List Nat))
    (h : x.deliver len sts = some (y, att)) (hp : x.pRead = p) (hPx : P x.buf) :
    P y.buf ∧ y.pRead = x.pRead ∧ y.pWrite = x.pWrite ∧ y.semaFull = x.semaFull ∧
    y.semaEmpty = x.semaEmpty ∧ y.requestID = x.requestID ∧ y.isMCPU = x.isMCPU := by
  unfold XPI.deliver at h
  split at h
  · exact absurd h (by simp)
  · rename_i z att' hloop
    obtain ⟨p1, p2, p3, p4, p5, p6, -, p8⟩ :=
      deliverLoop_preserves P len p hP sts 0 x [] z att' hp hPx hloop
    by_cases hst : z.ctx_status ≠ 0
    · rw [if_pos hst] at h
      simp only [Option.some.injEq, Prod.mk.injEq] at h
      obtain ⟨rfl, -⟩ := h
      exact ⟨p1, p2, p3, p4, p5, p6, p8⟩
    · rw [if_neg hst] at h
      simp only [Option.some.injEq, Prod.mk.injEq] at h
      obtain ⟨rfl, -⟩ := h
      exact ⟨p1, p2, p3, p4, p5, p6, p8⟩

theorem frameAt_getD (mem : Nat → Nat) (a n : Nat) (m : List Nat) (h : frameAt mem a n = m)
    (i : Nat) (hi : i < n) : mem (a + i) = m.getD i 0 := by
  subst h
  rw [List.getD_eq_getElem _ _ (by simpa [frameAt] using hi)]
  simp [frameAt]

theorem frameAt_drop (mem : Nat → Nat) (a n : Nat) (m : List Nat) (h : frameAt mem a n = m)
    (k : Nat) : frameAt mem (a + k) (n - k) = m.drop k := by
  subst h
  apply List.ext_getElem
  · simp [frameAt]
  · intro i h1 h2
    simp [frameAt, Nat.add_assoc]

theorem resendFlip_same (mem : Nat → Nat) (p len i : Nat) (h1 : i ≠ p)
    (h2 : i ≠ (p + len + 2 ^ 32 - 1) % 2 ^ 32) : resendFlip mem p len i = mem i := by
  simp only [resendFlip]
  rw [setAt_ne _ _ _ _ h2, setAt_ne _ _ _ _ h1]

theorem Transmitter_step (x : XPI) (m : List Nat) (q : List (List Nat)) (sts : List Int)
    (x' : XPI) (r : TxResult) (hinv : QueueInv x (m :: q))
    (hrun : x.Transmitter sts = some (x', r)) :
    QueueInv x' q ∧ r.len + 2 = m.length ∧
    r.requestID = (m.getD 0 0 <<< 8 ||| m.getD 1 0) ∧ r.frame = m.drop 2 ∧
    r.released = m.length + 2 ∧ x'.semaFull = x.semaFull + (m.length + 2) ∧
    x'.isMCPU = x.isMCPU := by
  obtain ⟨hpr, hlay, hemp, hfull, hlens⟩ := hinv
  have hL2 := hlens m (List.mem_cons_self _ _)
  obtain ⟨hb0, hb1, hfr, htail⟩ := hlay
  rw [msgSpace_cons] at hemp
  simp only [XPI_XMTR_BUF_SIZE] at hpr hfull
  have hlen0 : (x.buf x.pRead <<< 8 ||| x.buf (x.pRead + 1)) = m.length := by
    rw [hb0, hb1]
    exact header_decode _ (by omega)
  have hlenw : (m.length + 2 ^ 32 - 2) % 2 ^ 32 = m.length - 2 := by omega
  have hd0 : x.buf (x.pRead + 2) = m.getD 0 0 := by
    simpa using frameAt_getD _ _ _ _ hfr 0 (by omega)
  have hd1 : x.buf (x.pRead + 3) = m.getD 1 0 := by
    simpa using frameAt_getD _ _ _ _ hfr 1 (by omega)
  have hframe : frameAt x.buf (x.pRead + 4) (m.length - 2) = m.drop 2 := by
    simpa [Nat.add_assoc] using frameAt_drop _ _ _ _ hfr 2
  have h1 : ¬ x.semaEmpty < 2 := by omega
  have h2 : ¬ x.semaEmpty - 2 < m.length := by omega
  have hq : ∀ m' ∈ q, 2 ≤ m'.length :=
    fun m' hm' => hlens m' (List.mem_cons_of_mem _ hm')
  -- the resend step leaves the later messages as they are
  have hP : ∀ mem, Layout mem (wrapPtr (x.pRead + 2 + m.length)) q x.pWrite →
      mem (x.pRead + 4) &&& 0xE0 = 0xC0 →
      Layout (resendFlip mem (x.pRead + 4) (m.length - 2))
        (wrapPtr (x.pRead + 2 + m.length)) q x.pWrite := by
    intro mem hl hsent
    have hck : (x.pRead + 4 + (m.length - 2) + 2 ^ 32 - 1) % 2 ^ 32 = x.pRead + m.length + 1 := by
      omega
    by_cases h3 : 3 ≤ m.length
    · apply Layout_frame mem _ x.pRead (m.length + 2) x.pWrite _ q _ hl
      · unfold Free
        simp only [XPI_XMTR_BUF_SIZE]
        rcases wrapPtr_cases (x.pRead + 2 + m.length) with ⟨hw, he⟩ | ⟨hw, he⟩ <;> rw [he] <;> omega
      · intro i hi
        exact resendFlip_same _ _ _ _ (by omega) (by rw [hck]; omega)
    · have hm2 : m.length = 2 := by omega
      cases q with
      | nil => exact hl
      | cons m' q' =>
        have hemp' := hemp
        rw [msgSpace_cons] at hemp'
        rcases wrapPtr_cases (x.pRead + 2 + m.length) with ⟨hw, he⟩ | ⟨hw, he⟩
        · exfalso
          rw [he] at hl
          obtain ⟨hh, -, -, -⟩ := hl
          have e : x.pRead + 2 + m.length = x.pRead + 4 := by omega
          rw [e] at hh
          rw [hh] at hsent
          have hk : m'.length >>> 8 < 16 := by
            rw [Nat.shiftRight_eq_div_pow]
            omega
          exact absurd hsent (small_msb_not_sentinel _ hk)
        · apply Layout_frame mem _ (x.pRead + 3) 2 x.pWrite _ (m' :: q') _ hl
          · unfold Free
            simp only [XPI_XMTR_BUF_SIZE]
            rw [he, msgSpace_cons]
            omega
          · intro i hi
            exact resendFlip_same _ _ _ _ (by omega) (by rw [hck]; omega)
  have hwrap : wrapPtr (x.pRead + 2 + m.length) < 4096 := by
    rcases wrapPtr_cases (x.pRead + 2 + m.length) with ⟨hw, he⟩ | ⟨hw, he⟩ <;> rw [he] <;> omega
  have hfin : (x.pRead + 4 + (m.length - 2)) % 4294967296 = x.pRead + 2 + m.length := by omega
  have hrel : (m.length - 2 + 4) % 4294967296 = m.length + 2 := by omega
  simp only [XPI.Transmitter, h1, if_false, hlen0, h2, hlenw] at hrun
  by_cases hm : x.isMCPU = true
  · rw [if_pos hm] at hrun
    split at hrun
    · exact absurd hrun (by simp)
    · rename_i y att hdel
      obtain ⟨p1, p2, p3, p4, p5, p6, p8⟩ :=
        deliver_preserves (fun mem => Layout mem (wrapPtr (x.pRead + 2 + m.length)) q x.pWrite)
          (m.length - 2) (x.pRead + 4) hP sts _ y att hdel rfl htail
      simp only at p2 p3 p4 p5 p6 p8
      simp only [Option.some.injEq, Prod.mk.injEq] at hrun
      obtain ⟨rfl, rfl⟩ := hrun
      refine ⟨⟨?_, ?_, ?_, ?_, ?_⟩, by show m.length - 2 + 2 = m.length; omega, ?_, ?_, ?_, ?_, ?_⟩
      · simpa [p2, hfin, XPI_XMTR_BUF_SIZE] using hwrap
      · simpa [p2, p3, hfin] using p1
      · simp [p5]; omega
      · simp [p4, p5, hrel, XPI_XMTR_BUF_SIZE]; omega
      · exact hq
      · simp [p6, hd0, hd1]
      · simpa using hframe
      · simpa using hrel
      · simp [p4, hrel]
      · simp [p8]
  · rw [if_neg hm] at hrun
    simp only [Option.some.injEq, Prod.mk.injEq] at hrun
    obtain ⟨rfl, rfl⟩ := hrun
    refine ⟨⟨?_, ?_, ?_, ?_, ?_⟩, by show m.length - 2 + 2 = m.length; omega, ?_, ?_, ?_, ?_, ?_⟩
    · simpa [hfin, XPI_XMTR_BUF_SIZE] using hwrap
    · simpa [hfin] using htail
    · simp; omega
    · simp [hrel, XPI_XMTR_BUF_SIZE]; omega
    · exact hq
    · simp [hd0, hd1]
    · simpa using hframe
    · simpa using hrel
    · simp [hrel]
    · simp

theorem QueueInv_init : QueueInv XPI.init [] :=
  ⟨by decide, rfl, rfl, rfl, by simp⟩

theorem QueueInv_role (x : XPI) (q : List (List Nat)) (b : Bool) (h : QueueInv x q) :
    QueueInv { x with isMCPU := b } q :=
  ⟨h.pRead_lt, h.layout, h.empty_eq, h.full_eq, h.lens⟩

theorem Transmitter_blocks_on_empty (x : XPI) (sts : List Int) (h : QueueInv x []) :
    x.Transmitter sts = none := by
  have : x.semaEmpty < 2 := by rw [h.empty_eq]; decide
  simp [XPI.Transmitter, this]

/-- The run of a sequence of calls simulates the abstract FIFO queue. -/
theorem run_simulates_fifo :
    ∀ (ops : List Op) (x : XPI) (q : List (List Nat)) (x' : XPI) (evs : List Ev),
      QueueInv x q → (∀ m ∈ putMsgs ops, 2 ≤ m.length) →
      x.run ops = some (x', evs) → (∀ ok ∈ putFlags evs, ok = true) →
      QueueInv x' ((q ++ putMsgs ops).drop (sentResults evs).length) ∧
      List.Forall₂
        (fun (r : TxResult) (m : List Nat) =>
          r.len + 2 = m.length ∧ r.requestID = (m.getD 0 0 <<< 8 ||| m.getD 1 0) ∧
          r.frame = m.drop 2 ∧ r.released = m.length + 2)
        (sentResults evs) ((q ++ putMsgs ops).take (sentResults evs).length) := by
  intro ops
  induction ops with
  | nil =>
    intro x q x' evs hinv _ hrun _
    simp only [XPI.run, Option.some.injEq, Prod.mk.injEq] at hrun
    obtain ⟨rfl, rfl⟩ := hrun
    simpa [sentResults, putMsgs] using hinv
  | cons op ops ih =>
    intro x q x' evs hinv hlens hrun hok
    cases op with
    | put data len t =>
      simp only [XPI.run] at hrun
      split at hrun
      · exact absurd hrun (by simp)
      · rename_i ok x1 hput
        split at hrun
        · exact absurd hrun (by simp)
        · rename_i y evs1 hrest
          simp only [Option.some.injEq, Prod.mk.injEq] at hrun
          obtain ⟨rfl, rfl⟩ := hrun
          have hflag : ok = true := hok _ (by simp [putFlags])
          subst hflag
          have hm : 2 ≤ len := by
            have := hlens (frameAt data 0 len) (by simp [putMsgs])
            rwa [frameAt_length] at this
          have hinv1 := Put_step x q data len t x1 hinv hm hput
          have := ih _ _ _ _ hinv1
            (fun m hm' => hlens m (by simp only [putMsgs]; exact List.mem_cons_of_mem _ hm'))
            hrest
            (fun ok hok' => hok ok (by simp only [putFlags]; exact List.mem_cons_of_mem _ hok'))
          simpa [sentResults, putMsgs, List.append_assoc] using this
    | transmit sts =>
      simp only [XPI.run] at hrun
      split at hrun
      · exact absurd hrun (by simp)
      · rename_i x1 r htx
        split at hrun
        · exact absurd hrun (by simp)
        · rename_i y evs1 hrest
          simp only [Option.some.injEq, Prod.mk.injEq] at hrun
          obtain ⟨rfl, rfl⟩ := hrun
          cases q with
          | nil =>
            rw [Transmitter_blocks_on_empty x sts hinv] at htx
            exact absurd htx (by simp)
          | cons m q' =>
            obtain ⟨hinv1, d1, d2, d3, d4, -, -⟩ := Transmitter_step x m q' sts x1 r hinv htx
            obtain ⟨i1, i2⟩ := ih _ _ _ _ hinv1
              (fun m hm' => hlens m (by simpa [putMsgs] using hm'))
              hrest (fun ok hok' => hok ok (by simpa [putFlags] using hok'))
            refine ⟨?_, ?_⟩
            · simpa [sentResults] using i1
            · simp only [sentResults, List.length_cons, List.cons_append, List.take_succ_cons]
              exact List.Forall₂.cons ⟨d1, d2, d3, d4⟩ i2
    | role b =>
      simp only [XPI.run] at hrun
      have := ih _ _ _ _ (QueueInv_role x q b hinv)
        (fun m hm' => hlens m (by simpa [putMsgs] using hm')) hrun hok
      simpa [putMsgs] using this

theorem Put_sum (x : XPI) (data : Nat → Nat) (len t : Nat) (ok : Bool) (y : XPI)
    (h : x.Put data len t = some (ok, y)) :
    y.semaFull + y.semaEmpty = x.semaFull + x.semaEmpty := by
  unfold XPI.Put at h
  by_cases h1 : semaWaitFails x.semaFull ((len + 2) % 2 ^ 32)
  · rw [if_pos h1] at h
    by_cases ht : t = 0
    · simp only [ht, ne_eq, not_true_eq_false, if_false, Option.some.injEq,
        Prod.mk.injEq] at h
      obtain ⟨-, rfl⟩ := h
      rfl
    · simp only [ht, ne_eq, not_false_eq_true, if_true, Option.some.injEq,
        Prod.mk.injEq] at h
      obtain ⟨-, rfl⟩ := h
      rfl
  · rw [if_neg h1] at h
    by_cases h2 : XPI_BUF_LEN < x.pWrite + 2 + len
    · simp [h2] at h
    · simp only [h2, if_false, Option.some.injEq, Prod.mk.injEq] at h
      obtain ⟨-, rfl⟩ := h
      have hl : len + 2 < 2 ^ 31 := by
        simp only [XPI_BUF_LEN, XPI_XMTR_BUF_SIZE] at h2
        omega
      have h3 := le_of_Put_wait _ _ hl h1
      dsimp only
      omega

theorem Transmitter_sum (x : XPI) (sts : List Int) (x' : XPI) (r : TxResult)
    (hsum : x.semaFull + x.semaEmpty = XPI_XMTR_BUF_SIZE)
    (hrun : x.Transmitter sts = some (x', r)) :
    x'.semaFull + x'.semaEmpty = XPI_XMTR_BUF_SIZE ∧ x'.semaFull = x.semaFull + r.released := by
  simp only [XPI_XMTR_BUF_SIZE] at hsum ⊢
  unfold XPI.Transmitter at hrun
  by_cases h1 : x.semaEmpty < 2
  · simp [h1] at hrun
  · by_cases h2 : x.semaEmpty - 2 < (x.buf x.pRead <<< 8 ||| x.buf (x.pRead + 1))
    · simp [h1, h2] at hrun
    · simp only [h1, h2, if_false] at hrun
      generalize (x.buf x.pRead <<< 8 ||| x.buf (x.pRead + 1)) = len0 at h2 hrun
      have hrel : ((len0 + 2 ^ 32 - 2) % 2 ^ 32 + 4) % 2 ^ 32 = len0 + 2 := by omega
      by_cases hm : x.isMCPU = true
      · rw [if_pos hm] at hrun
        split at hrun
        · exact absurd hrun (by simp)
        · rename_i y att hdel
          obtain ⟨-, -, -, p4, p5, -, -⟩ :=
            deliver_preserves (fun _ => True) _ (x.pRead + 4) (fun _ _ _ => trivial) sts _ y att
              hdel rfl trivial
          simp only at p4 p5
          simp only [Option.some.injEq, Prod.mk.injEq] at hrun
          obtain ⟨rfl, rfl⟩ := hrun
          dsimp only
          constructor <;> omega
      · rw [if_neg hm] at hrun
        simp only [Option.some.injEq, Prod.mk.injEq] at hrun
        obtain ⟨rfl, rfl⟩ := hrun
        dsimp only
        constructor <;> omega

theorem run_sum :
    ∀ (ops : List Op) (x x' : XPI) (evs : List Ev),
      x.semaFull + x.semaEmpty = XPI_XMTR_BUF_SIZE → x.run ops = some (x', evs) →
      x'.semaFull + x'.semaEmpty = XPI_XMTR_BUF_SIZE := by
  intro ops
  induction ops with
  | nil =>
    intro x x' evs hsum hrun
    simp only [XPI.run, Option.some.injEq, Prod.mk.injEq] at hrun
    obtain ⟨rfl, -⟩ := hrun
    exact hsum
  | cons op ops ih =>
    intro x x' evs hsum hrun
    cases op with
    | put data len t =>
      simp only [XPI.run] at hrun
      split at hrun
      · exact absurd hrun (by simp)
      · rename_i ok x1 hput
        split at hrun
        · exact absurd hrun (by simp)
        · rename_i y evs1 hrest
          simp only [Option.some.injEq, Prod.mk.injEq] at hrun
          obtain ⟨rfl, -⟩ := hrun
          exact ih _ _ _ (by rw [Put_sum x data len t ok x1 hput]; exact hsum) hrest
    | transmit sts =>
      simp only [XPI.run] at hrun
      split at hrun
      · exact absurd hrun (by simp)
      · rename_i x1 r htx
        split at hrun
        · exact absurd hrun (by simp)
        · rename_i y evs1 hrest
          simp only [Option.some.injEq, Prod.mk.injEq] at hrun
          obtain ⟨rfl, -⟩ := hrun
          exact ih _ _ _ (Transmitter_sum x sts x1 r hsum htx).1 hrest
    | role b =>
      simp only [XPI.run] at hrun
      refine ih _ _ _ ?_ hrun
      exact hsum

theorem Transmitter_returns_passive (x : XPI) (m : List Nat) (q : List (List Nat))
    (sts : List Int) (hinv : QueueInv x (m :: q)) (hm : x.isMCPU = false) :
    ∃ x' r, x.Transmitter sts = some (x', r) := by
  obtain ⟨hpr, hlay, hemp, hfull, hlens⟩ := hinv
  have hL2 := hlens m (List.mem_cons_self _ _)
  obtain ⟨hb0, hb1, -, -⟩ := hlay
  rw [msgSpace_cons] at hemp
  simp only [XPI_XMTR_BUF_SIZE] at hfull
  have hlen0 : (x.buf x.pRead <<< 8 ||| x.buf (x.pRead + 1)) = m.length := by
    rw [hb0, hb1]
    exact header_decode _ (by omega)
  have h1 : ¬ x.semaEmpty < 2 := by omega
  have h2 : ¬ x.semaEmpty - 2 < m.length := by omega
  simp only [XPI.Transmitter, h1, if_false, hlen0, h2, hm, Bool.false_eq_true]
  exact ⟨_, _, rfl⟩

/-! ## Lemmas on the loops of the poll list -/

theorem flatMap_cast_eq_map (l : List Nat) :
    (l.flatMap fun (a : Nat) => [(a : Int)]) = l.map (fun (a : Nat) => (a : Int)) := by
  induction l with
  | nil => rfl
  | cons a l ih => rw [List.flatMap_cons, ih]; rfl

theorem forRange_eq_foldl {σ : Type} (lo hi : Int) (body : Int → σ → σ) (s : σ) :
    forRange lo hi body s =
      (List.range (hi - lo).toNat).foldl (fun s (k : Nat) => body (lo + (k : Int)) s) s := by
  unfold forRange
  simp only [List.bind_eq_flatMap, List.pure_def]
  rw [flatMap_cast_eq_map, List.foldl_map]

theorem forRange_nat {σ : Type} (a n : Nat) (body : Int → σ → σ) (s : σ) :
    forRange (a : Int) ((a + n : Nat) : Int) body s =
      (List.range n).foldl (fun s (k : Nat) => body ((a + k : Nat) : Int) s) s := by
  rw [forRange_eq_foldl]
  have h : (((a + n : Nat) : Int) - (a : Int)).toNat = n := by omega
  rw [h]
  congr 1

theorem forRange_nat_zero {σ : Type} (a : Nat) (body : Int → σ → σ) (s : σ) :
    forRange (a : Int) ((a + 0 : Nat) : Int) body s = s := by
  rw [forRange_nat]
  rfl

theorem forRange_nat_succ {σ : Type} (a n : Nat) (body : Int → σ → σ) (s : σ) :
    forRange (a : Int) ((a + (n + 1) : Nat) : Int) body s =
      body ((a + n : Nat) : Int) (forRange (a : Int) ((a + n : Nat) : Int) body s) := by
  rw [forRange_nat, forRange_nat, List.range_succ, List.foldl_append]
  rfl

theorem forRange_empty {σ : Type} (lo hi : Int) (h : hi ≤ lo) (body : Int → σ → σ) (s : σ) :
    forRange lo hi body s = s := by
  rw [forRange_eq_foldl]
  have : (hi - lo).toNat = 0 := by omega
  rw [this]
  rfl

/-- Appending one octet to a copied list. -/
theorem setAt_memcpy_list (mem : Nat → Nat) (c : Nat) (l : List Nat) (v : Nat) :
    setAt (memcpy mem c (fun i => l.getD i 0) l.length) (c + l.length) v =
      memcpy mem c (fun i => (l ++ [v]).getD i 0) (l ++ [v]).length := by
  funext j
  simp only [setAt, memcpy, List.length_append, List.length_singleton]
  by_cases h1 : j = c + l.length
  · subst h1
    simp
  · by_cases h2 : c ≤ j ∧ j < c + l.length
    · have h3 : c ≤ j ∧ j < c + (l.length + 1) := by omega
      have h4 : j - c < l.length := by omega
      simp [h1, h2, h3, List.getD_eq_getElem?_getD, List.getElem?_append_left h4]
    · have h3 : ¬ (c ≤ j ∧ j < c + (l.length + 1)) := by omega
      simp [h1, h2, h3]

theorem memcpy_nil (mem : Nat → Nat) (c : Nat) (src : Nat → Nat) : memcpy mem c src 0 = mem := by
  funext j
  simp [memcpy]

theorem collectLoop_spec (q : Nat → Prop) [DecidablePred q] (pl : Nat → Nat) (a c : Nat)
    (cnt : Int) :
    ∀ n : Nat, a + n ≤ c →
      forRange (a : Int) ((a + n : Nat) : Int)
          (fun i (s : RearrangeLoop) =>
            if q (s.pl i.toNat) then
              { pl := setAt s.pl s.cursor.toNat (s.pl i.toNat)
                cursor := s.cursor + 1
                count := s.count + 1 }
            else s)
          { pl := pl, cursor := (c : Int), count := cnt } =
        { pl := memcpy pl c
            (fun i => ((frameAt pl a n).filter (fun v => decide (q v))).getD i 0)
            ((frameAt pl a n).filter (fun v => decide (q v))).length
          cursor := ((c + ((frameAt pl a n).filter (fun v => decide (q v))).length : Nat) : Int)
          count := cnt + (((frameAt pl a n).filter (fun v => decide (q v))).length : Int) } := by
  intro n
  induction n with
  | zero =>
    intro _
    rw [forRange_nat_zero]
    simp [frameAt, memcpy_nil]
  | succ n ih =>
    intro h
    rw [forRange_nat_succ, ih (by omega)]
    generalize hL : (frameAt pl a n).filter (fun v => decide (q v)) = L
    have hread : memcpy pl c (fun i => L.getD i 0) L.length (a + n) = pl (a + n) := by
      have : ¬ (c ≤ a + n ∧ a + n < c + L.length) := by omega
      simp only [memcpy, this, if_false]
    rw [frameAt_succ_last, List.filter_append, hL]
    simp only [Int.toNat_ofNat, hread]
    by_cases hp : q (pl (a + n))
    · simp only [hp, if_true, List.filter_cons, decide_True, List.filter_nil]
      rw [setAt_memcpy_list]
      simp only [List.length_append, List.length_singleton]
      congr 1
      push_cast
      ring
    · simp [hp]

theorem collectPass_spec (flagged : Bool) (pl : Nat → Nat) (a c : Nat) (cnt : Int) (n : Nat)
    (h : a + n ≤ c) :
    collectPass (a : Int) ((a + n : Nat) : Int) flagged
        { pl := pl, cursor := (c : Int), count := cnt } =
      { pl := memcpy pl c
          (fun i => ((frameAt pl a n).filter
            (fun v => decide (decide (v &&& 0x80 ≠ 0) = flagged))).getD i 0)
          ((frameAt pl a n).filter
            (fun v => decide (decide (v &&& 0x80 ≠ 0) = flagged))).length
        cursor := ((c + ((frameAt pl a n).filter
            (fun v => decide (decide (v &&& 0x80 ≠ 0) = flagged))).length : Nat) : Int)
        count := cnt + (((frameAt pl a n).filter
            (fun v => decide (decide (v &&& 0x80 ≠ 0) = flagged))).length : Int) } :=
  collectLoop_spec (fun v => decide (v &&& 0x80 ≠ 0) = flagged) pl a c cnt n h

theorem setAt_self (mem : Nat → Nat) (i : Nat) : setAt mem i (mem i) = mem := by
  funext j
  by_cases h : j = i
  · simp [setAt, h]
  · simp [setAt, h]

theorem setAt_memcpy_succ (mem : Nat → Nat) (c : Nat) (src : Nat → Nat) (n : Nat) :
    setAt (memcpy mem c src n) (c + n) (src n) = memcpy mem c src (n + 1) := by
  funext j
  simp only [setAt, memcpy]
  by_cases h1 : j = c + n
  · subst h1
    simp
  · by_cases h2 : c ≤ j ∧ j < c + n
    · have h3 : c ≤ j ∧ j < c + (n + 1) := by omega
      simp [h1, h2, h3]
    · have h3 : ¬ (c ≤ j ∧ j < c + (n + 1)) := by omega
      simp [h1, h2, h3]

theorem memcpy_memcpy_list (mem : Nat → Nat) (c : Nat) (l1 l2 : List Nat) :
    memcpy (memcpy mem c (fun i => l1.getD i 0) l1.length) (c + l1.length)
        (fun i => l2.getD i 0) l2.length =
      memcpy mem c (fun i => (l1 ++ l2).getD i 0) (l1 ++ l2).length := by
  funext j
  simp only [memcpy, List.length_append]
  by_cases h1 : c + l1.length ≤ j ∧ j < c + l1.length + l2.length
  · have h2 : c ≤ j ∧ j < c + (l1.length + l2.length) := by omega
    have h3 : l1.length ≤ j - c := by omega
    have h4 : j - c - l1.length = j - (c + l1.length) := by omega
    simp [h1, h2, List.getD_eq_getElem?_getD, List.getElem?_append_right h3, h4]
  · by_cases h2 : c ≤ j ∧ j < c + l1.length
    · have h3 : c ≤ j ∧ j < c + (l1.length + l2.length) := by omega
      have h4 : j - c < l1.length := by omega
      simp [h1, h2, h3, List.getD_eq_getElem?_getD, List.getElem?_append_left h4]
    · have h3 : ¬ (c ≤ j ∧ j < c + (l1.length + l2.length)) := by omega
      simp [h1, h2, h3]

theorem compactLoop_spec (q : Nat → Prop) [DecidablePred q] (pl : Nat → Nat) (cnt : Int) :
    ∀ n : Nat,
      forRange ((0 : Nat) : Int) ((0 + n : Nat) : Int)
          (fun i (s : RearrangeLoop) =>
            if q (s.pl i.toNat) then
              if s.cursor ≠ i then
                { s with pl := setAt s.pl s.cursor.toNat (s.pl i.toNat), cursor := s.cursor + 1 }
              else { s with cursor := s.cursor + 1 }
            else s)
          { pl := pl, cursor := 0, count := cnt } =
        { pl := memcpy pl 0
            (fun i => ((frameAt pl 0 n).filter (fun v => decide (q v))).getD i 0)
            ((frameAt pl 0 n).filter (fun v => decide (q v))).length
          cursor := (((frameAt pl 0 n).filter (fun v => decide (q v))).length : Int)
          count := cnt } := by
  intro n
  induction n with
  | zero =>
    rw [forRange_nat_zero]
    simp [frameAt, memcpy_nil]
  | succ n ih =>
    rw [forRange_nat_succ, ih, frameAt_succ_last, List.filter_append]
    have hlen : ((frameAt pl 0 n).filter (fun v => decide (q v))).length ≤ n := by
      have := List.length_filter_le (fun v => decide (q v)) (frameAt pl 0 n)
      rwa [frameAt_length] at this
    generalize (frameAt pl 0 n).filter (fun v => decide (q v)) = L at hlen
    simp only [Nat.zero_add, Int.toNat_ofNat]
    have hread : memcpy pl 0 (fun i => L.getD i 0) L.length n = pl n := by
      have : ¬ (0 ≤ n ∧ n < 0 + L.length) := by omega
      simp only [memcpy, this, if_false]
    rw [hread]
    have hw := setAt_memcpy_list pl 0 L (pl n)
    rw [Nat.zero_add] at hw
    by_cases hp : q (pl n)
    · rw [if_pos hp]
      have hf : List.filter (fun v => decide (q v)) [pl n] = [pl n] := by simp [hp]
      rw [hf]
      by_cases hk : (L.length : Int) ≠ (n : Int)
      · rw [if_pos hk, hw]
        simp only [List.length_append, List.length_singleton]
        congr 1
      · rw [if_neg hk]
        have hk' : L.length = n := by
          have : (L.length : Int) = (n : Int) := by
            by_contra h
            exact hk h
          omega
        have hself : memcpy pl 0 (fun i => L.getD i 0) L.length L.length = pl n := by
          have : ¬ (0 ≤ L.length ∧ L.length < 0 + L.length) := by omega
          simp only [memcpy, this, if_false]
          rw [hk']
        rw [← hw, ← hself, setAt_self]
        simp only [List.length_append, List.length_singleton]
        congr 1
    · rw [if_neg hp]
      have hf : List.filter (fun v => decide (q v)) [pl n] = [] := by simp [hp]
      rw [hf, List.append_nil]

theorem copyLoop_spec (pl : Nat → Nat) (m k : Nat) (cnt : Int) :
    ∀ t : Nat, k + t ≤ m →
      forRange (m : Int) ((m + t : Nat) : Int)
          (fun i (s : RearrangeLoop) =>
            { s with pl := setAt s.pl s.cursor.toNat (s.pl i.toNat), cursor := s.cursor + 1 })
          { pl := pl, cursor := (k : Int), count := cnt } =
        { pl := memcpy pl k (fun i => pl (m + i)) t
          cursor := ((k + t : Nat) : Int)
          count := cnt } := by
  intro t
  induction t with
  | zero =>
    intro _
    rw [forRange_nat_zero]
    simp [memcpy_nil]
  | succ t ih =>
    intro h
    rw [forRange_nat_succ, ih (by omega)]
    have hread : memcpy pl k (fun i => pl (m + i)) t (m + t) = pl (m + t) := by
      have : ¬ (k ≤ m + t ∧ m + t < k + t) := by omega
      simp only [memcpy, this, if_false]
    simp only [Int.toNat_ofNat, hread]
    rw [setAt_memcpy_succ pl k (fun i => pl (m + i)) t]
    congr 1

theorem memcpy_below (mem : Nat → Nat) (c : Nat) (src : Nat → Nat) (n i : Nat) (h : i < c) :
    memcpy mem c src n i = mem i := by
  have : ¬ (c ≤ i ∧ i < c + n) := by omega
  simp only [memcpy, this, if_false]

theorem memcpy_at (mem : Nat → Nat) (c : Nat) (src : Nat → Nat) (n i : Nat) (h : i < n) :
    memcpy mem c src n (c + i) = src i := by
  have : c ≤ c + i ∧ c + i < c + n := by omega
  simp only [memcpy, this, if_true, Nat.add_sub_cancel_left]
  simp

theorem memcpy_above (mem : Nat → Nat) (c : Nat) (src : Nat → Nat) (n i : Nat) (h : c + n ≤ i) :
    memcpy mem c src n i = mem i := by
  have : ¬ (c ≤ i ∧ i < c + n) := by omega
  simp only [memcpy, this, if_false]

theorem filter_length_add (l : List Nat) (q : Nat → Bool) :
    (l.filter q).length + (l.filter (fun v => !q v)).length = l.length := by
  induction l with
  | nil => rfl
  | cons a l ih =>
    by_cases h : q a = true
    · simp [List.filter_cons, h]
      omega
    · simp [List.filter_cons, h]
      omega

/-- The passes of `RearrangePollList`, as one list. -/
theorem RearrangePollList_spec (x : XPI) (p n m : Nat)
    (hflag : x.rearrange_poll_list = true)
    (hp : x.poll_active_cnt = (p : Int)) (hm : x.maxboardc = (m : Int))
    (hN : (if x.poll_cur ≥ x.maxboardc then x.maxboardc
           else if x.poll_cur < x.poll_active_cnt then x.poll_active_cnt
           else x.poll_cur + 1) = (n : Int))
    (hpn : p ≤ n) (hnm : n ≤ m) :
    (∀ i, i < n → x.RearrangePollList.poll_list i =
      ((frameAt x.poll_list 0 p).filter (fun v => decide (v &&& 0x80 ≠ 0)) ++
       (frameAt x.poll_list p (n - p)).filter (fun v => decide (decide (v &&& 0x80 ≠ 0) = true)) ++
       (frameAt x.poll_list 0 p).filter (fun v => decide (decide (v &&& 0x80 ≠ 0) = false)) ++
       (frameAt x.poll_list p (n - p)).filter
         (fun v => decide (decide (v &&& 0x80 ≠ 0) = false))).getD i 0) ∧
    (∀ i, n ≤ i → i < m → x.RearrangePollList.poll_list i = x.poll_list i) ∧
    x.RearrangePollList.poll_active_cnt =
      (p : Int) +
        (((frameAt x.poll_list p (n - p)).filter
          (fun v => decide (decide (v &&& 0x80 ≠ 0) = true))).length : Int) -
        (((frameAt x.poll_list 0 p).filter
          (fun v => decide (decide (v &&& 0x80 ≠ 0) = false))).length : Int) ∧
    x.RearrangePollList.rearrange_poll_list = false := by
  -- the four lists
  generalize hA0 : (frameAt x.poll_list 0 p).filter (fun v => decide (v &&& 0x80 ≠ 0)) = A0
  generalize hA1 : (frameAt x.poll_list p (n - p)).filter
    (fun v => decide (decide (v &&& 0x80 ≠ 0) = true)) = A1
  generalize hP0 : (frameAt x.poll_list 0 p).filter
    (fun v => decide (decide (v &&& 0x80 ≠ 0) = false)) = P0
  generalize hP1 : (frameAt x.poll_list p (n - p)).filter
    (fun v => decide (decide (v &&& 0x80 ≠ 0) = false)) = P1
  have hnp : ((p + (n - p) : Nat) : Int) = (n : Int) := by
    have : p + (n - p) = n := by omega
    rw [this]
  have hp0 : ((0 + p : Nat) : Int) = (p : Int) := by rw [Nat.zero_add]
  -- lengths
  have hlenA0P0 : A0.length + P0.length = p := by
    have := filter_length_add (frameAt x.poll_list 0 p) (fun v => decide (v &&& 0x80 ≠ 0))
    rw [frameAt_length] at this
    rw [← hA0, ← hP0]
    convert this using 3
    simp
  have hlenA1P1 : A1.length + P1.length = n - p := by
    have := filter_length_add (frameAt x.poll_list p (n - p)) (fun v => decide (v &&& 0x80 ≠ 0))
    rw [frameAt_length] at this
    rw [← hA1, ← hP1]
    convert this using 3
    · simp
    · simp
  have e1 := collectPass_spec true x.poll_list p m 0 (n - p) (by omega)
  rw [hnp, hA1] at e1
  -- new passive boards
  have f2 : frameAt (memcpy x.poll_list m (fun i => A1.getD i 0) A1.length) 0 p =
      frameAt x.poll_list 0 p :=
    frameAt_congr _ _ 0 p (fun i hi => memcpy_below _ _ _ _ _ (by omega))
  have e2 := collectPass_spec false (memcpy x.poll_list m (fun i => A1.getD i 0) A1.length) 0
    (m + A1.length) 0 p (by omega)
  rw [f2, hP0, memcpy_memcpy_list, Nat.zero_add, Nat.cast_zero] at e2
  -- old passive boards
  have f3 : frameAt (memcpy x.poll_list m (fun i => (A1 ++ P0).getD i 0) (A1 ++ P0).length) p
      (n - p) = frameAt x.poll_list p (n - p) :=
    frameAt_congr _ _ p (n - p) (fun i hi => memcpy_below _ _ _ _ _ (by omega))
  have e3 := collectPass_spec false
    (memcpy x.poll_list m (fun i => (A1 ++ P0).getD i 0) (A1 ++ P0).length) p
    (m + A1.length + P0.length) (0 + (P0.length : Int)) (n - p) (by omega)
  rw [f3, hP1, hnp] at e3
  have e3' : memcpy (memcpy x.poll_list m (fun i => (A1 ++ P0).getD i 0) (A1 ++ P0).length)
      (m + A1.length + P0.length) (fun i => P1.getD i 0) P1.length =
      memcpy x.poll_list m (fun i => (A1 ++ P0 ++ P1).getD i 0) (A1 ++ P0 ++ P1).length := by
    have := memcpy_memcpy_list x.poll_list m (A1 ++ P0) P1
    rw [show m + (A1 ++ P0).length = m + A1.length + P0.length from by
      rw [List.length_append, Nat.add_assoc]] at this
    exact this
  rw [e3'] at e3
  -- old active boards
  have f4 : frameAt (memcpy x.poll_list m (fun i => (A1 ++ P0 ++ P1).getD i 0)
      (A1 ++ P0 ++ P1).length) 0 p = frameAt x.poll_list 0 p :=
    frameAt_congr _ _ 0 p (fun i hi => memcpy_below _ _ _ _ _ (by omega))
  have e4 := compactLoop_spec (fun v => v &&& 0x80 ≠ 0)
    (memcpy x.poll_list m (fun i => (A1 ++ P0 ++ P1).getD i 0) (A1 ++ P0 ++ P1).length) 0 p
  rw [f4, hA0, Nat.zero_add, Nat.cast_zero] at e4
  -- the rest
  have e5 := copyLoop_spec
    (memcpy (memcpy x.poll_list m (fun i => (A1 ++ P0 ++ P1).getD i 0) (A1 ++ P0 ++ P1).length) 0
      (fun i => A0.getD i 0) A0.length) m A0.length 0 (A1 ++ P0 ++ P1).length
    (by simp only [List.length_append]; omega)
  have hj : ((m + A1.length + P0.length + P1.length : Nat) : Int) =
      ((m + (A1 ++ P0 ++ P1).length : Nat) : Int) := by
    simp only [List.length_append]
    congr 1
    omega
  have key : x.RearrangePollList.poll_list =
        memcpy
          (memcpy (memcpy x.poll_list m (fun i => (A1 ++ P0 ++ P1).getD i 0)
            (A1 ++ P0 ++ P1).length) 0 (fun i => A0.getD i 0) A0.length)
          A0.length
          (fun i => memcpy (memcpy x.poll_list m (fun i => (A1 ++ P0 ++ P1).getD i 0)
            (A1 ++ P0 ++ P1).length) 0 (fun i => A0.getD i 0) A0.length (m + i))
          (A1 ++ P0 ++ P1).length ∧
      x.RearrangePollList.poll_active_cnt =
        (p : Int) + (0 + (A1.length : Int)) - (0 + (P0.length : Int)) ∧
      x.RearrangePollList.rearrange_poll_list = false := by
    unfold XPI.RearrangePollList
    simp only [hflag, not_true_eq_false, if_false, hN]
    rw [hp, hm, e1]
    dsimp only
    rw [e2]
    dsimp only
    rw [e3]
    dsimp only
    rw [e4, hj, e5]
    exact ⟨rfl, rfl, rfl⟩
  have hR : (A1 ++ P0 ++ P1).length = n - A0.length := by
    simp only [List.length_append]
    omega
  have hA0n : A0.length ≤ n := by omega
  have hassoc : A0 ++ A1 ++ P0 ++ P1 = A0 ++ (A1 ++ P0 ++ P1) := by
    simp only [List.append_assoc]
  refine ⟨?_, ?_, ?_, key.2.2⟩
  · intro i hi
    rw [key.1, hassoc]
    by_cases h : i < A0.length
    · rw [memcpy_below _ _ _ _ _ h]
      have := memcpy_at (memcpy x.poll_list m (fun i => (A1 ++ P0 ++ P1).getD i 0)
        (A1 ++ P0 ++ P1).length) 0 (fun i => A0.getD i 0) A0.length i h
      rw [Nat.zero_add] at this
      rw [this]
      simp only [List.getD_eq_getElem?_getD, List.getElem?_append_left h]
    · have hu : i - A0.length < (A1 ++ P0 ++ P1).length := by omega
      have hi' : i = A0.length + (i - A0.length) := by omega
      have h1 := memcpy_at
        (memcpy (memcpy x.poll_list m (fun i => (A1 ++ P0 ++ P1).getD i 0)
          (A1 ++ P0 ++ P1).length) 0 (fun i => A0.getD i 0) A0.length)
        A0.length
        (fun i => memcpy (memcpy x.poll_list m (fun i => (A1 ++ P0 ++ P1).getD i 0)
          (A1 ++ P0 ++ P1).length) 0 (fun i => A0.getD i 0) A0.length (m + i))
        (A1 ++ P0 ++ P1).length (i - A0.length) hu
      rw [← hi'] at h1
      rw [h1]
      dsimp only
      rw [memcpy_above _ _ _ _ _ (by omega : 0 + A0.length ≤ m + (i - A0.length)),
        memcpy_at _ _ _ _ _ hu]
      simp only [List.getD_eq_getElem?_getD,
        List.getElem?_append_right (by omega : A0.length ≤ i)]
  · intro i hi1 hi2
    rw [key.1]
    rw [memcpy_above _ _ _ _ _ (by omega : A0.length + (A1 ++ P0 ++ P1).length ≤ i),
      memcpy_above _ _ _ _ _ (by omega : 0 + A0.length ≤ i),
      memcpy_below _ _ _ _ _ hi2]
  · rw [key.2.1]
    omega

/-! ## Lemmas on reset, the poll cursor and the last completion status -/

theorem foldl_FC_Command (f : Nat → Nat) (l : List Nat) (x : XPI) :
    l.foldl (fun (y : XPI) k => y.FPGA_FC_Command (f k)) x =
      { x with fpgaWrites := x.fpgaWrites ++ l.flatMap (fun k => fcCommandWrites (f k)) } := by
  induction l generalizing x with
  | nil => simp
  | cons k l ih =>
    rw [List.foldl_cons, ih]
    simp [XPI.FPGA_FC_Command, List.append_assoc]

theorem ResetFPGA_present (x : XPI) (xsvfRC : Int) (h : x.fpgaOK = true) :
    ∃ w, x.ResetFPGA xsvfRC =
      { x with
        state := .DISABLED
        timer := -1
        lastTick := x.dTimerTick
        fpgaOK := false
        isMCPU := false
        boardPos := 0xFF
        fpgaWrites := x.fpgaWrites ++ w
        usbOut := x.usbOut ++
          [{ type := XPI_IMSG_FPGA_STATUS, subtype := 0,
             data := [0, 0, 0xFF, (xsvfRC % 256).toNat] }] } := by
  unfold XPI.ResetFPGA
  by_cases hm : x.isMCPU = true
  · refine ⟨(List.range (x.maxboardc - 0).toNat).flatMap
      (fun k => fcCommandWrites (((0 + (k : Int)).toNat <<< 2) ||| 0x00)), ?_⟩
    simp only [forRange_eq_foldl, foldl_FC_Command]
    simp [XPI.Goto, h, hm, XPI.usbOutPut]
  · exact ⟨[], by simp [XPI.Goto, h, hm, XPI.usbOutPut]⟩

theorem ResetFPGA_absent (x : XPI) (xsvfRC : Int) (h : x.fpgaOK = false) :
    x.ResetFPGA xsvfRC = x.Goto .DISABLED (-1) := by
  simp [XPI.ResetFPGA, XPI.Goto, h]

theorem PollNextBoard_advances (x : XPI) (h0 : 0 ≤ x.poll_cur) (h1 : x.poll_cur + 1 < x.maxboardc) :
    x.PollNextBoard.poll_cur = x.poll_cur + 1 ∧ x.PollNextBoard.state = .POLL_EIRQ ∧
    x.PollNextBoard.timer = EIRQ_POLL_DELAY ∧ x.PollNextBoard.poll_list = x.poll_list ∧
    x.PollNextBoard.isCTXE = false ∧
    ctxDataWrites x.PollNextBoard.fpgaWrites =
      ctxDataWrites x.fpgaWrites ++ [x.poll_list (x.poll_cur + 1).toNat &&& 0x3F] := by
  have h0' : ¬ x.poll_cur < 0 := by omega
  have h1' : ¬ x.maxboardc ≤ x.poll_cur + 1 := by omega
  simp [XPI.PollNextBoard, h0', h1', XPI.FPGA_Write, XPI.Goto, ctxDataWrites, EIRQ_POLL_DELAY]

theorem MarkBoardActive_fields (x : XPI) (a : Bool) (h0 : 0 ≤ x.poll_cur) :
    (x.MarkBoardActive a).poll_list =
      setAt x.poll_list x.poll_cur.toNat
        (if a then x.poll_list x.poll_cur.toNat ||| 0x80 else x.poll_list x.poll_cur.toNat &&& 0x7F) ∧
    (x.MarkBoardActive a).poll_cur = x.poll_cur ∧
    (x.MarkBoardActive a).maxboardc = x.maxboardc ∧
    (x.MarkBoardActive a).poll_active_cnt = x.poll_active_cnt ∧
    (x.MarkBoardActive a).fpgaWrites = x.fpgaWrites := by
  have h0' : ¬ x.poll_cur < 0 := by omega
  unfold XPI.MarkBoardActive
  cases a <;> simp [h0'] <;> split <;> simp [XPI.tracef]

theorem deliverLoop_last (len : Nat) :
    ∀ (sts : List Int) (retry : Nat) (x : XPI) (att : List (List Nat)) (y : XPI)
      (att' : List (List Nat)),
      retry < 2 → XPI.deliverLoop len sts retry x att = some (y, att') →
      ∃ n, 1 ≤ n ∧ att'.length = att.length + n ∧ sts[n - 1]? = some y.ctx_status ∧
        telemetry y.usbOut = telemetry x.usbOut ∧ y.requestID = x.requestID := by
  intro sts
  induction sts with
  | nil =>
    intro retry x att y att' hr h
    simp [XPI.deliverLoop, hr] at h
  | cons s rest ih =>
    intro retry x att y att' hr h
    by_cases hs : s = 0
    · by_cases hc : x.buf x.pRead &&& 0xE0 = 0xC0
      · simp only [XPI.deliverLoop, hr, if_true, hs, hc, ne_eq, not_true_eq_false,
          if_false] at h
        obtain ⟨n, h1, h2, h3, h4, h5⟩ := ih _ _ _ _ _ (by decide) h
        refine ⟨n + 1, by omega, ?_, ?_, ?_, ?_⟩
        · rw [h2]; simp; omega
        · have : n + 1 - 1 = (n - 1) + 1 := by omega
          rw [this, List.getElem?_cons_succ]
          exact h3
        · simpa using h4
        · simpa using h5
      · simp only [XPI.deliverLoop, hr, if_true, hs, hc, ne_eq, not_false_eq_true,
          Option.some.injEq, Prod.mk.injEq] at h
        obtain ⟨rfl, rfl⟩ := h
        exact ⟨1, by omega, by simp, by simp [hs], rfl, rfl⟩
    · simp only [XPI.deliverLoop, hr, if_true, hs, if_false] at h
      by_cases hr2 : retry + 1 < 2
      · obtain ⟨n, h1, h2, h3, h4, h5⟩ := ih _ _ _ _ _ hr2 h
        refine ⟨n + 1, by omega, ?_, ?_, ?_, ?_⟩
        · rw [h2]; simp; omega
        · have : n + 1 - 1 = (n - 1) + 1 := by omega
          rw [this, List.getElem?_cons_succ]
          exact h3
        · simpa [XPI.tracef, telemetry_append, usbLog_telemetry] using h4
        · simpa [XPI.tracef] using h5
      · rw [deliverLoop_done _ _ _ _ _ (by omega)] at h
        simp only [Option.some.injEq, Prod.mk.injEq] at h
        obtain ⟨rfl, rfl⟩ := h
        exact ⟨1, by omega, by simp, by simp [XPI.tracef],
          by simp [XPI.tracef, telemetry_append, usbLog_telemetry], by simp [XPI.tracef]⟩

theorem Transmitter_reports_last_status (y : XPI) (sts : List Int) (y' : XPI) (r : TxResult)
    (hrole : y.isMCPU = true) (hrun : y.Transmitter sts = some (y', r)) :
    1 ≤ r.attempts.length ∧ sts[r.attempts.length - 1]? = some y'.ctx_status ∧
    telemetry y'.usbOut = telemetry y.usbOut ++
      (if y'.ctx_status ≠ 0 then [flowCtrlFailed y'.ctx_status r.requestID] else []) := by
  unfold XPI.Transmitter at hrun
  by_cases h1 : y.semaEmpty < 2
  · simp [h1] at hrun
  · by_cases h2 : y.semaEmpty - 2 < (y.buf y.pRead <<< 8 ||| y.buf (y.pRead + 1))
    · simp [h1, h2] at hrun
    · simp only [h1, h2, if_false] at hrun
      rw [if_pos hrole] at hrun
      split at hrun
      · exact absurd hrun (by simp)
      · rename_i z att hdel
        simp only [Option.some.injEq, Prod.mk.injEq] at hrun
        obtain ⟨rfl, rfl⟩ := hrun
        unfold XPI.deliver at hdel
        split at hdel
        · exact absurd hdel (by simp)
        · rename_i w att' hloop
          obtain ⟨n, n1, n2, n3, n4, n5⟩ := deliverLoop_last _ _ _ _ _ _ _ (by decide) hloop
          by_cases hst : w.ctx_status ≠ 0
          · rw [if_pos hst] at hdel
            simp only [Option.some.injEq, Prod.mk.injEq] at hdel
            obtain ⟨rfl, rfl⟩ := hdel
            have e : att'.length = n := by simpa using n2
            refine ⟨by simp; omega, ?_, ?_⟩
            · simpa [e, XPI.usbOutPut] using n3
            · have ht : (flowCtrlFailed w.ctx_status w.requestID).type ≠ XPI_IMSG_LOG := by
                simp [flowCtrlFailed, XPI_IMSG_FLOW_CTRL, XPI_IMSG_LOG]
              simp [XPI.usbOutPut, hst, ← n4, telemetry_append, telemetry_singleton _ ht]
          · rw [if_neg hst] at hdel
            simp only [Option.some.injEq, Prod.mk.injEq] at hdel
            obtain ⟨rfl, rfl⟩ := hdel
            have e : att'.length = n := by simpa using n2
            refine ⟨by simp; omega, ?_, ?_⟩
            · simpa [e] using n3
            · simp [hst, n4]

/-! ## Lemmas on the poll sweep -/

theorem toLong_tick (T d : Nat) (hd : d < 2 ^ 31) :
    toLong ((((T + d) % 2 ^ 32 : Nat) : Int) - (T : Int)) = (d : Int) := by
  unfold toLong
  omega

theorem toLong_small (i : Int) (h1 : -2 ^ 31 ≤ i) (h2 : i < 2 ^ 31) : toLong i = i := by
  unfold toLong
  omega

theorem and_7F_unflagged (v : Nat) : (v &&& 0x7F) &&& 0x80 = 0 := by
  rw [Nat.and_assoc]
  have : 0x7F &&& 0x80 = 0 := by decide
  rw [this, Nat.and_zero]

theorem expire_polls (y s : XPI) (xsvfRC : Int) (k d : Nat) (h : SweepState y k s)
    (hk : k < 64) (hd1 : 4 ≤ d) (hd2 : d < 2 ^ 31) :
    SweepState y (k + 1) (s.expire xsvfRC d) := by
  obtain ⟨h1, h2, h3, h4, h5, h6, h7, h8, h9⟩ := h
  have hdelta : toLong ((((s.dTimerTick + d) % 2 ^ 32 : Nat) : Int) - (s.dTimerTick : Int)) = (d : Int) :=
    toLong_tick _ _ hd2
  have hexp : ¬ toLong (EIRQ_POLL_DELAY - (d : Int)) > 0 := by
    rw [toLong_small _ (by simp only [EIRQ_POLL_DELAY]; omega) (by simp only [EIRQ_POLL_DELAY]; omega)]
    simp only [EIRQ_POLL_DELAY]
    omega
  have harm : ¬ EIRQ_POLL_DELAY < 0 := by decide
  have e : s.expire xsvfRC d =
      (({ s with dTimerTick := (s.dTimerTick + d) % 2 ^ 32
                 lastTick := (s.dTimerTick + d) % 2 ^ 32
                 timer := -1 } : XPI).MarkBoardActive false).PollNextBoard := by
    simp only [XPI.expire, XPI.step, XPI.On_Timer, XPI.tickDelta, h3, h4, hdelta, harm, hexp,
      if_false, h1, if_true]
  rw [e]
  by_cases hk0 : k = 0
  · subst hk0
    have hcur : s.poll_cur < 0 := by rw [h2]; decide
    have hb : ¬ (64 : Int) ≤ 0 := by decide
    have hf : s.rearrange_poll_list = false := by
      cases hr : s.rearrange_poll_list
      · rfl
      · exact absurd (h9.mp hr).1 (by omega)
    have e0 : (({ s with dTimerTick := (s.dTimerTick + d) % 2 ^ 32
                         lastTick := (s.dTimerTick + d) % 2 ^ 32
                         timer := -1 } : XPI).MarkBoardActive false).PollNextBoard =
        { s with
          dTimerTick := (s.dTimerTick + d) % 2 ^ 32
          lastTick := (s.dTimerTick + d) % 2 ^ 32
          timer := EIRQ_POLL_DELAY
          poll_cur := 0
          isCTXE := false
          state := .POLL_EIRQ
          fpgaWrites := s.fpgaWrites ++
            [(Reg.XPI_W_PAGE_ADDR, 1), (Reg.XPI_W_P1_SC_CTX_DATA, s.poll_list 0 &&& 0x3F),
             (Reg.XPI_W_P1_SC_CTX_INCFIFO, 0x00)] } := by
      simp [XPI.MarkBoardActive, XPI.PollNextBoard, hcur, h5, hb, XPI.FPGA_Write, XPI.Goto,
        EIRQ_POLL_DELAY]
    rw [e0]
    exact ⟨rfl, rfl, rfl, rfl, h5, h6, h7, fun i hi => absurd hi (by omega),
      ⟨fun hr => absurd (hf ▸ hr : false = true) (by decide), fun hr => absurd hr.1 (by omega)⟩⟩
  · have hcur : ¬ s.poll_cur < 0 := by rw [h2]; omega
    have hb : ¬ (64 : Int) ≤ s.poll_cur + 1 := by rw [h2]; omega
    have hnat : s.poll_cur.toNat = k - 1 := by rw [h2]; omega
    have e1 : (({ s with dTimerTick := (s.dTimerTick + d) % 2 ^ 32
                         lastTick := (s.dTimerTick + d) % 2 ^ 32
                         timer := -1 } : XPI).MarkBoardActive false).PollNextBoard =
        { s with
          dTimerTick := (s.dTimerTick + d) % 2 ^ 32
          lastTick := (s.dTimerTick + d) % 2 ^ 32
          timer := EIRQ_POLL_DELAY
          poll_list := setAt s.poll_list (k - 1) (s.poll_list (k - 1) &&& 0x7F)
          poll_cur := s.poll_cur + 1
          isCTXE := false
          state := .POLL_EIRQ
          rearrange_poll_list :=
            if s.poll_cur < s.poll_active_cnt then true else s.rearrange_poll_list
          usbOut := s.usbOut ++
            (if s.poll_cur < s.poll_active_cnt then
              (usbLog s.logLine "SC: Board %02x Passive\n"
                [(((s.poll_list (k - 1) &&& 0x7F) &&& 0x3F : Nat) : Int)]).2
             else [])
          logLine :=
            if s.poll_cur < s.poll_active_cnt then
              (usbLog s.logLine "SC: Board %02x Passive\n"
                [(((s.poll_list (k - 1) &&& 0x7F) &&& 0x3F : Nat) : Int)]).1
            else s.logLine
          traceOut := s.traceOut ++
            (if s.poll_cur < s.poll_active_cnt then
              [{ fmt := "SC: Board %02x Passive\n"
                 args := [(((s.poll_list (k - 1) &&& 0x7F) &&& 0x3F : Nat) : Int)] }]
             else [])
          fpgaWrites := s.fpgaWrites ++
            [(Reg.XPI_W_PAGE_ADDR, 1),
             (Reg.XPI_W_P1_SC_CTX_DATA,
               setAt s.poll_list (k - 1) (s.poll_list (k - 1) &&& 0x7F) (s.poll_cur + 1).toNat
                 &&& 0x3F),
             (Reg.XPI_W_P1_SC_CTX_INCFIFO, 0x00)] } := by
      by_cases hlt : s.poll_cur < s.poll_active_cnt
      · simp [XPI.MarkBoardActive, XPI.PollNextBoard, hcur, h5, hb, XPI.FPGA_Write, XPI.Goto,
          hnat, hlt, XPI.tracef, setAt_same, EIRQ_POLL_DELAY]
      · simp [XPI.MarkBoardActive, XPI.PollNextBoard, hcur, h5, hb, XPI.FPGA_Write, XPI.Goto,
          hnat, hlt, XPI.tracef, EIRQ_POLL_DELAY]
    rw [e1]
    refine ⟨rfl, ?_, rfl, rfl, h5, h6, h7, ?_, ?_⟩
    · show s.poll_cur + 1 = ((k + 1 : Nat) : Int) - 1
      rw [h2]
      omega
    · intro i hi
      show setAt s.poll_list (k - 1) (s.poll_list (k - 1) &&& 0x7F) i &&& 0x80 = 0
      by_cases hik : i = k - 1
      · rw [hik, setAt_same, and_7F_unflagged]
      · rw [setAt_ne _ _ _ _ hik]
        exact h8 i (by omega)
    · show (if s.poll_cur < s.poll_active_cnt then true else s.rearrange_poll_list) = true ↔ _
      by_cases hlt : s.poll_cur < s.poll_active_cnt
      · rw [if_pos hlt]
        constructor
        · intro _
          rw [h2, h6] at hlt
          omega
        · intro _
          rfl
      · rw [if_neg hlt, h9]
        rw [h2, h6] at hlt
        constructor
        · intro hh
          omega
        · intro hh
          omega


theorem RearrangePollList_frame (x : XPI) :
    x.RearrangePollList.stuck_eirq_count = x.stuck_eirq_count ∧
    x.RearrangePollList.maxboardc = x.maxboardc ∧
    x.RearrangePollList.poll_cur = x.poll_cur ∧
    x.RearrangePollList.fpgaWrites = x.fpgaWrites ∧
    x.RearrangePollList.timer = x.timer ∧
    x.RearrangePollList.fpgaOK = x.fpgaOK := by
  unfold XPI.RearrangePollList
  split <;> simp [XPI.tracef]

theorem filter_flagged_nil (pl : Nat → Nat) (a n : Nat)
    (h : ∀ i, i < n → pl (a + i) &&& 0x80 = 0) :
    (frameAt pl a n).filter (fun v => decide (v &&& 0x80 ≠ 0)) = [] ∧
    (frameAt pl a n).filter (fun v => decide (decide (v &&& 0x80 ≠ 0) = true)) = [] ∧
    (frameAt pl a n).filter (fun v => decide (decide (v &&& 0x80 ≠ 0) = false)) =
      frameAt pl a n := by
  refine ⟨?_, ?_, ?_⟩
  · rw [List.filter_eq_nil_iff]
    intro v hv
    obtain ⟨i, hi, rfl⟩ := mem_frameAt _ _ _ _ hv
    simp [h i hi]
  · rw [List.filter_eq_nil_iff]
    intro v hv
    obtain ⟨i, hi, rfl⟩ := mem_frameAt _ _ _ _ hv
    simp [h i hi]
  · rw [List.filter_eq_self]
    intro v hv
    obtain ⟨i, hi, rfl⟩ := mem_frameAt _ _ _ _ hv
    simp [h i hi]

theorem getD_unflagged (l : List Nat) (h : ∀ v ∈ l, v &&& 0x80 = 0) (i : Nat) :
    l.getD i 0 &&& 0x80 = 0 := by
  by_cases hi : i < l.length
  · rw [List.getD_eq_getElem _ _ hi]
    exact h _ (List.getElem_mem _)
  · rw [List.getD_eq_default _ _ (by omega)]
    rfl

theorem RearrangePollList_idle (x : XPI) (h : x.rearrange_poll_list = false) :
    x.RearrangePollList = x := by
  simp [XPI.RearrangePollList, h]

theorem expire_ends_sweep (y s : XPI) (xsvfRC : Int) (d : Nat) (h : SweepState y 64 s)
    (hcnt : 0 ≤ y.poll_active_cnt ∧ y.poll_active_cnt ≤ 64) (hd1 : 4 ≤ d) (hd2 : d < 2 ^ 31) :
    (s.expire xsvfRC d).state = .IDLE ∧
    (s.expire xsvfRC d).stuck_eirq_count = (y.stuck_eirq_count + 1) % 2 ^ 32 ∧
    (∀ i, i < 64 → (s.expire xsvfRC d).poll_list i &&& 0x80 = 0) ∧
    (s.expire xsvfRC d).poll_active_cnt = 0 ∧
    (s.expire xsvfRC d).rearrange_poll_list = false := by
  obtain ⟨h1, h2, h3, h4, h5, h6, h7, h8, h9⟩ := h
  have hdelta : toLong ((((s.dTimerTick + d) % 2 ^ 32 : Nat) : Int) - (s.dTimerTick : Int)) = (d : Int) :=
    toLong_tick _ _ hd2
  have hexp : ¬ toLong (EIRQ_POLL_DELAY - (d : Int)) > 0 := by
    rw [toLong_small _ (by simp only [EIRQ_POLL_DELAY]; omega) (by simp only [EIRQ_POLL_DELAY]; omega)]
    simp only [EIRQ_POLL_DELAY]
    omega
  have harm : ¬ EIRQ_POLL_DELAY < 0 := by decide
  have hcur : ¬ s.poll_cur < 0 := by rw [h2]; omega
  have hb : (64 : Int) ≤ s.poll_cur + 1 := by rw [h2]; omega
  have hnat : s.poll_cur.toNat = 63 := by rw [h2]; omega
  -- the engine when `RearrangePollList` is called
  generalize hw : ({ s with
      dTimerTick := (s.dTimerTick + d) % 2 ^ 32
      lastTick := (s.dTimerTick + d) % 2 ^ 32
      timer := -1
      poll_list := setAt s.poll_list 63 (s.poll_list 63 &&& 0x7F)
      poll_cur := s.poll_cur + 1
      rearrange_poll_list := if s.poll_cur < s.poll_active_cnt then true else s.rearrange_poll_list
      stuck_eirq_count := (s.stuck_eirq_count + 1) % 2 ^ 32
      usbOut := s.usbOut ++
        (if s.poll_cur < s.poll_active_cnt then
          (usbLog s.logLine "SC: Board %02x Passive\n"
            [(((s.poll_list 63 &&& 0x7F) &&& 0x3F : Nat) : Int)]).2
         else []) ++
        (usbLog
          (if s.poll_cur < s.poll_active_cnt then
            (usbLog s.logLine "SC: Board %02x Passive\n"
              [(((s.poll_list 63 &&& 0x7F) &&& 0x3F : Nat) : Int)]).1
           else s.logLine)
          "SC: SEVERE ERROR: EIRQ stuck.\n" []).2
      logLine :=
        (usbLog
          (if s.poll_cur < s.poll_active_cnt then
            (usbLog s.logLine "SC: Board %02x Passive\n"
              [(((s.poll_list 63 &&& 0x7F) &&& 0x3F : Nat) : Int)]).1
           else s.logLine)
          "SC: SEVERE ERROR: EIRQ stuck.\n" []).1
      traceOut := s.traceOut ++
        (if s.poll_cur < s.poll_active_cnt then
          [{ fmt := "SC: Board %02x Passive\n"
             args := [(((s.poll_list 63 &&& 0x7F) &&& 0x3F : Nat) : Int)] }]
         else []) ++ [{ fmt := "SC: SEVERE ERROR: EIRQ stuck.\n", args := [] }] } : XPI) = w
  have e' : s.expire xsvfRC d =
      (({ s with dTimerTick := (s.dTimerTick + d) % 2 ^ 32
                 lastTick := (s.dTimerTick + d) % 2 ^ 32
                 timer := -1 } : XPI).MarkBoardActive false).PollNextBoard := by
    simp only [XPI.expire, XPI.step, XPI.On_Timer, XPI.tickDelta, h3, h4, hdelta, harm, hexp,
      if_false, h1, if_true]
  have e : s.expire xsvfRC d =
      ((w.RearrangePollList.FPGA_Write .XPI_W_PAGE_ADDR 0).FPGA_Write .XPI_W_P0_IRQ_ENABLE
        XPI_IRQ_EIRQ).Goto .IDLE (-1) := by
    rw [e', ← hw]
    by_cases hlt : s.poll_cur < s.poll_active_cnt
    · simp [XPI.MarkBoardActive, XPI.PollNextBoard, hcur, h5, hb, hnat, hlt, XPI.tracef,
        setAt_same]
    · simp [XPI.MarkBoardActive, XPI.PollNextBoard, hcur, h5, hb, hnat, hlt, XPI.tracef]
  have w1 : w.maxboardc = 64 := by rw [← hw]; exact h5
  have w2 : w.poll_cur = 64 := by rw [← hw]; show s.poll_cur + 1 = 64; rw [h2]; omega
  have w3 : w.poll_active_cnt = y.poll_active_cnt := by rw [← hw]; exact h6
  have w4 : w.stuck_eirq_count = (y.stuck_eirq_count + 1) % 2 ^ 32 := by
    rw [← hw]; show (s.stuck_eirq_count + 1) % 2 ^ 32 = _; rw [h7]
  have w5 : ∀ i, i < 64 → w.poll_list i &&& 0x80 = 0 := by
    intro i hi
    rw [← hw]
    show setAt s.poll_list 63 (s.poll_list 63 &&& 0x7F) i &&& 0x80 = 0
    by_cases hik : i = 63
    · rw [hik, setAt_same, and_7F_unflagged]
    · rw [setAt_ne _ _ _ _ hik]
      exact h8 i (by omega)
  have w6 : w.rearrange_poll_list = true ↔ 1 ≤ y.poll_active_cnt := by
    rw [← hw]
    show (if s.poll_cur < s.poll_active_cnt then true else s.rearrange_poll_list) = true ↔ _
    by_cases hlt : s.poll_cur < s.poll_active_cnt
    · rw [if_pos hlt]
      rw [h2, h6] at hlt
      constructor
      · intro _; omega
      · intro _; rfl
    · rw [if_neg hlt, h9]
      constructor
      · intro hh; exact hh.2
      · intro hh; exact ⟨by omega, hh⟩
  obtain ⟨r1, -, -, -, -, -⟩ := RearrangePollList_frame w
  rw [e]
  simp only [XPI.Goto, XPI.FPGA_Write]
  refine ⟨trivial, ?_, ?_, ?_, ?_⟩
  · rw [r1, w4]
  · intro i hi
    cases hflag : w.rearrange_poll_list
    · rw [RearrangePollList_idle w hflag]
      exact w5 i hi
    · have hp : w.poll_active_cnt = ((y.poll_active_cnt.toNat : Nat) : Int) := by
        rw [w3]; omega
      obtain ⟨s1, -, -, -⟩ := RearrangePollList_spec w y.poll_active_cnt.toNat 64 64 hflag hp w1
        (by rw [w1, w2]; simp) (by omega) (by omega)
      rw [s1 i hi]
      apply getD_unflagged
      intro v hv
      have hmem : ∀ (a n : Nat) (q : Nat → Bool), a + n ≤ 64 →
          v ∈ (frameAt w.poll_list a n).filter q → v &&& 0x80 = 0 := by
        intro a n q han hq
        obtain ⟨j, hj, rfl⟩ := mem_frameAt _ _ _ _ (List.mem_of_mem_filter hq)
        exact w5 _ (by omega)
      simp only [List.mem_append] at hv
      rcases hv with ((hv | hv) | hv) | hv
      · exact hmem _ _ _ (by omega) hv
      · exact hmem _ _ _ (by omega) hv
      · exact hmem _ _ _ (by omega) hv
      · exact hmem _ _ _ (by omega) hv
  · cases hflag : w.rearrange_poll_list
    · rw [RearrangePollList_idle w hflag, w3]
      have : ¬ 1 ≤ y.poll_active_cnt := fun hh => by
        have := w6.mpr hh
        rw [hflag] at this
        exact absurd this (by decide)
      omega
    · have hp : w.poll_active_cnt = ((y.poll_active_cnt.toNat : Nat) : Int) := by
        rw [w3]; omega
      obtain ⟨-, -, s3, -⟩ := RearrangePollList_spec w y.poll_active_cnt.toNat 64 64 hflag hp w1
        (by rw [w1, w2]; simp) (by omega) (by omega)
      rw [s3]
      obtain ⟨-, f2, -⟩ := filter_flagged_nil w.poll_list y.poll_active_cnt.toNat
        (64 - y.poll_active_cnt.toNat) (fun i hi => w5 _ (by omega))
      obtain ⟨-, -, f3⟩ := filter_flagged_nil w.poll_list 0 y.poll_active_cnt.toNat
        (fun i hi => w5 _ (by omega))
      rw [f2, f3, frameAt_length]
      simp
  · cases hflag : w.rearrange_poll_list
    · rw [RearrangePollList_idle w hflag, hflag]
    · have hp : w.poll_active_cnt = ((y.poll_active_cnt.toNat : Nat) : Int) := by
        rw [w3]; omega
      obtain ⟨-, -, -, s4⟩ := RearrangePollList_spec w y.poll_active_cnt.toNat 64 64 hflag hp w1
        (by rw [w1, w2]; simp) (by omega) (by omega)
      exact s4

theorem runEvents_expiries (xsvfRC : Int) (ds : List Nat) (x : XPI) :
    x.runEvents (ds.flatMap (fun d => [Event.tick d, Event.On_Timer xsvfRC])) =
      ds.foldl (fun s d => s.expire xsvfRC d) x := by
  induction ds generalizing x with
  | nil => rfl
  | cons d ds ih =>
    rw [List.flatMap_cons, List.foldl_cons, ← ih]
    rfl

theorem expiries_poll (y : XPI) (xsvfRC : Int) :
    ∀ (l : List Nat) (k : Nat) (s : XPI), SweepState y k s → k + l.length ≤ 64 →
      (∀ d ∈ l, 4 ≤ d ∧ d < 2 ^ 31) →
      SweepState y (k + l.length) (l.foldl (fun s d => s.expire xsvfRC d) s) := by
  intro l
  induction l with
  | nil => intro k s h _ _; exact h
  | cons d l ih =>
    intro k s h hk hds
    have hd := hds d (List.mem_cons_self _ _)
    have hstep := expire_polls y s xsvfRC k d h (by simp at hk; omega) hd.1 hd.2
    have := ih (k + 1) _ hstep (by simp at hk ⊢; omega)
      (fun d' hd' => hds d' (List.mem_cons_of_mem _ hd'))
    rw [List.foldl_cons, List.length_cons]
    have e : k + (l.length + 1) = k + 1 + l.length := by omega
    rw [e]
    exact this

theorem SweepState_begin (y : XPI) (hrole : y.isMCPU = true) (hidle : y.state = .IDLE)
    (hctxe : y.isCTXE = true) (heirq : y.isEIRQ = true) (hboards : y.maxboardc = 64) :
    SweepState y 0 y.StartTransmissionIfIdle := by
  refine ⟨?_, ?_, ?_, ?_, ?_, ?_, ?_, ?_, ?_⟩ <;>
    simp [XPI.StartTransmissionIfIdle, hrole, hidle, hctxe, heirq, XPI.FPGA_Write, XPI.Goto,
      EIRQ_POLL_DELAY, hboards]

/-! ## Lemmas on the presence flag and the role flag -/

theorem Goto_flags (x : XPI) (s : STATE) (t : Int) :
    (x.Goto s t).fpgaOK = x.fpgaOK ∧ (x.Goto s t).isMCPU = x.isMCPU := ⟨rfl, rfl⟩

theorem FPGA_Write_flags (x : XPI) (r : Reg) (d : Nat) :
    (x.FPGA_Write r d).fpgaOK = x.fpgaOK ∧ (x.FPGA_Write r d).isMCPU = x.isMCPU := ⟨rfl, rfl⟩

theorem usbOutPut_flags (x : XPI) (m : Msg) :
    (x.usbOutPut m).fpgaOK = x.fpgaOK ∧ (x.usbOutPut m).isMCPU = x.isMCPU := ⟨rfl, rfl⟩

theorem tracef_flags (x : XPI) (f : String) (a : List Int) :
    (x.tracef f a).fpgaOK = x.fpgaOK ∧ (x.tracef f a).isMCPU = x.isMCPU := ⟨rfl, rfl⟩

theorem collectCRX_flags (x : XPI) (b : Nat) :
    (x.collectCRX b).fpgaOK = x.fpgaOK ∧ (x.collectCRX b).isMCPU = x.isMCPU := ⟨rfl, rfl⟩

theorem collectCTX_flags (x : XPI) (b : Nat) :
    (x.collectCTX b).fpgaOK = x.fpgaOK ∧ (x.collectCTX b).isMCPU = x.isMCPU := ⟨rfl, rfl⟩

theorem MarkBoardActive_flags (x : XPI) (a : Bool) :
    (x.MarkBoardActive a).fpgaOK = x.fpgaOK ∧ (x.MarkBoardActive a).isMCPU = x.isMCPU := by
  unfold XPI.MarkBoardActive
  split
  · simp
  · cases a <;> simp <;> split <;> simp [XPI.tracef]

theorem RearrangePollList_flags (x : XPI) :
    x.RearrangePollList.fpgaOK = x.fpgaOK ∧ x.RearrangePollList.isMCPU = x.isMCPU := by
  unfold XPI.RearrangePollList
  split <;> simp [XPI.tracef]

theorem PollNextBoard_flags (x : XPI) :
    x.PollNextBoard.fpgaOK = x.fpgaOK ∧ x.PollNextBoard.isMCPU = x.isMCPU := by
  unfold XPI.PollNextBoard
  simp only
  split_ifs <;>
    simp only [(Goto_flags _ _ _).1, (Goto_flags _ _ _).2, (FPGA_Write_flags _ _ _).1,
      (FPGA_Write_flags _ _ _).2, (RearrangePollList_flags _).1, (RearrangePollList_flags _).2,
      (tracef_flags _ _ _).1, (tracef_flags _ _ _).2, and_self]

theorem On_CRX_collect_flags (x : XPI) (b : Nat) :
    (x.On_CRX_collect b).fpgaOK = x.fpgaOK ∧ (x.On_CRX_collect b).isMCPU = x.isMCPU := by
  unfold XPI.On_CRX_collect
  simp only
  split_ifs <;>
    simp only [(Goto_flags _ _ _).1, (Goto_flags _ _ _).2, (FPGA_Write_flags _ _ _).1,
      (FPGA_Write_flags _ _ _).2, (RearrangePollList_flags _).1, (RearrangePollList_flags _).2,
      (tracef_flags _ _ _).1, (tracef_flags _ _ _).2, (usbOutPut_flags _ _).1,
      (usbOutPut_flags _ _).2, (collectCRX_flags _ _).1, (collectCRX_flags _ _).2, and_self]

theorem On_CRX_flags (x : XPI) (b : Nat) :
    (x.On_CRX b).fpgaOK = x.fpgaOK ∧ (x.On_CRX b).isMCPU = x.isMCPU := by
  unfold XPI.On_CRX
  simp only
  split_ifs <;>
    simp only [(Goto_flags _ _ _).1, (Goto_flags _ _ _).2, (FPGA_Write_flags _ _ _).1,
      (FPGA_Write_flags _ _ _).2, (On_CRX_collect_flags _ _).1, (On_CRX_collect_flags _ _).2,
      (MarkBoardActive_flags _ _).1, (MarkBoardActive_flags _ _).2,
      (PollNextBoard_flags _).1, (PollNextBoard_flags _).2,
      (tracef_flags _ _ _).1, (tracef_flags _ _ _).2, (usbOutPut_flags _ _).1,
      (usbOutPut_flags _ _).2, (collectCRX_flags _ _).1, (collectCRX_flags _ _).2, and_self]

theorem On_CTX_flags (x : XPI) (b : Nat) :
    (x.On_CTX b).fpgaOK = x.fpgaOK ∧ (x.On_CTX b).isMCPU = x.isMCPU := by
  unfold XPI.On_CTX
  simp only [apply_ite XPI.fpgaOK, apply_ite XPI.isMCPU,
    (Goto_flags _ _ _).1, (Goto_flags _ _ _).2, (FPGA_Write_flags _ _ _).1,
    (FPGA_Write_flags _ _ _).2, (usbOutPut_flags _ _).1,
    (usbOutPut_flags _ _).2, (collectCTX_flags _ _).1, (collectCTX_flags _ _).2, ite_self,
    and_self]

theorem On_CTXE_flags (x : XPI) :
    x.On_CTXE.fpgaOK = x.fpgaOK ∧ x.On_CTXE.isMCPU = x.isMCPU := by
  unfold XPI.On_CTXE
  simp only
  split_ifs <;>
    simp only [(Goto_flags _ _ _).1, (Goto_flags _ _ _).2, (FPGA_Write_flags _ _ _).1,
      (FPGA_Write_flags _ _ _).2, (PollNextBoard_flags _).1, (PollNextBoard_flags _).2, and_self]

theorem On_EIRQ_flags (x : XPI) (f : Nat) :
    (x.On_EIRQ f).fpgaOK = x.fpgaOK ∧ (x.On_EIRQ f).isMCPU = x.isMCPU := by
  unfold XPI.On_EIRQ
  simp only
  split_ifs <;>
    simp only [(FPGA_Write_flags _ _ _).1, (FPGA_Write_flags _ _ _).2, (usbOutPut_flags _ _).1,
      (usbOutPut_flags _ _).2, and_self]

theorem StartTransmissionIfIdle_flags (x : XPI) :
    x.StartTransmissionIfIdle.fpgaOK = x.fpgaOK ∧
    x.StartTransmissionIfIdle.isMCPU = x.isMCPU := by
  unfold XPI.StartTransmissionIfIdle
  simp only [writeCtx_eq]
  split_ifs <;>
    simp only [(Goto_flags _ _ _).1, (Goto_flags _ _ _).2, (FPGA_Write_flags _ _ _).1,
      (FPGA_Write_flags _ _ _).2, and_self]



theorem ResetFPGA_role (x : XPI) (rc : Int) (h : x.isMCPU = true → x.fpgaOK = true) :
    (x.ResetFPGA rc).isMCPU = true → (x.ResetFPGA rc).fpgaOK = true := by
  by_cases hok : x.fpgaOK = true
  · obtain ⟨w, hw⟩ := ResetFPGA_present x rc hok
    rw [hw]
    intro hm
    exact absurd hm (by simp)
  · have hok' : x.fpgaOK = false := by simpa using hok
    rw [ResetFPGA_absent x rc hok']
    intro hm
    exact h hm

theorem InitializeFPGA_role (x : XPI) (c f : Bool) (hw : InitReads) :
    (x.InitializeFPGA c f hw).isMCPU = true → (x.InitializeFPGA c f hw).fpgaOK = true := by
  unfold XPI.InitializeFPGA
  simp only
  split_ifs <;> simp_all [XPI.usbOutPut, XPI.ResetPollList, XPI.Goto, XPI.FPGA_Write, XPI.tracef]

theorem On_Timer_wedged (x : XPI) (rc : Int) (hexp : x.timerExpires) :
    (x.state = .WAIT_CTXE → x.On_Timer rc =
      { (({ x with lastTick := x.dTimerTick, timer := -1 } : XPI).tracef
          "SC: SEVERE ERROR: FPGA Failed. Timeout in WAIT_CTXE.\n" []).ResetFPGA rc with
        ctx_status := 0x78
        semaSent := ((({ x with lastTick := x.dTimerTick, timer := -1 } : XPI).tracef
          "SC: SEVERE ERROR: FPGA Failed. Timeout in WAIT_CTXE.\n" []).ResetFPGA rc).semaSent + 1 }) ∧
    (x.state = .WAIT_SENT → x.On_Timer rc =
      { (({ x with lastTick := x.dTimerTick, timer := -1 } : XPI).tracef
          "SC: SEVERE ERROR: FPGA Failed. Timeout in WAIT_SENT.\n"
          [(STATE.WAIT_SENT.toNat : Int)]).ResetFPGA rc with
        ctx_status := 0x79
        semaSent := ((({ x with lastTick := x.dTimerTick, timer := -1 } : XPI).tracef
          "SC: SEVERE ERROR: FPGA Failed. Timeout in WAIT_SENT.\n"
          [(STATE.WAIT_SENT.toNat : Int)]).ResetFPGA rc).semaSent + 1 }) := by
  obtain ⟨h1, h2⟩ := hexp
  unfold XPI.tickDelta at h2
  constructor
  · intro hs
    simp [XPI.On_Timer, XPI.tickDelta, h1, h2, hs]
  · intro hs
    simp [XPI.On_Timer, XPI.tickDelta, h1, h2, hs]

theorem On_Timer_role (x : XPI) (rc : Int) (h : x.isMCPU = true → x.fpgaOK = true) :
    (x.On_Timer rc).isMCPU = true → (x.On_Timer rc).fpgaOK = true := by
  by_cases hexp : x.timerExpires
  · by_cases h1 : x.state = .WAIT_CTXE
    · rw [(On_Timer_wedged x rc hexp).1 h1]
      exact ResetFPGA_role _ rc h
    · by_cases h2 : x.state = .WAIT_SENT
      · rw [(On_Timer_wedged x rc hexp).2 h2]
        exact ResetFPGA_role _ rc h
      · have e : (x.On_Timer rc).fpgaOK = x.fpgaOK ∧ (x.On_Timer rc).isMCPU = x.isMCPU := by
          unfold XPI.On_Timer
          simp only [h1, h2, if_false, apply_ite XPI.fpgaOK, apply_ite XPI.isMCPU,
            (Goto_flags _ _ _).1, (Goto_flags _ _ _).2, (FPGA_Write_flags _ _ _).1,
            (FPGA_Write_flags _ _ _).2, (tracef_flags _ _ _).1, (tracef_flags _ _ _).2,
            (PollNextBoard_flags _).1, (PollNextBoard_flags _).2,
            (MarkBoardActive_flags _ _).1, (MarkBoardActive_flags _ _).2, ite_self, and_self]
        rw [e.1, e.2]
        exact h
  · have e : (x.On_Timer rc).fpgaOK = x.fpgaOK ∧ (x.On_Timer rc).isMCPU = x.isMCPU := by
      unfold XPI.timerExpires at hexp
      unfold XPI.On_Timer
      by_cases ht : x.timer < 0
      · simp [ht]
      · have : toLong (x.timer - x.tickDelta) > 0 := by
          by_contra hc
          exact hexp ⟨ht, hc⟩
        simp [ht, this]
    rw [e.1, e.2]
    exact h

theorem step_role (x : XPI) (ev : Event) (h : x.isMCPU = true → x.fpgaOK = true) :
    (x.step ev).isMCPU = true → (x.step ev).fpgaOK = true := by
  cases ev with
  | InitializeFPGA c f hw => exact InitializeFPGA_role x c f hw
  | ResetFPGA rc => exact ResetFPGA_role x rc h
  | StartTransmissionIfIdle =>
    intro hm
    rw [XPI.step, (StartTransmissionIfIdle_flags _).2] at hm
    rw [XPI.step, (StartTransmissionIfIdle_flags _).1]
    exact h hm
  | On_Timer rc => exact On_Timer_role x rc h
  | On_CTXE =>
    intro hm
    rw [XPI.step, (On_CTXE_flags _).2] at hm
    rw [XPI.step, (On_CTXE_flags _).1]
    exact h hm
  | On_CTX b =>
    intro hm
    rw [XPI.step, (On_CTX_flags _ _).2] at hm
    rw [XPI.step, (On_CTX_flags _ _).1]
    exact h hm
  | On_CRX b =>
    intro hm
    rw [XPI.step, (On_CRX_flags _ _).2] at hm
    rw [XPI.step, (On_CRX_flags _ _).1]
    exact h hm
  | On_EIRQ b =>
    intro hm
    rw [XPI.step, (On_EIRQ_flags _ _).2] at hm
    rw [XPI.step, (On_EIRQ_flags _ _).1]
    exact h hm
  | On_FC a b => exact h
  | tick n => exact h
  | SetTraceMask m => exact h
  | queue q => exact h

theorem runEvents_role (evs : List Event) (x : XPI) (h : x.isMCPU = true → x.fpgaOK = true) :
    (x.runEvents evs).isMCPU = true → (x.runEvents evs).fpgaOK = true := by
  induction evs generalizing x with
  | nil => exact h
  | cons ev evs ih => exact ih _ (step_role x ev h)

theorem Reachable_role (x : XPI) (h : Reachable x) : x.isMCPU = true → x.fpgaOK = true := by
  obtain ⟨evs, rfl⟩ := h
  exact runEvents_role evs _ (fun hm => absurd hm (by decide))

/-! ## Lemmas on the timer invariant -/

theorem TimerOK_ite (c : Prop) [Decidable c] (a b : XPI) :
    TimerOK (if c then a else b).state (if c then a else b).timer =
      if c then TimerOK a.state a.timer else TimerOK b.state b.timer := by
  split_ifs <;> rfl

theorem TimerOK_Goto (x : XPI) (s : STATE) (t : Int)
    (h : 0 ≤ t ∨ s = .DISABLED ∨ s = .IDLE) :
    TimerOK (x.Goto s t).state (x.Goto s t).timer := by
  unfold TimerOK XPI.Goto
  by_cases ht : t < 0
  · rcases h with h | h
    · omega
    · simp [ht, h]
  · simp [ht]
    left
    omega

theorem TimerOK_Goto_timeouts (x : XPI) (s : STATE) :
    TimerOK (x.Goto s EIRQ_POLL_DELAY).state (x.Goto s EIRQ_POLL_DELAY).timer = True ∧
    TimerOK (x.Goto s INTER_SEND_DELAY).state (x.Goto s INTER_SEND_DELAY).timer = True ∧
    TimerOK (x.Goto s RECEIVE_TIMEOUT).state (x.Goto s RECEIVE_TIMEOUT).timer = True ∧
    TimerOK (x.Goto s CTXE_TIMEOUT).state (x.Goto s CTXE_TIMEOUT).timer = True ∧
    TimerOK (x.Goto s 100).state (x.Goto s 100).timer = True :=
  ⟨eq_true (TimerOK_Goto x s _ (Or.inl (by decide))),
   eq_true (TimerOK_Goto x s _ (Or.inl (by decide))),
   eq_true (TimerOK_Goto x s _ (Or.inl (by decide))),
   eq_true (TimerOK_Goto x s _ (Or.inl (by decide))),
   eq_true (TimerOK_Goto x s _ (Or.inl (by decide)))⟩

theorem TimerOK_Goto_rest (x : XPI) :
    TimerOK (x.Goto .IDLE (-1)).state (x.Goto .IDLE (-1)).timer = True ∧
    TimerOK (x.Goto .DISABLED (-1)).state (x.Goto .DISABLED (-1)).timer = True :=
  ⟨eq_true (TimerOK_Goto x _ _ (Or.inr (Or.inr rfl))),
   eq_true (TimerOK_Goto x _ _ (Or.inr (Or.inl rfl)))⟩

theorem TimerOK_frame (x : XPI) :
    (∀ r d, TimerOK (x.FPGA_Write r d).state (x.FPGA_Write r d).timer = TimerOK x.state x.timer) ∧
    (∀ m, TimerOK (x.usbOutPut m).state (x.usbOutPut m).timer = TimerOK x.state x.timer) ∧
    (∀ f a, TimerOK (x.tracef f a).state (x.tracef f a).timer = TimerOK x.state x.timer) ∧
    (∀ b, TimerOK (x.collectCRX b).state (x.collectCRX b).timer = TimerOK x.state x.timer) ∧
    (∀ b, TimerOK (x.collectCTX b).state (x.collectCTX b).timer = TimerOK x.state x.timer) ∧
    (∀ a, TimerOK (x.MarkBoardActive a).state (x.MarkBoardActive a).timer =
      TimerOK x.state x.timer) ∧
    TimerOK x.RearrangePollList.state x.RearrangePollList.timer = TimerOK x.state x.timer ∧
    TimerOK x.ResetPollList.state x.ResetPollList.timer = TimerOK x.state x.timer := by
  refine ⟨fun _ _ => rfl, fun _ => rfl, fun _ _ => rfl, fun _ => rfl, fun _ => rfl, ?_, ?_, rfl⟩
  · intro a
    have h1 := (MarkBoardActive_crx x a).2.2.2.2.1
    have h2 : (x.MarkBoardActive a).timer = x.timer := by
      unfold XPI.MarkBoardActive
      split
      · rfl
      · cases a <;> simp <;> split <;> simp [XPI.tracef]
    rw [h1, h2]
  · rw [(RearrangePollList_crx x).2.2.2.2.1, (RearrangePollList_frame x).2.2.2.2.1]

theorem PollNextBoard_TimerOK (x : XPI) :
    TimerOK x.PollNextBoard.state x.PollNextBoard.timer = True := by
  unfold XPI.PollNextBoard
  simp only [TimerOK_ite, (TimerOK_Goto_timeouts _ _).1, (TimerOK_Goto_rest _).1, ite_self]

theorem On_CRX_collect_TimerOK (x : XPI) (b : Nat) :
    TimerOK (x.On_CRX_collect b).state (x.On_CRX_collect b).timer = True := by
  unfold XPI.On_CRX_collect
  simp only [TimerOK_ite, (TimerOK_Goto_timeouts _ _).2.2.1, (TimerOK_Goto_timeouts _ _).2.2.2.1,
    ite_self]

theorem ResetFPGA_TimerOK (x : XPI) (rc : Int) :
    TimerOK (x.ResetFPGA rc).state (x.ResetFPGA rc).timer = True := by
  by_cases hok : x.fpgaOK = true
  · obtain ⟨w, hw⟩ := ResetFPGA_present x rc hok
    rw [hw]
    exact eq_true (Or.inr ⟨rfl, Or.inl rfl⟩)
  · have hok' : x.fpgaOK = false := by simpa using hok
    rw [ResetFPGA_absent x rc hok']
    exact (TimerOK_Goto_rest x).2

theorem On_CRX_TimerOK (x : XPI) (b : Nat) (h : TimerOK x.state x.timer) :
    TimerOK (x.On_CRX b).state (x.On_CRX b).timer := by
  unfold XPI.On_CRX
  simp only [TimerOK_ite, (TimerOK_Goto_timeouts _ _).1, (TimerOK_Goto_timeouts _ _).2.1,
    (TimerOK_Goto_timeouts _ _).2.2.1, (TimerOK_Goto_timeouts _ _).2.2.2.1,
    (TimerOK_Goto_timeouts _ _).2.2.2.2, (TimerOK_Goto_rest _).1, (TimerOK_Goto_rest _).2,
    (TimerOK_frame _).1, (TimerOK_frame _).2.1, (TimerOK_frame _).2.2.1, (TimerOK_frame _).2.2.2.1,
    (TimerOK_frame _).2.2.2.2.1, (TimerOK_frame _).2.2.2.2.2.1, (TimerOK_frame _).2.2.2.2.2.2.1,
    (TimerOK_frame _).2.2.2.2.2.2.2, PollNextBoard_TimerOK, On_CRX_collect_TimerOK,
    eq_true h, ite_self]

theorem On_CTX_TimerOK (x : XPI) (b : Nat) (h : TimerOK x.state x.timer) :
    TimerOK (x.On_CTX b).state (x.On_CTX b).timer := by
  unfold XPI.On_CTX
  simp only [TimerOK_ite, (TimerOK_Goto_timeouts _ _).1, (TimerOK_Goto_timeouts _ _).2.1,
    (TimerOK_Goto_timeouts _ _).2.2.1, (TimerOK_Goto_timeouts _ _).2.2.2.1,
    (TimerOK_Goto_timeouts _ _).2.2.2.2, (TimerOK_Goto_rest _).1, (TimerOK_Goto_rest _).2,
    (TimerOK_frame _).1, (TimerOK_frame _).2.1, (TimerOK_frame _).2.2.1, (TimerOK_frame _).2.2.2.1,
    (TimerOK_frame _).2.2.2.2.1, (TimerOK_frame _).2.2.2.2.2.1, (TimerOK_frame _).2.2.2.2.2.2.1,
    (TimerOK_frame _).2.2.2.2.2.2.2, PollNextBoard_TimerOK, On_CRX_collect_TimerOK,
    eq_true h, ite_self]

theorem On_CTXE_TimerOK (x : XPI) (h : TimerOK x.state x.timer) :
    TimerOK x.On_CTXE.state x.On_CTXE.timer := by
  unfold XPI.On_CTXE
  simp only [TimerOK_ite, (TimerOK_Goto_timeouts _ _).1, (TimerOK_Goto_timeouts _ _).2.1,
    (TimerOK_Goto_timeouts _ _).2.2.1, (TimerOK_Goto_timeouts _ _).2.2.2.1,
    (TimerOK_Goto_timeouts _ _).2.2.2.2, (TimerOK_Goto_rest _).1, (TimerOK_Goto_rest _).2,
    (TimerOK_frame _).1, (TimerOK_frame _).2.1, (TimerOK_frame _).2.2.1, (TimerOK_frame _).2.2.2.1,
    (TimerOK_frame _).2.2.2.2.1, (TimerOK_frame _).2.2.2.2.2.1, (TimerOK_frame _).2.2.2.2.2.2.1,
    (TimerOK_frame _).2.2.2.2.2.2.2, PollNextBoard_TimerOK, On_CRX_collect_TimerOK,
    ResetFPGA_TimerOK, eq_true h, ite_self]

theorem On_EIRQ_TimerOK (x : XPI) (f : Nat) (h : TimerOK x.state x.timer) :
    TimerOK (x.On_EIRQ f).state (x.On_EIRQ f).timer := by
  unfold XPI.On_EIRQ
  simp only [TimerOK_ite, (TimerOK_Goto_timeouts _ _).1, (TimerOK_Goto_timeouts _ _).2.1,
    (TimerOK_Goto_timeouts _ _).2.2.1, (TimerOK_Goto_timeouts _ _).2.2.2.1,
    (TimerOK_Goto_timeouts _ _).2.2.2.2, (TimerOK_Goto_rest _).1, (TimerOK_Goto_rest _).2,
    (TimerOK_frame _).1, (TimerOK_frame _).2.1, (TimerOK_frame _).2.2.1, (TimerOK_frame _).2.2.2.1,
    (TimerOK_frame _).2.2.2.2.1, (TimerOK_frame _).2.2.2.2.2.1, (TimerOK_frame _).2.2.2.2.2.2.1,
    (TimerOK_frame _).2.2.2.2.2.2.2, PollNextBoard_TimerOK, On_CRX_collect_TimerOK,
    ResetFPGA_TimerOK, eq_true h, ite_self]

theorem StartTransmissionIfIdle_TimerOK (x : XPI) (h : TimerOK x.state x.timer) :
    TimerOK x.StartTransmissionIfIdle.state x.StartTransmissionIfIdle.timer := by
  unfold XPI.StartTransmissionIfIdle
  simp only [writeCtx_eq, TimerOK_ite, (TimerOK_Goto_timeouts _ _).1, (TimerOK_Goto_timeouts _ _).2.1,
    (TimerOK_Goto_timeouts _ _).2.2.1, (TimerOK_Goto_timeouts _ _).2.2.2.1,
    (TimerOK_Goto_timeouts _ _).2.2.2.2, (TimerOK_Goto_rest _).1, (TimerOK_Goto_rest _).2,
    (TimerOK_frame _).1, (TimerOK_frame _).2.1, (TimerOK_frame _).2.2.1, (TimerOK_frame _).2.2.2.1,
    (TimerOK_frame _).2.2.2.2.1, (TimerOK_frame _).2.2.2.2.2.1, (TimerOK_frame _).2.2.2.2.2.2.1,
    (TimerOK_frame _).2.2.2.2.2.2.2, PollNextBoard_TimerOK, On_CRX_collect_TimerOK,
    ResetFPGA_TimerOK, eq_true h, ite_self]

theorem InitializeFPGA_TimerOK (x : XPI) (c f : Bool) (hw : InitReads)
    (h : TimerOK x.state x.timer) :
    TimerOK (x.InitializeFPGA c f hw).state (x.InitializeFPGA c f hw).timer := by
  unfold XPI.InitializeFPGA
  simp only [TimerOK_ite, (TimerOK_Goto_timeouts _ _).1, (TimerOK_Goto_timeouts _ _).2.1,
    (TimerOK_Goto_timeouts _ _).2.2.1, (TimerOK_Goto_timeouts _ _).2.2.2.1,
    (TimerOK_Goto_timeouts _ _).2.2.2.2, (TimerOK_Goto_rest _).1, (TimerOK_Goto_rest _).2,
    (TimerOK_frame _).1, (TimerOK_frame _).2.1, (TimerOK_frame _).2.2.1, (TimerOK_frame _).2.2.2.1,
    (TimerOK_frame _).2.2.2.2.1, (TimerOK_frame _).2.2.2.2.2.1, (TimerOK_frame _).2.2.2.2.2.2.1,
    (TimerOK_frame _).2.2.2.2.2.2.2, PollNextBoard_TimerOK, On_CRX_collect_TimerOK,
    ResetFPGA_TimerOK, eq_true h, ite_self]

theorem On_Timer_TimerOK (x : XPI) (rc : Int) (h : TimerOK x.state x.timer) :
    TimerOK (x.On_Timer rc).state (x.On_Timer rc).timer := by
  unfold XPI.On_Timer
  simp only [TimerOK_ite, (TimerOK_Goto_timeouts _ _).1, (TimerOK_Goto_timeouts _ _).2.1,
    (TimerOK_Goto_timeouts _ _).2.2.1, (TimerOK_Goto_timeouts _ _).2.2.2.1,
    (TimerOK_Goto_timeouts _ _).2.2.2.2, (TimerOK_Goto_rest _).1, (TimerOK_Goto_rest _).2,
    (TimerOK_frame _).1, (TimerOK_frame _).2.1, (TimerOK_frame _).2.2.1, (TimerOK_frame _).2.2.2.1,
    (TimerOK_frame _).2.2.2.2.1, (TimerOK_frame _).2.2.2.2.2.1, (TimerOK_frame _).2.2.2.2.2.2.1,
    (TimerOK_frame _).2.2.2.2.2.2.2, PollNextBoard_TimerOK, On_CRX_collect_TimerOK,
    ResetFPGA_TimerOK, eq_true h, ite_self]
  split_ifs with h1 h2 h3 h4 h5 h6 h7 h8 h9
  all_goals first
    | trivial
    | exact Or.inl (by omega)
    | (refine Or.inr ⟨rfl, ?_⟩
       cases hs : x.state <;> simp_all)

theorem step_TimerOK (x : XPI) (ev : Event) (h : TimerOK x.state x.timer) :
    TimerOK (x.step ev).state (x.step ev).timer := by
  cases ev with
  | InitializeFPGA c f hw => exact InitializeFPGA_TimerOK x c f hw h
  | ResetFPGA rc => exact of_eq_true (ResetFPGA_TimerOK x rc)
  | StartTransmissionIfIdle => exact StartTransmissionIfIdle_TimerOK x h
  | On_Timer rc => exact On_Timer_TimerOK x rc h
  | On_CTXE => exact On_CTXE_TimerOK x h
  | On_CTX b => exact On_CTX_TimerOK x _ h
  | On_CRX b => exact On_CRX_TimerOK _ _ h
  | On_EIRQ b => exact On_EIRQ_TimerOK x _ h
  | On_FC a b => exact h
  | tick n => exact h
  | SetTraceMask m => exact h
  | queue q => exact h

theorem Reachable_TimerOK (x : XPI) (h : Reachable x) : TimerOK x.state x.timer := by
  obtain ⟨evs, rfl⟩ := h
  have key : ∀ (evs : List Event) (y : XPI), TimerOK y.state y.timer →
      TimerOK (y.runEvents evs).state (y.runEvents evs).timer := by
    intro evs
    induction evs with
    | nil => intro y hy; exact hy
    | cons ev evs ih => intro y hy; exact ih _ (step_TimerOK y ev hy)
  exact key evs _ (Or.inr ⟨rfl, Or.inl rfl⟩)

theorem On_Timer_wedged_state (x : XPI) (xsvfRC : Int)
    (hexp : x.timerExpires) (hstate : x.state = .WAIT_SENT ∨ x.state = .WAIT_CTXE) :
    (x.On_Timer xsvfRC).state = .DISABLED := by
  have key : ∀ (y : XPI) (c : Int), x.On_Timer xsvfRC =
        { y.ResetFPGA xsvfRC with
          ctx_status := c
          semaSent := (y.ResetFPGA xsvfRC).semaSent + 1 } →
      (x.On_Timer xsvfRC).state = .DISABLED := by
    intro y c e
    rw [e]
    by_cases hok : y.fpgaOK = true
    · obtain ⟨w, hw⟩ := ResetFPGA_present y xsvfRC hok
      rw [hw]
    · have hok' : y.fpgaOK = false := by simpa using hok
      rw [ResetFPGA_absent y xsvfRC hok']
      rfl
  rcases hstate with hs | hs
  · exact key _ _ ((On_Timer_wedged x xsvfRC hexp).2 hs)
  · exact key _ _ ((On_Timer_wedged x xsvfRC hexp).1 hs)

theorem PollNextBoard_outcome (y : XPI) :
    y.PollNextBoard.state = .IDLE ∨
    (y.PollNextBoard.state = .POLL_EIRQ ∧ y.PollNextBoard.timer = EIRQ_POLL_DELAY ∧
     y.poll_cur < y.PollNextBoard.poll_cur ∧ y.PollNextBoard.poll_cur < y.maxboardc) := by
  by_cases hneg : y.poll_cur < 0
  · by_cases hend : y.maxboardc ≤ 0
    · left
      simp [XPI.PollNextBoard, hneg, hend, XPI.Goto, XPI.FPGA_Write]
    · right
      have e : y.PollNextBoard.poll_cur = 0 := by
        simp [XPI.PollNextBoard, hneg, hend, XPI.Goto, XPI.FPGA_Write]
      refine ⟨?_, ?_, ?_, ?_⟩
      · simp [XPI.PollNextBoard, hneg, hend, XPI.Goto, XPI.FPGA_Write]
      · simp [XPI.PollNextBoard, hneg, hend, XPI.Goto, XPI.FPGA_Write, EIRQ_POLL_DELAY]
      · rw [e]
        exact hneg
      · rw [e]
        omega
  · by_cases hend : y.maxboardc ≤ y.poll_cur + 1
    · left
      simp [XPI.PollNextBoard, hneg, hend, XPI.Goto, XPI.FPGA_Write]
    · right
      obtain ⟨p1, p2, p3, -, -, -⟩ := PollNextBoard_advances y (by omega) (by omega)
      exact ⟨p2, p3, by rw [p1]; omega, by rw [p1]; omega⟩

theorem On_Timer_expiry_leaves (x : XPI) (rc : Int) (hexp : x.timerExpires) :
    (x.state = .POLL_EIRQ →
      (x.On_Timer rc).state = .IDLE ∨
      ((x.On_Timer rc).state = .POLL_EIRQ ∧ (x.On_Timer rc).timer = EIRQ_POLL_DELAY ∧
       x.poll_cur < (x.On_Timer rc).poll_cur ∧ (x.On_Timer rc).poll_cur < x.maxboardc)) ∧
    (x.state = .BLOCKED_SEND ∨ x.state = .RECEIVE_CTX ∨ x.state = .RECEIVE_CRX ∨
      x.state = .WAIT_ACK → (x.On_Timer rc).state = .IDLE) ∧
    (x.state = .WAIT_SENT ∨ x.state = .WAIT_CTXE → (x.On_Timer rc).state = .DISABLED) := by
  obtain ⟨h1, h2⟩ := hexp
  have hexp : x.timerExpires := ⟨h1, h2⟩
  unfold XPI.tickDelta at h2
  refine ⟨?_, ?_, ?_⟩
  · intro hs
    have e : x.On_Timer rc =
        (({ x with lastTick := x.dTimerTick, timer := -1 } : XPI).MarkBoardActive false).PollNextBoard := by
      simp [XPI.On_Timer, XPI.tickDelta, h1, h2, hs]
    rw [e]
    have hc : (({ x with lastTick := x.dTimerTick, timer := -1 } : XPI).MarkBoardActive false).poll_cur
          = x.poll_cur ∧
        (({ x with lastTick := x.dTimerTick, timer := -1 } : XPI).MarkBoardActive false).maxboardc
          = x.maxboardc := by
      unfold XPI.MarkBoardActive
      split
      · exact ⟨rfl, rfl⟩
      · simp only [Bool.false_eq_true, false_and, if_false, not_false_eq_true, true_and]
        split <;> exact ⟨rfl, rfl⟩
    have := PollNextBoard_outcome
      (({ x with lastTick := x.dTimerTick, timer := -1 } : XPI).MarkBoardActive false)
    rw [hc.1, hc.2] at this
    exact this
  · intro hs
    rcases hs with hs | hs | hs | hs <;>
      simp [XPI.On_Timer, XPI.tickDelta, h1, h2, hs, XPI.Goto, XPI.FPGA_Write, XPI.tracef]
  · intro hs
    exact On_Timer_wedged_state x rc hexp hs

/-! ## Lemmas on the reassembly lengths -/

theorem LenOK_le (len : Nat) (data : Nat → Nat) (h : LenOK len data) : len ≤ 17 := by
  have : data 1 &&& 0x0F ≤ 0x0F := Nat.and_le_right
  rcases h with h | h <;> omega

theorem LenOK_zero (data : Nat → Nat) : LenOK 0 data = True :=
  eq_true (Or.inl (by omega))

theorem crx_ite (c : Prop) [Decidable c] (a b : XPI) :
    LenOK (if c then a else b).crxLen (if c then a else b).sCRX_data =
      if c then LenOK a.crxLen a.sCRX_data else LenOK b.crxLen b.sCRX_data := by
  split_ifs <;> rfl

theorem ctx_ite (c : Prop) [Decidable c] (a b : XPI) :
    LenOK (if c then a else b).ctxLen (if c then a else b).sCTX_data =
      if c then LenOK a.ctxLen a.sCTX_data else LenOK b.ctxLen b.sCTX_data := by
  split_ifs <;> rfl

theorem MarkBoardActive_len (x : XPI) (a : Bool) :
    (x.MarkBoardActive a).crxLen = x.crxLen ∧ (x.MarkBoardActive a).sCRX_data = x.sCRX_data ∧
    (x.MarkBoardActive a).ctxLen = x.ctxLen ∧ (x.MarkBoardActive a).sCTX_data = x.sCTX_data := by
  unfold XPI.MarkBoardActive
  split
  · simp
  · cases a <;> simp <;> split <;> simp [XPI.tracef]

theorem RearrangePollList_len (x : XPI) :
    x.RearrangePollList.crxLen = x.crxLen ∧ x.RearrangePollList.sCRX_data = x.sCRX_data ∧
    x.RearrangePollList.ctxLen = x.ctxLen ∧ x.RearrangePollList.sCTX_data = x.sCTX_data := by
  unfold XPI.RearrangePollList
  split <;> simp [XPI.tracef]

theorem crx_frame (x : XPI) :
    (∀ s t, LenOK (x.Goto s t).crxLen (x.Goto s t).sCRX_data = LenOK x.crxLen x.sCRX_data) ∧
    (∀ r d, LenOK (x.FPGA_Write r d).crxLen (x.FPGA_Write r d).sCRX_data =
      LenOK x.crxLen x.sCRX_data) ∧
    (∀ m, LenOK (x.usbOutPut m).crxLen (x.usbOutPut m).sCRX_data = LenOK x.crxLen x.sCRX_data) ∧
    (∀ f a, LenOK (x.tracef f a).crxLen (x.tracef f a).sCRX_data = LenOK x.crxLen x.sCRX_data) ∧
    (∀ b, LenOK (x.collectCTX b).crxLen (x.collectCTX b).sCRX_data = LenOK x.crxLen x.sCRX_data) ∧
    (∀ a, LenOK (x.MarkBoardActive a).crxLen (x.MarkBoardActive a).sCRX_data =
      LenOK x.crxLen x.sCRX_data) ∧
    LenOK x.RearrangePollList.crxLen x.RearrangePollList.sCRX_data = LenOK x.crxLen x.sCRX_data ∧
    LenOK x.ResetPollList.crxLen x.ResetPollList.sCRX_data = LenOK x.crxLen x.sCRX_data := by
  refine ⟨fun _ _ => rfl, fun _ _ => rfl, fun _ => rfl, fun _ _ => rfl, fun _ => rfl, ?_, ?_, rfl⟩
  · intro a
    rw [(MarkBoardActive_len x a).1, (MarkBoardActive_len x a).2.1]
  · rw [(RearrangePollList_len x).1, (RearrangePollList_len x).2.1]

theorem ctx_frame (x : XPI) :
    (∀ s t, LenOK (x.Goto s t).ctxLen (x.Goto s t).sCTX_data = LenOK x.ctxLen x.sCTX_data) ∧
    (∀ r d, LenOK (x.FPGA_Write r d).ctxLen (x.FPGA_Write r d).sCTX_data =
      LenOK x.ctxLen x.sCTX_data) ∧
    (∀ m, LenOK (x.usbOutPut m).ctxLen (x.usbOutPut m).sCTX_data = LenOK x.ctxLen x.sCTX_data) ∧
    (∀ f a, LenOK (x.tracef f a).ctxLen (x.tracef f a).sCTX_data = LenOK x.ctxLen x.sCTX_data) ∧
    (∀ b, LenOK (x.collectCRX b).ctxLen (x.collectCRX b).sCTX_data = LenOK x.ctxLen x.sCTX_data) ∧
    (∀ a, LenOK (x.MarkBoardActive a).ctxLen (x.MarkBoardActive a).sCTX_data =
      LenOK x.ctxLen x.sCTX_data) ∧
    LenOK x.RearrangePollList.ctxLen x.RearrangePollList.sCTX_data = LenOK x.ctxLen x.sCTX_data ∧
    LenOK x.ResetPollList.ctxLen x.ResetPollList.sCTX_data = LenOK x.ctxLen x.sCTX_data := by
  refine ⟨fun _ _ => rfl, fun _ _ => rfl, fun _ => rfl, fun _ _ => rfl, fun _ => rfl, ?_, ?_, rfl⟩
  · intro a
    rw [(MarkBoardActive_len x a).2.2.1, (MarkBoardActive_len x a).2.2.2]
  · rw [(RearrangePollList_len x).2.2.1, (RearrangePollList_len x).2.2.2]

theorem PollNextBoard_crx (x : XPI) :
    LenOK x.PollNextBoard.crxLen x.PollNextBoard.sCRX_data = LenOK x.crxLen x.sCRX_data := by
  unfold XPI.PollNextBoard
  simp only [crx_ite, (crx_frame _).1, (crx_frame _).2.1, (crx_frame _).2.2.1,
    (crx_frame _).2.2.2.1, (crx_frame _).2.2.2.2.1, (crx_frame _).2.2.2.2.2.1,
    (crx_frame _).2.2.2.2.2.2.1, (crx_frame _).2.2.2.2.2.2.2, ite_self]

theorem PollNextBoard_ctx (x : XPI) :
    LenOK x.PollNextBoard.ctxLen x.PollNextBoard.sCTX_data = LenOK x.ctxLen x.sCTX_data := by
  unfold XPI.PollNextBoard
  simp only [ctx_ite, (ctx_frame _).1, (ctx_frame _).2.1, (ctx_frame _).2.2.1,
    (ctx_frame _).2.2.2.1, (ctx_frame _).2.2.2.2.1, (ctx_frame _).2.2.2.2.2.1,
    (ctx_frame _).2.2.2.2.2.2.1, (ctx_frame _).2.2.2.2.2.2.2, ite_self]

theorem ResetFPGA_len (x : XPI) (rc : Int) :
    LenOK (x.ResetFPGA rc).crxLen (x.ResetFPGA rc).sCRX_data = LenOK x.crxLen x.sCRX_data ∧
    LenOK (x.ResetFPGA rc).ctxLen (x.ResetFPGA rc).sCTX_data = LenOK x.ctxLen x.sCTX_data := by
  by_cases hok : x.fpgaOK = true
  · obtain ⟨w, hw⟩ := ResetFPGA_present x rc hok
    rw [hw]
    exact ⟨rfl, rfl⟩
  · have hok' : x.fpgaOK = false := by simpa using hok
    rw [ResetFPGA_absent x rc hok']
    exact ⟨rfl, rfl⟩

/-- Storing one octet keeps the length short of the frame length, unless the
frame is complete. -/
theorem collect_LenOK (len : Nat) (data : Nat → Nat) (b : Nat) (h : LenOK len data)
    (hc : ¬ (len + 1 ≥ 2 ∧ len + 1 = 3 + (setAt data len b 1 &&& 0x0F))) :
    LenOK (len + 1) (setAt data len b) := by
  unfold LenOK at *
  by_cases h0 : len = 0
  · left; omega
  · right
    by_cases h1 : len = 1
    · subst h1
      omega
    · have e : setAt data len b 1 = data 1 := by
        unfold setAt
        rw [if_neg (by omega)]
      rw [e] at hc ⊢
      rcases h with h | h
      · omega
      · by_contra hcon
        apply hc
        constructor <;> omega

theorem collectCRX_crx (y : XPI) (b : Nat) (h : LenOK y.crxLen y.sCRX_data)
    (hc : ¬ ((y.collectCRX b).crxLen ≥ 2 ∧
      (y.collectCRX b).crxLen = 3 + ((y.collectCRX b).sCRX_data 1 &&& 0x0F))) :
    LenOK (y.collectCRX b).crxLen (y.collectCRX b).sCRX_data :=
  collect_LenOK _ _ _ h hc

theorem collectCTX_ctx (y : XPI) (b : Nat) (h : LenOK y.ctxLen y.sCTX_data)
    (hc : ¬ ((y.collectCTX b).ctxLen ≥ 2 ∧
      (y.collectCTX b).ctxLen = 3 + ((y.collectCTX b).sCTX_data 1 &&& 0x0F))) :
    LenOK (y.collectCTX b).ctxLen (y.collectCTX b).sCTX_data :=
  collect_LenOK _ _ _ h hc

theorem On_CRX_collect_crx (x : XPI) (b : Nat) (h : LenOK x.crxLen x.sCRX_data) :
    LenOK (x.On_CRX_collect b).crxLen (x.On_CRX_collect b).sCRX_data := by
  unfold XPI.On_CRX_collect
  simp only [crx_ite, (crx_frame _).1, (crx_frame _).2.1, (crx_frame _).2.2.1,
    (crx_frame _).2.2.2.1, (crx_frame _).2.2.2.2.1, (crx_frame _).2.2.2.2.2.1,
    (crx_frame _).2.2.2.2.2.2.1, (crx_frame _).2.2.2.2.2.2.2, LenOK_zero, ite_self]
  split_ifs with hc
  apply collect_LenOK _ _ _ h
  intro hcon
  rcases hc with hc | hc
  · have hc' : x.crxLen + 1 < 2 := hc
    omega
  · exact hc hcon.2

theorem On_CRX_crx (x : XPI) (b : Nat) (h : LenOK x.crxLen x.sCRX_data) :
    LenOK (x.On_CRX b).crxLen (x.On_CRX b).sCRX_data := by
  have hcol : ∀ y : XPI, LenOK y.crxLen y.sCRX_data →
      LenOK (y.On_CRX_collect b).crxLen (y.On_CRX_collect b).sCRX_data = True :=
    fun y hy => eq_true (On_CRX_collect_crx y b hy)
  have h0 : LenOK (({ x.MarkBoardActive true with crxLen := 0, crxCkSum := 0xFF } : XPI).FPGA_Write
        .XPI_W_PAGE_ADDR 0 |>.FPGA_Write .XPI_W_P0_IRQ_ENABLE XPI_IRQ_EIRQ |>.On_CRX_collect b).crxLen
      (({ x.MarkBoardActive true with crxLen := 0, crxCkSum := 0xFF } : XPI).FPGA_Write
        .XPI_W_PAGE_ADDR 0 |>.FPGA_Write .XPI_W_P0_IRQ_ENABLE XPI_IRQ_EIRQ |>.On_CRX_collect b).sCRX_data
        = True :=
    hcol _ (Or.inl (by simp [XPI.FPGA_Write]))
  unfold XPI.On_CRX
  simp only [crx_ite, (crx_frame _).1, (crx_frame _).2.1, (crx_frame _).2.2.1,
    (crx_frame _).2.2.2.1, (crx_frame _).2.2.2.2.1, (crx_frame _).2.2.2.2.2.1,
    (crx_frame _).2.2.2.2.2.2.1, (crx_frame _).2.2.2.2.2.2.2, PollNextBoard_crx, LenOK_zero,
    hcol x h, h0, eq_true h, ite_self]
  split_ifs
  all_goals first
    | trivial
    | exact collectCRX_crx _ _ h (by assumption)
    | exact collectCRX_crx _ _ (Or.inl (Nat.zero_le 1)) (by assumption)

theorem On_CRX_collect_ctx (x : XPI) (b : Nat) :
    LenOK (x.On_CRX_collect b).ctxLen (x.On_CRX_collect b).sCTX_data =
      LenOK x.ctxLen x.sCTX_data := by
  unfold XPI.On_CRX_collect
  simp only [ctx_ite, (ctx_frame _).1, (ctx_frame _).2.1, (ctx_frame _).2.2.1,
    (ctx_frame _).2.2.2.1, (ctx_frame _).2.2.2.2.1, (ctx_frame _).2.2.2.2.2.1,
    (ctx_frame _).2.2.2.2.2.2.1, (ctx_frame _).2.2.2.2.2.2.2, PollNextBoard_ctx,
    (ResetFPGA_len _ _).2, LenOK_zero, ite_self]

theorem On_CRX_ctx (x : XPI) (b : Nat) (h : LenOK x.ctxLen x.sCTX_data) :
    LenOK (x.On_CRX b).ctxLen (x.On_CRX b).sCTX_data := by
  unfold XPI.On_CRX
  simp only [ctx_ite, (ctx_frame _).1, (ctx_frame _).2.1, (ctx_frame _).2.2.1,
    (ctx_frame _).2.2.2.1, (ctx_frame _).2.2.2.2.1, (ctx_frame _).2.2.2.2.2.1,
    (ctx_frame _).2.2.2.2.2.2.1, (ctx_frame _).2.2.2.2.2.2.2, PollNextBoard_ctx,
    (ResetFPGA_len _ _).2, LenOK_zero, On_CRX_collect_ctx, eq_true h, ite_self]

theorem On_CTX_crx (x : XPI) (b : Nat) (h : LenOK x.crxLen x.sCRX_data) :
    LenOK (x.On_CTX b).crxLen (x.On_CTX b).sCRX_data := by
  unfold XPI.On_CTX
  simp only [crx_ite, (crx_frame _).1, (crx_frame _).2.1, (crx_frame _).2.2.1,
    (crx_frame _).2.2.2.1, (crx_frame _).2.2.2.2.1, (crx_frame _).2.2.2.2.2.1,
    (crx_frame _).2.2.2.2.2.2.1, (crx_frame _).2.2.2.2.2.2.2, PollNextBoard_crx,
    (ResetFPGA_len _ _).1, LenOK_zero, eq_true h, ite_self]

theorem On_CTX_ctx (x : XPI) (b : Nat) (h : LenOK x.ctxLen x.sCTX_data) :
    LenOK (x.On_CTX b).ctxLen (x.On_CTX b).sCTX_data := by
  unfold XPI.On_CTX
  simp only [ctx_ite, (ctx_frame _).1, (ctx_frame _).2.1, (ctx_frame _).2.2.1,
    (ctx_frame _).2.2.2.1, (ctx_frame _).2.2.2.2.1, (ctx_frame _).2.2.2.2.2.1,
    (ctx_frame _).2.2.2.2.2.2.1, (ctx_frame _).2.2.2.2.2.2.2, PollNextBoard_ctx,
    (ResetFPGA_len _ _).2, LenOK_zero, eq_true h, ite_self]
  split_ifs
  all_goals first
    | trivial
    | exact collectCTX_ctx _ _ h (by assumption)
    | exact collectCTX_ctx _ _ (Or.inl (Nat.zero_le 1)) (by assumption)

theorem On_CTXE_len (x : XPI) (h1 : LenOK x.crxLen x.sCRX_data) (h2 : LenOK x.ctxLen x.sCTX_data) :
    LenOK x.On_CTXE.crxLen x.On_CTXE.sCRX_data ∧ LenOK x.On_CTXE.ctxLen x.On_CTXE.sCTX_data := by
  unfold XPI.On_CTXE
  constructor
  · simp only [crx_ite, (crx_frame _).1, (crx_frame _).2.1, (crx_frame _).2.2.1,
    (crx_frame _).2.2.2.1, (crx_frame _).2.2.2.2.1, (crx_frame _).2.2.2.2.2.1,
    (crx_frame _).2.2.2.2.2.2.1, (crx_frame _).2.2.2.2.2.2.2, PollNextBoard_crx,
    (ResetFPGA_len _ _).1, LenOK_zero, eq_true h1, ite_self]
  · simp only [ctx_ite, (ctx_frame _).1, (ctx_frame _).2.1, (ctx_frame _).2.2.1,
    (ctx_frame _).2.2.2.1, (ctx_frame _).2.2.2.2.1, (ctx_frame _).2.2.2.2.2.1,
    (ctx_frame _).2.2.2.2.2.2.1, (ctx_frame _).2.2.2.2.2.2.2, PollNextBoard_ctx,
    (ResetFPGA_len _ _).2, LenOK_zero, eq_true h2, ite_self]

theorem On_EIRQ_len (x : XPI) (f : Nat) (h1 : LenOK x.crxLen x.sCRX_data)
    (h2 : LenOK x.ctxLen x.sCTX_data) :
    LenOK (x.On_EIRQ f).crxLen (x.On_EIRQ f).sCRX_data ∧
    LenOK (x.On_EIRQ f).ctxLen (x.On_EIRQ f).sCTX_data := by
  unfold XPI.On_EIRQ
  constructor
  · simp only [crx_ite, (crx_frame _).1, (crx_frame _).2.1, (crx_frame _).2.2.1,
    (crx_frame _).2.2.2.1, (crx_frame _).2.2.2.2.1, (crx_frame _).2.2.2.2.2.1,
    (crx_frame _).2.2.2.2.2.2.1, (crx_frame _).2.2.2.2.2.2.2, PollNextBoard_crx,
    (ResetFPGA_len _ _).1, LenOK_zero, eq_true h1, ite_self]
  · simp only [ctx_ite, (ctx_frame _).1, (ctx_frame _).2.1, (ctx_frame _).2.2.1,
    (ctx_frame _).2.2.2.1, (ctx_frame _).2.2.2.2.1, (ctx_frame _).2.2.2.2.2.1,
    (ctx_frame _).2.2.2.2.2.2.1, (ctx_frame _).2.2.2.2.2.2.2, PollNextBoard_ctx,
    (ResetFPGA_len _ _).2, LenOK_zero, eq_true h2, ite_self]

theorem StartTransmissionIfIdle_len (x : XPI) (h1 : LenOK x.crxLen x.sCRX_data)
    (h2 : LenOK x.ctxLen x.sCTX_data) :
    LenOK x.StartTransmissionIfIdle.crxLen x.StartTransmissionIfIdle.sCRX_data ∧
    LenOK x.StartTransmissionIfIdle.ctxLen x.StartTransmissionIfIdle.sCTX_data := by
  unfold XPI.StartTransmissionIfIdle
  constructor
  · simp only [writeCtx_eq, crx_ite, (crx_frame _).1, (crx_frame _).2.1, (crx_frame _).2.2.1,
    (crx_frame _).2.2.2.1, (crx_frame _).2.2.2.2.1, (crx_frame _).2.2.2.2.2.1,
    (crx_frame _).2.2.2.2.2.2.1, (crx_frame _).2.2.2.2.2.2.2, PollNextBoard_crx,
    (ResetFPGA_len _ _).1, LenOK_zero, eq_true h1, ite_self]
  · simp only [writeCtx_eq, ctx_ite, (ctx_frame _).1, (ctx_frame _).2.1, (ctx_frame _).2.2.1,
    (ctx_frame _).2.2.2.1, (ctx_frame _).2.2.2.2.1, (ctx_frame _).2.2.2.2.2.1,
    (ctx_frame _).2.2.2.2.2.2.1, (ctx_frame _).2.2.2.2.2.2.2, PollNextBoard_ctx,
    (ResetFPGA_len _ _).2, LenOK_zero, eq_true h2, ite_self]

theorem InitializeFPGA_len (x : XPI) (c f : Bool) (hw : InitReads)
    (h1 : LenOK x.crxLen x.sCRX_data) (h2 : LenOK x.ctxLen x.sCTX_data) :
    LenOK (x.InitializeFPGA c f hw).crxLen (x.InitializeFPGA c f hw).sCRX_data ∧
    LenOK (x.InitializeFPGA c f hw).ctxLen (x.InitializeFPGA c f hw).sCTX_data := by
  unfold XPI.InitializeFPGA
  constructor
  · simp only [crx_ite, (crx_frame _).1, (crx_frame _).2.1, (crx_frame _).2.2.1,
    (crx_frame _).2.2.2.1, (crx_frame _).2.2.2.2.1, (crx_frame _).2.2.2.2.2.1,
    (crx_frame _).2.2.2.2.2.2.1, (crx_frame _).2.2.2.2.2.2.2, PollNextBoard_crx,
    (ResetFPGA_len _ _).1, LenOK_zero, eq_true h1, ite_self]
  · simp only [ctx_ite, (ctx_frame _).1, (ctx_frame _).2.1, (ctx_frame _).2.2.1,
    (ctx_frame _).2.2.2.1, (ctx_frame _).2.2.2.2.1, (ctx_frame _).2.2.2.2.2.1,
    (ctx_frame _).2.2.2.2.2.2.1, (ctx_frame _).2.2.2.2.2.2.2, PollNextBoard_ctx,
    (ResetFPGA_len _ _).2, LenOK_zero, eq_true h2, ite_self]

theorem On_Timer_len (x : XPI) (rc : Int) (h1 : LenOK x.crxLen x.sCRX_data)
    (h2 : LenOK x.ctxLen x.sCTX_data) :
    LenOK (x.On_Timer rc).crxLen (x.On_Timer rc).sCRX_data ∧
    LenOK (x.On_Timer rc).ctxLen (x.On_Timer rc).sCTX_data := by
  unfold XPI.On_Timer
  constructor
  · simp only [crx_ite, (crx_frame _).1, (crx_frame _).2.1, (crx_frame _).2.2.1,
    (crx_frame _).2.2.2.1, (crx_frame _).2.2.2.2.1, (crx_frame _).2.2.2.2.2.1,
    (crx_frame _).2.2.2.2.2.2.1, (crx_frame _).2.2.2.2.2.2.2, PollNextBoard_crx,
    (ResetFPGA_len _ _).1, LenOK_zero, eq_true h1, ite_self]
  · simp only [ctx_ite, (ctx_frame _).1, (ctx_frame _).2.1, (ctx_frame _).2.2.1,
    (ctx_frame _).2.2.2.1, (ctx_frame _).2.2.2.2.1, (ctx_frame _).2.2.2.2.2.1,
    (ctx_frame _).2.2.2.2.2.2.1, (ctx_frame _).2.2.2.2.2.2.2, PollNextBoard_ctx,
    (ResetFPGA_len _ _).2, LenOK_zero, eq_true h2, ite_self]

theorem step_len (x : XPI) (ev : Event) (h1 : LenOK x.crxLen x.sCRX_data)
    (h2 : LenOK x.ctxLen x.sCTX_data) :
    LenOK (x.step ev).crxLen (x.step ev).sCRX_data ∧
    LenOK (x.step ev).ctxLen (x.step ev).sCTX_data := by
  cases ev with
  | InitializeFPGA c f hw => exact InitializeFPGA_len x c f hw h1 h2
  | ResetFPGA rc =>
    exact ⟨by rw [XPI.step, (ResetFPGA_len x rc).1]; exact h1,
      by rw [XPI.step, (ResetFPGA_len x rc).2]; exact h2⟩
  | StartTransmissionIfIdle => exact StartTransmissionIfIdle_len x h1 h2
  | On_Timer rc => exact On_Timer_len x rc h1 h2
  | On_CTXE => exact On_CTXE_len x h1 h2
  | On_CTX b => exact ⟨On_CTX_crx x _ h1, On_CTX_ctx x _ h2⟩
  | On_CRX b => exact ⟨On_CRX_crx _ _ h1, On_CRX_ctx _ _ h2⟩
  | On_EIRQ b => exact On_EIRQ_len x _ h1 h2
  | On_FC a b => exact ⟨h1, h2⟩
  | tick n => exact ⟨h1, h2⟩
  | SetTraceMask m => exact ⟨h1, h2⟩
  | queue q => exact ⟨h1, h2⟩

theorem Reachable_len (x : XPI) (h : Reachable x) :
    LenOK x.crxLen x.sCRX_data ∧ LenOK x.ctxLen x.sCTX_data := by
  obtain ⟨evs, rfl⟩ := h
  have key : ∀ (evs : List Event) (y : XPI),
      LenOK y.crxLen y.sCRX_data ∧ LenOK y.ctxLen y.sCTX_data →
      LenOK (y.runEvents evs).crxLen (y.runEvents evs).sCRX_data ∧
      LenOK (y.runEvents evs).ctxLen (y.runEvents evs).sCTX_data := by
    intro evs
    induction evs with
    | nil => intro y hy; exact hy
    | cons ev evs ih => intro y hy; exact ih _ (step_len y ev hy.1 hy.2)
  exact key evs _ ⟨Or.inl (Nat.zero_le 1), Or.inl (Nat.zero_le 1)⟩

/-! ## Lemmas on the dispatcher loop, the resend step and the poll-list bits -/

theorem irqLoop_reads (reads : Nat → IrqReads) :
    ∀ (n k : Nat) (x : XPI),
      (XPI.irqLoop n reads k x).2.2 ≤ k + n ∧
      ((∀ j, j < n → (reads (k + j)).irq_list % 256 ≠ 0) →
        (XPI.irqLoop n reads k x).2.1 = -1 ∧ (XPI.irqLoop n reads k x).2.2 = k + n) ∧
      (∀ j, j < n → (reads (k + j)).irq_list % 256 = 0 →
        (∀ i, i < j → (reads (k + i)).irq_list % 256 ≠ 0) →
        0 ≤ (XPI.irqLoop n reads k x).2.1 ∧ (XPI.irqLoop n reads k x).2.2 = k + j + 1) := by
  intro n
  induction n with
  | zero =>
    intro k x
    refine ⟨by simp [XPI.irqLoop], fun _ => by simp [XPI.irqLoop], ?_⟩
    intro j hj
    omega
  | succ n ih =>
    intro k x
    by_cases h0 : (reads k).irq_list % 256 = 0
    · have e : XPI.irqLoop (n + 1) reads k x =
          ((x.StartTransmissionIfIdle).FPGA_Write .XPI_W_PAGE_ADDR 0, (n : Int), k + 1) := by
        simp [XPI.irqLoop, h0]
      rw [e]
      refine ⟨by simp only; omega, ?_, ?_⟩
      · intro hall
        exact absurd h0 (by simpa using hall 0 (by omega))
      · intro j hj hz hbefore
        have hj0 : j = 0 := by
          by_contra hne
          have := hbefore 0 (by omega)
          simp only [Nat.add_zero] at this
          exact this h0
        subst hj0
        exact ⟨by simp only; omega, rfl⟩
    · have e : XPI.irqLoop (n + 1) reads k x =
          XPI.irqLoop n reads (k + 1)
            (((x.StartTransmissionIfIdle).FPGA_Write .XPI_W_PAGE_ADDR 0).dispatch (reads k)) := by
        simp [XPI.irqLoop, h0]
      rw [e]
      obtain ⟨i1, i2, i3⟩ := ih (k + 1)
        (((x.StartTransmissionIfIdle).FPGA_Write .XPI_W_PAGE_ADDR 0).dispatch (reads k))
      refine ⟨by omega, ?_, ?_⟩
      · intro hall
        have := i2 (fun j hj => by
          have := hall (j + 1) (by omega)
          rwa [show k + (j + 1) = k + 1 + j from by omega] at this)
        exact ⟨this.1, by rw [this.2]; omega⟩
      · intro j hj hz hbefore
        cases j with
        | zero => exact absurd hz (by simpa using h0)
        | succ j =>
          have := i3 j (by omega)
            (by rwa [show k + (j + 1) = k + 1 + j from by omega] at hz)
            (fun i hi => by
              have := hbefore (i + 1) (by omega)
              rwa [show k + (i + 1) = k + 1 + i from by omega] at this)
          exact ⟨this.1, by rw [this.2]; omega⟩

theorem or_xor_bit5 (v : Nat) (h : v &&& 0xE0 = 0xC0) : (v ||| 32) ^^^ 32 = v := by
  have h5 : v.testBit 5 = false := by
    have : (v &&& 0xE0).testBit 5 = false := by rw [h]; decide
    rw [Nat.testBit_and] at this
    have e : Nat.testBit 0xE0 5 = true := by decide
    rw [e, Bool.and_true] at this
    exact this
  apply Nat.eq_of_testBit_eq
  intro i
  rw [Nat.testBit_xor, Nat.testBit_or]
  by_cases hi : i = 5
  · subst hi
    have e : Nat.testBit 32 5 = true := by decide
    rw [e, h5]
    rfl
  · have e : Nat.testBit 32 i = false := by
      have : (32 : Nat) = 2 ^ 5 := by norm_num
      rw [this, Nat.testBit_two_pow]
      simp
      omega
    rw [e]
    simp

theorem resendFlip_one (mem : Nat → Nat) (p : Nat) (hp : p < 2 ^ 32)
    (h : mem p &&& 0xE0 = 0xC0) : resendFlip mem p 1 = mem := by
  funext j
  unfold resendFlip
  have e1 : (p + 1 + 2 ^ 32 - 1) % 2 ^ 32 = p := by omega
  have e2 : (1 : Nat) <<< ((5 + 1 + 2 ^ 32 - 1) % 2 ^ 32 &&& 0x07) = 32 := by decide
  simp only [e1, e2]
  by_cases hj : j = p
  · subst hj
    simp [setAt, or_xor_bit5 _ h]
  · simp [setAt, hj]

theorem deliverLoop_one_octet_sentinel :
    ∀ (n retry : Nat) (x : XPI) (att : List (List Nat)), retry < 2 → x.pRead < 2 ^ 32 →
      x.buf x.pRead &&& 0xE0 = 0xC0 →
      XPI.deliverLoop 1 (List.replicate n 0) retry x att = none := by
  intro n
  induction n with
  | zero =>
    intro retry x att hr _ _
    simp [XPI.deliverLoop, hr]
  | succ n ih =>
    intro retry x att hr hp hs
    rw [List.replicate_succ]
    simp only [XPI.deliverLoop, hr, if_true, hs, ne_eq, not_true_eq_false, if_false]
    rw [resendFlip_one _ _ hp hs]
    exact ih _ _ _ (by decide) hp hs

theorem or_bit5_not_sentinel (v : Nat) : (v ||| (1 <<< 5)) &&& 0xE0 ≠ 0xC0 := by
  intro h
  have h5 : ((v ||| (1 <<< 5)) &&& 0xE0).testBit 5 = true := by
    rw [Nat.testBit_and, Nat.testBit_or]
    have e1 : Nat.testBit (1 <<< 5) 5 = true := by decide
    have e2 : Nat.testBit 0xE0 5 = true := by decide
    rw [e1, e2, Bool.or_true, Bool.and_true]
  rw [h] at h5
  exact absurd h5 (by decide)

theorem resendFlip_first (mem : Nat → Nat) (p len : Nat) (hlen : 2 ≤ len) (hlt : len < 2 ^ 32) :
    resendFlip mem p len p &&& 0xE0 ≠ 0xC0 := by
  have hne : p ≠ (p + len + 2 ^ 32 - 1) % 2 ^ 32 := by omega
  have e : resendFlip mem p len p = mem p ||| (1 <<< 5) := by
    simp only [resendFlip]
    rw [setAt_ne _ _ _ _ hne, setAt_same]
  rw [e]
  exact or_bit5_not_sentinel _

theorem deliverLoop_attempts_bound (len : Nat) (hlen : 2 ≤ len) (hlt : len < 2 ^ 32) :
    ∀ (sts : List Int) (retry : Nat) (x : XPI) (att : List (List Nat)) (y : XPI)
      (att' : List (List Nat)),
      XPI.deliverLoop len sts retry x att = some (y, att') →
      att'.length ≤ att.length +
        (if 2 ≤ retry then 0
         else if x.buf x.pRead &&& 0xE0 ≠ 0xC0 then 2 - retry else 3 - retry) := by
  intro sts
  induction sts with
  | nil =>
    intro retry x att y att' h
    by_cases hr : retry < 2
    · simp [XPI.deliverLoop, hr] at h
    · simp only [XPI.deliverLoop, hr, if_false, Option.some.injEq, Prod.mk.injEq] at h
      rw [← h.2]
      omega
  | cons s rest ih =>
    intro retry x att y att' h
    by_cases hr : retry < 2
    · have hr' : ¬ 2 ≤ retry := by omega
      rw [if_neg hr']
      by_cases hs : s = 0
      · by_cases hc : x.buf x.pRead &&& 0xE0 = 0xC0
        · simp only [XPI.deliverLoop, hr, if_true, hs, hc, ne_eq, not_true_eq_false,
            if_false] at h
          have := ih _ _ _ _ _ h
          have hf := resendFlip_first x.buf x.pRead len hlen hlt
          simp only [show ¬ 2 ≤ 0 + 1 from by omega, if_false, ne_eq, hf, not_false_eq_true,
            if_true, List.length_append, List.length_singleton] at this
          simp only [ne_eq, hc, not_true_eq_false, if_false]
          omega
        · simp only [XPI.deliverLoop, hr, if_true, hs, hc, ne_eq, not_false_eq_true,
            Option.some.injEq, Prod.mk.injEq] at h
          rw [← h.2]
          simp only [ne_eq, hc, not_false_eq_true, if_true, List.length_append,
            List.length_singleton]
          omega
      · simp only [XPI.deliverLoop, hr, if_true, hs, if_false] at h
        have := ih _ _ _ _ _ h
        simp only [XPI.tracef, List.length_append, List.length_singleton] at this
        by_cases hc : x.buf x.pRead &&& 0xE0 = 0xC0
        · simp only [ne_eq, hc, not_true_eq_false, if_false] at this ⊢
          split_ifs at this <;> omega
        · simp only [ne_eq, hc, not_false_eq_true, if_true] at this ⊢
          split_ifs at this <;> omega
    · rw [deliverLoop_done _ _ _ _ _ (by omega)] at h
      simp only [Option.some.injEq, Prod.mk.injEq] at h
      rw [← h.2]
      omega

theorem Transmitter_at_most_three_attempts (x : XPI) (sts : List Int) (x' : XPI) (r : TxResult)
    (hrun : x.Transmitter sts = some (x', r)) (hlen : 2 ≤ r.len) :
    r.attempts.length ≤ 3 := by
  unfold XPI.Transmitter at hrun
  by_cases h1 : x.semaEmpty < 2
  · simp [h1] at hrun
  · by_cases h2 : x.semaEmpty - 2 < (x.buf x.pRead <<< 8 ||| x.buf (x.pRead + 1))
    · simp [h1, h2] at hrun
    · simp only [h1, h2, if_false] at hrun
      by_cases hm : x.isMCPU = true
      · rw [if_pos hm] at hrun
        split at hrun
        · exact absurd hrun (by simp)
        · rename_i z att hdel
          simp only [Option.some.injEq, Prod.mk.injEq] at hrun
          obtain ⟨-, rfl⟩ := hrun
          simp only at hlen ⊢
          unfold XPI.deliver at hdel
          split at hdel
          · exact absurd hdel (by simp)
          · rename_i w att' hloop
            have hb := deliverLoop_attempts_bound _ hlen (Nat.mod_lt _ (by decide)) _ _ _ _ _ _
              hloop
            have e : att = att' := by
              split_ifs at hdel <;>
                · simp only [Option.some.injEq, Prod.mk.injEq] at hdel
                  exact hdel.2.symm
            rw [e]
            simp only [List.length_nil, Nat.zero_add] at hb
            split_ifs at hb <;> omega
      · rw [if_neg hm] at hrun
        simp only [Option.some.injEq, Prod.mk.injEq] at hrun
        obtain ⟨-, rfl⟩ := hrun
        simp

theorem or_80_flagged (v : Nat) : (v ||| 0x80) &&& 0x80 ≠ 0 := by
  intro h
  have h7 : ((v ||| 0x80) &&& 0x80).testBit 7 = true := by
    rw [Nat.testBit_and, Nat.testBit_or]
    have : Nat.testBit 0x80 7 = true := by decide
    simp [this]
  rw [h] at h7
  simp at h7

theorem or_80_low (v : Nat) : (v ||| 0x80) &&& 0x7F = v &&& 0x7F := by
  rw [Nat.and_distrib_right]
  have : 0x80 &&& 0x7F = 0 := by decide
  rw [this, Nat.or_zero]

theorem and_7F_low (v : Nat) : (v &&& 0x7F) &&& 0x7F = v &&& 0x7F := by
  rw [Nat.and_assoc, Nat.and_self]

theorem map_getD_range (l : List Nat) :
    (List.range l.length).map (fun i => l.getD i 0) = l := by
  apply List.ext_getElem
  · simp
  · intro i h1 h2
    simp [List.getElem?_eq_getElem h2]

theorem frameAt_split (mem : Nat → Nat) (a n k : Nat) (h : k ≤ n) :
    frameAt mem a n = frameAt mem a k ++ frameAt mem (a + k) (n - k) := by
  apply List.ext_getElem
  · simp [frameAt_length]
    omega
  · intro i h1 h2
    simp only [frameAt_length] at h1
    by_cases hi : i < k
    · rw [List.getElem_append_left (by simpa [frameAt_length] using hi)]
      simp [frameAt]
    · rw [List.getElem_append_right (by simpa [frameAt_length] using hi)]
      simp [frameAt, frameAt_length]
      congr 1
      omega

/-! ## Claims -/

/-- C1: the checksum accumulated over a byte sequence followed by its own
accumulated value is `0`; and when a frame accumulates to `0`, every frame that
differs from it in exactly one byte position accumulates to a nonzero value. -/
theorem checksum_detects_single_byte_error :
    (∀ s : List Nat, acc (s ++ [acc s]) = 0) ∧
    (∀ f f' : List Nat, (∀ b ∈ f, b < 256) → (∀ b ∈ f', b < 256) → acc f = 0 →
      DiffersInOneByte f f' → acc f' ≠ 0) := by
  refine ⟨acc_append_self, ?_⟩
  intro f f' hf hf' h0 hd h0'
  exact foldl_ckUpdate_one_byte_ne f f' hf hf' hd 0xFF (by decide) (h0.trans h0'.symm)

/-- Witness of C1 on the frame `81 02 01 02 f7` and its corruption `81 02 09 02 f7`. -/
theorem checksum_detects_single_byte_error_witness :
    acc ([0x81, 0x02, 0x01, 0x02] ++ [acc [0x81, 0x02, 0x01, 0x02]]) = 0 ∧
    acc [0x81, 0x02, 0x09, 0x02, 0xF7] ≠ 0 :=
  ⟨checksum_detects_single_byte_error.1 [0x81, 0x02, 0x01, 0x02],
   checksum_detects_single_byte_error.2 [0x81, 0x02, 0x01, 0x02, 0xF7]
     [0x81, 0x02, 0x09, 0x02, 0xF7] (by decide) (by decide) (by decide)
     ⟨by decide, 2, by decide, by decide, by decide⟩⟩

/-- C2: for an accumulator `c` and a received byte `b`, both in `0..255`, the
checksum update coded in `On_CRX` and in `On_CTX` yields `rotl8 (c XOR b) 1`, a
value again in `0..255`.  This is the value that the statements which store the
byte leave in `crxCkSum` (`collectCRX`) and in `ctxCkSum` (`collectCTX`), and the
value that `On_CRX` and `On_CTX` themselves leave there for an octet in the middle
of a frame: `j >= 1` octets are collected, the frame is not complete with this
octet and its first octet is not a single-octet message (an acknowledge for
`On_CRX` in passive role and for `On_CTX`; for `On_CTX` also a poll octet in
master role or, in passive role with a poll sweep pending, the sentinel `c0`). -/
theorem checksum_update_is_rotl8 (c b : Nat) (hc : c < 256) (hb : b < 256) :
    ckUpdate c b = rotl8 (c ^^^ b) 1 ∧ ckUpdate c b < 256 ∧
    (∀ x : XPI, x.crxCkSum = c → (x.collectCRX b).crxCkSum = rotl8 (c ^^^ b) 1) ∧
    (∀ x : XPI, x.ctxCkSum = c → (x.collectCTX b).ctxCkSum = rotl8 (c ^^^ b) 1) ∧
    (∀ (x : XPI) (j : Nat), x.crxCkSum = c → x.state = .RECEIVE_CRX → x.crxLen = j → 1 ≤ j →
      j + 1 ≠ 3 + ((if j = 1 then b else x.sCRX_data 1) &&& 0x0F) →
      (x.isMCPU = false → x.sCRX_data 0 &&& 0xC0 ≠ 0x40) →
      (x.On_CRX b).crxCkSum = rotl8 (c ^^^ b) 1) ∧
    (∀ (x : XPI) (j : Nat), x.ctxCkSum = c → x.ctxLen = j → 1 ≤ j → j + 1 ≤ 18 →
      j + 1 ≠ 3 + ((if j = 1 then b else x.sCTX_data 1) &&& 0x0F) →
      x.sCTX_data 0 &&& 0xC0 ≠ 0x40 →
      ((x.isMCPU = true ∧
          (x.state = .IDLE ∨ x.state = .WAIT_ACK ∨ x.state = .WAIT_CTXE ∨
            x.state = .WAIT_SENT ∨ x.state = .BLOCKED_SEND) ∧
          x.sCTX_data 0 ≠ 0xC0 ∧ x.sCTX_data 0 &&& 0xC0 ≠ 0x00) ∨
        (x.isMCPU = false ∧ x.state = .RECEIVE_CTX ∧
          ¬ (x.isEIRQ = true ∧ x.sCTX_data 0 = 0xC0))) →
      (x.On_CTX b).ctxCkSum = rotl8 (c ^^^ b) 1) := by
  have h := ckUpdate_zero_table _ (xor_lt_256 hc hb)
  rw [← ckUpdate_zero_left] at h
  refine ⟨h.1, h.2.1, ?_, ?_, ?_, ?_⟩
  · intro x hx
    simp [XPI.collectCRX, setAt, hx, Nat.mod_eq_of_lt hb, h.1]
  · intro x hx
    simp [XPI.collectCTX, setAt, hx, Nat.mod_eq_of_lt hb, h.1]
  · intro x j hx hs hl hj hmore hcl
    rw [(On_CRX_mid x b j _ hb hs hl hj rfl hmore hcl).2.2.2.1, hx, h.1]
  · intro x j hx hl hj h18 hmore hcl hst
    rw [(On_CTX_mid x b j _ hb hl hj rfl hmore h18 hcl hst).2.2, hx, h.1]

/-- Witness of C2 at `c = 0xFF`, `b = 0x81`, with the second octet `02` of a
frame on either channel in passive role. -/
theorem checksum_update_is_rotl8_witness :
    ckUpdate 0xFF 0x81 = rotl8 (0xFF ^^^ 0x81) 1 ∧ ckUpdate 0xFF 0x81 < 256 ∧
    (exampleCrxOneOctet.On_CRX 0x02).crxCkSum = rotl8 (0xFC ^^^ 0x02) 1 ∧
    (exampleCtxOneOctet.On_CTX 0x02).ctxCkSum = rotl8 (0xFC ^^^ 0x02) 1 :=
  ⟨(checksum_update_is_rotl8 0xFF 0x81 (by decide) (by decide)).1,
   (checksum_update_is_rotl8 0xFF 0x81 (by decide) (by decide)).2.1,
   (checksum_update_is_rotl8 0xFC 0x02 (by decide) (by decide)).2.2.2.2.1 exampleCrxOneOctet 1
     (by decide) (by decide) (by decide) (by decide) (by decide) (by decide),
   (checksum_update_is_rotl8 0xFC 0x02 (by decide) (by decide)).2.2.2.2.2 exampleCtxOneOctet 1
     (by decide) (by decide) (by decide) (by decide) (by decide) (by decide)
     (Or.inr (by decide))⟩

/-- C3: in every sequence of `Put` and `Transmitter` calls on the queue of the
freshly constructed engine (the role flag may change between calls, the delivery
attempts may complete with any statuses) in which every `Put` succeeds and every
message has between 2 and 20 octets, the k-th `Transmitter` call decodes the
length, the request id (first two message octets, most significant first) and the
remaining frame octets of exactly the k-th message that was `Put`; this includes
the messages stored across the end of the 4096-octet ring.  The calls do return:
in passive role a `Transmitter` call returns whenever a message is still queued,
and a `Put` of at most 20 octets stays inside `buf` and returns. -/
theorem queue_delivers_in_fifo_order (ops : List Op) (x : XPI) (evs : List Ev)
    (hlens : ∀ m ∈ putMsgs ops, 2 ≤ m.length ∧ m.length ≤ 20)
    (hrun : XPI.init.run ops = some (x, evs))
    (hok : ∀ ok ∈ putFlags evs, ok = true) :
    List.Forall₂
      (fun (r : TxResult) (m : List Nat) =>
        r.len + 2 = m.length ∧ r.requestID = (m.getD 0 0 <<< 8 ||| m.getD 1 0) ∧
        r.frame = m.drop 2)
      (sentResults evs) ((putMsgs ops).take (sentResults evs).length) ∧
    (x.isMCPU = false → (sentResults evs).length < (putMsgs ops).length →
      ∀ sts : List Int, ∃ x' r, x.Transmitter sts = some (x', r)) ∧
    (∀ (data : Nat → Nat) (len t : Nat), len ≤ 20 →
      ∃ ok y, x.Put data len t = some (ok, y)) := by
  have hl : ∀ m ∈ putMsgs ops, 2 ≤ m.length := fun m hm => (hlens m hm).1
  obtain ⟨hinv, h⟩ := run_simulates_fifo ops XPI.init [] x evs QueueInv_init hl hrun hok
  rw [List.nil_append] at h hinv
  refine ⟨?_, ?_, ?_⟩
  · refine List.Forall₂.imp ?_ h
    rintro r m ⟨h1, h2, h3, -⟩
    exact ⟨h1, h2, h3⟩
  · intro hm hk sts
    cases hq : (putMsgs ops).drop (sentResults evs).length with
    | nil =>
      have := congrArg List.length hq
      simp at this
      omega
    | cons m q' =>
      rw [hq] at hinv
      exact Transmitter_returns_passive x m q' sts hinv hm
  · intro data len t hlen
    have hfull := hinv.full_eq
    have hemp := hinv.empty_eq
    obtain ⟨hpw, -⟩ := Layout_end x.buf x.pWrite _ x.pRead hinv.layout hinv.pRead_lt
      (fun m hm => by have := msgSpace_mem _ m hm; omega)
    exact Put_defined x data len t hpw (by omega)

/-- Witness of C3 on `exampleOps`: the two queued messages come out in order. -/
theorem queue_delivers_in_fifo_order_witness :
    List.Forall₂
      (fun (r : TxResult) (m : List Nat) =>
        r.len + 2 = m.length ∧ r.requestID = (m.getD 0 0 <<< 8 ||| m.getD 1 0) ∧
        r.frame = m.drop 2)
      [{ len := 3, requestID := 0x8182, frame := [0x83, 0x84, 0x85],
         attempts := [[0x83, 0x84, 0x85]], released := 7 },
       { len := 2, requestID := 0x1122, frame := [0x33, 0x44],
         attempts := [[0x33, 0x44], [0x33, 0x44]], released := 6 }]
      [[0x81, 0x82, 0x83, 0x84, 0x85], [0x11, 0x22, 0x33, 0x44]] :=
  (queue_delivers_in_fifo_order exampleOps _ _ (by decide) rfl (by decide)).1

set_option maxRecDepth 100000 in
/-- C4, the claim as stated fails for a message of one octet: in master role
the messages of 1, 197 and 30 octets are `Put` (they take 3, 199 and 32 of the
free space) and the deliveries complete with status 0; the second `Transmitter`
call gives back 231 and not the 199 of the matching `Put`, because the resend
step of the first call has set bit 5 in the length header of the second message. -/
theorem queue_release_differs_for_one_octet_message :
    (putMsgs exampleShortOps).map (fun m => m.length + 2) = [3, 199, 32] ∧
    (XPI.init.run exampleShortOps).map
        (fun r => (putFlags r.2, (sentResults r.2).map (fun t => t.released))) =
      some ([true, true, true], [3, 231]) := by
  decide

/-- C4, amended: after every sequence of `Put` and `Transmitter` calls from the
freshly constructed engine, free-space count + bytes-available count = 4096, so
the octets in flight never exceed the capacity; a successful `Put( len )` takes
`len + 2` from the free-space count; and, every message having at least the 2
octets of the request id and every `Put` having succeeded with its octets stored
inside `buf`, the bytes-available count is the space of the messages not yet
transmitted and each further `Transmitter` call gives back to the free-space
count exactly the `len + 2` of the matching `Put` (the k-th message for the k-th
call), in either role and whatever statuses the delivery attempts complete with. -/
theorem queue_space_is_conserved :
    (∀ (ops : List Op) (x : XPI) (evs : List Ev), XPI.init.run ops = some (x, evs) →
      x.semaFull + x.semaEmpty = XPI_XMTR_BUF_SIZE ∧ x.semaEmpty ≤ XPI_XMTR_BUF_SIZE) ∧
    (∀ (x : XPI) (data : Nat → Nat) (len t : Nat) (y : XPI),
      x.Put data len t = some (true, y) → y.semaFull + (len + 2) = x.semaFull) ∧
    (∀ (ops : List Op) (x : XPI) (evs : List Ev),
      (∀ m ∈ putMsgs ops, 2 ≤ m.length) →
      XPI.init.run ops = some (x, evs) → (∀ ok ∈ putFlags evs, ok = true) →
      x.semaEmpty = msgSpace ((putMsgs ops).drop (sentResults evs).length) ∧
      ∀ (sts : List Int) (x' : XPI) (r : TxResult), x.Transmitter sts = some (x', r) →
        ∃ m, (putMsgs ops)[(sentResults evs).length]? = some m ∧
          r.released = m.length + 2 ∧ x'.semaFull = x.semaFull + (m.length + 2) ∧
          x'.semaFull + x'.semaEmpty = XPI_XMTR_BUF_SIZE) := by
  refine ⟨?_, ?_, ?_⟩
  · intro ops x evs hrun
    have h := run_sum ops XPI.init x evs rfl hrun
    exact ⟨h, by omega⟩
  · intro x data len t y hput
    obtain ⟨hroom, -, rfl⟩ := Put_true x data len t y hput
    dsimp only
    omega
  · intro ops x evs hlens hrun hok
    obtain ⟨hinv, -⟩ := run_simulates_fifo ops XPI.init [] x evs QueueInv_init hlens hrun hok
    rw [List.nil_append] at hinv
    refine ⟨hinv.empty_eq, ?_⟩
    intro sts x' r htx
    cases hq : (putMsgs ops).drop (sentResults evs).length with
    | nil =>
      rw [hq] at hinv
      rw [Transmitter_blocks_on_empty x sts hinv] at htx
      exact absurd htx (by simp)
    | cons m q' =>
      rw [hq] at hinv
      obtain ⟨hinv', -, -, -, d4, d5, -⟩ := Transmitter_step x m q' sts x' r hinv htx
      refine ⟨m, ?_, d4, d5, hinv'.full_eq⟩
      have := congrArg List.head? hq
      simpa [List.head?_drop] using this

/-- Witness of the amended C4 on `exampleOpsMid`, followed by the transmission of
the second message with a first attempt that fails. -/
theorem queue_space_is_conserved_witness :
    (exampleMid.semaFull + exampleMid.semaEmpty = XPI_XMTR_BUF_SIZE ∧
      exampleMid.semaEmpty ≤ XPI_XMTR_BUF_SIZE) ∧
    exampleMid.semaEmpty = msgSpace ((putMsgs exampleOpsMid).drop 1) ∧
    (∃ m, (putMsgs exampleOpsMid)[1]? = some m ∧ 6 = m.length + 2 ∧
      4096 = exampleMid.semaFull + (m.length + 2) ∧ 4096 + 0 = XPI_XMTR_BUF_SIZE) :=
  ⟨queue_space_is_conserved.1 exampleOpsMid exampleMid _ rfl,
   (queue_space_is_conserved.2.2 exampleOpsMid exampleMid _ (by decide) rfl (by decide)).1,
   (queue_space_is_conserved.2.2 exampleOpsMid exampleMid _ (by decide) rfl (by decide)).2
     [3, 0] _ _ rfl⟩

/-- C5, the claim as stated fails for a length whose `len + 2` is not a positive
signed 32-bit value: `semaFull.Wait( len + 2, ... )` takes `len + 2` as a `uint`
and compares the item count with it as a signed value.  For `len = 0xFFFFFFFE`
(`len + 2` wraps to `0`) and for `len = 0x7FFFFFFE` (`len + 2` is negative as a
signed value) the 4096 octets of free space of the empty queue are fewer than
`len + 2`, but the wait is passed and `Put` does not return false: it goes on to
write the header and the data, past the end of `buf`. -/
theorem Put_passes_wait_for_wrapped_length :
    (XPI.init.semaFull < 0xFFFFFFFE + 2 ∧
      ¬ semaWaitFails XPI.init.semaFull ((0xFFFFFFFE + 2) % 2 ^ 32) ∧
      (XPI.init.Put (fun _ => 0) 0xFFFFFFFE 100).isNone = true) ∧
    (XPI.init.semaFull < 0x7FFFFFFE + 2 ∧
      ¬ semaWaitFails XPI.init.semaFull ((0x7FFFFFFE + 2) % 2 ^ 32) ∧
      (XPI.init.Put (fun _ => 0) 0x7FFFFFFE 100).isNone = true) := by
  decide

/-- C5, amended: for a length with `len + 2 < 2 ^ 31` (every length that a
message held in memory can have), when fewer than `len + 2` items of free space
are available, `Put` returns false and leaves the write cursor, the buffer and
both semaphore counts as they were; it hands exactly one flow-control record
(subtype `0x77`, payload the first two octets of the data) to `usbOut` when the
timeout is nonzero and no record when the timeout is `0`. -/
theorem Put_full_reports_flow_control (x : XPI) (data : Nat → Nat) (len xTicksToWait : Nat)
    (hlen : len + 2 < 2 ^ 31) (hfull : x.semaFull < len + 2) :
    ∃ y, x.Put data len xTicksToWait = some (false, y) ∧
      y.pWrite = x.pWrite ∧ y.buf = x.buf ∧
      y.semaFull = x.semaFull ∧ y.semaEmpty = x.semaEmpty ∧
      y.usbOut =
        x.usbOut ++
          (if xTicksToWait ≠ 0 then
            [{ type := XPI_IMSG_FLOW_CTRL, subtype := 0x77, data := [data 0, data 1] }]
           else []) := by
  have hw := Put_wait_fails x.semaFull len hlen hfull
  by_cases ht : xTicksToWait = 0
  · refine ⟨x, ?_, rfl, rfl, rfl, rfl, by simp [ht]⟩
    unfold XPI.Put
    rw [if_pos hw]
    simp [ht]
  · refine ⟨x.usbOutPut (flowCtrlFull data), ?_, rfl, rfl, rfl, rfl,
      by simp [ht, XPI.usbOutPut, flowCtrlFull]⟩
    unfold XPI.Put
    rw [if_pos hw, if_pos ht]

/-- Witness of the amended C5: a message of 4095 octets offered to the empty
queue, whose free space is 4096. -/
theorem Put_full_reports_flow_control_witness :
    ∃ y, XPI.init.Put (fun i => i + 1) 4095 100 = some (false, y) ∧
      y.pWrite = XPI.init.pWrite ∧ y.buf = XPI.init.buf ∧
      y.semaFull = XPI.init.semaFull ∧ y.semaEmpty = XPI.init.semaEmpty ∧
      y.usbOut =
        XPI.init.usbOut ++
          (if 100 ≠ 0 then
            [{ type := XPI_IMSG_FLOW_CTRL, subtype := 0x77,
               data := [(fun i => i + 1) 0, (fun i => i + 1) 1] }]
           else []) :=
  Put_full_reports_flow_control XPI.init (fun i => i + 1) 4095 100 (by decide) (by decide)

/-- C6: let `f` be a byte sequence of length `3 + n` whose second octet has low
nibble `n` (so `n` is in `0..15`), fed one octet per call to `On_CRX` from a state
in which its first octet starts a new frame: passive role in `IDLE` with a first
octet not of class `01`, or master role in `POLL_EIRQ` with the cursor on the board
whose id is the low 6 bits of the first octet and a first octet of class `10` or
`11`.  Then no telemetry record is handed to `usbOut` during the first `2 + n`
octets, the last octet hands over exactly one, the frame record with exactly the
octets of `f` and subtype `0` when the checksum accumulates to `0` and `1`
otherwise, and afterwards the reassembly context is empty (`crxLen = 0`,
`crxCkSum = 0xFF`).  Telemetry records are the records other than the text lines
of `tracef`: in master role the first and the last octet may also print text
lines (a board marked active, the list rearranged, the acknowledge not sent),
which go out as `XPI_IMSG_LOG` records.  In passive role nothing else at all is
handed to `usbOut`, and in either role the octets after the first and before the
last hand over nothing at all. -/
theorem On_CRX_emits_one_record_per_frame (x : XPI) (f : List Nat) (n : Nat)
    (hlen : f.length = 3 + n) (hnib : f.getD 1 0 &&& 0x0F = n)
    (hbytes : ∀ b ∈ f, b < 256)
    (hstart :
      (x.isMCPU = false ∧ x.state = .IDLE ∧ f.getD 0 0 &&& 0xC0 ≠ 0x40) ∨
      (x.isMCPU = true ∧ x.state = .POLL_EIRQ ∧ 0 ≤ x.poll_cur ∧
        x.poll_list x.poll_cur.toNat &&& 0x3F = f.getD 0 0 &&& 0x3F ∧
        (f.getD 0 0 &&& 0xC0 = 0x80 ∨ f.getD 0 0 &&& 0xC0 = 0xC0))) :
    n ≤ 15 ∧
    (∀ k, k ≤ 2 + n → telemetry (x.feedCRX (f.take k)).usbOut = telemetry x.usbOut) ∧
    telemetry (x.feedCRX f).usbOut = telemetry x.usbOut ++
      [{ type := XPI_IMSG_TRACE_CRX, subtype := if acc f = 0 then 0 else 1, data := f }] ∧
    (x.isMCPU = false →
      (∀ k, k ≤ 2 + n → (x.feedCRX (f.take k)).usbOut = x.usbOut) ∧
      (x.feedCRX f).usbOut = x.usbOut ++
        [{ type := XPI_IMSG_TRACE_CRX, subtype := if acc f = 0 then 0 else 1, data := f }]) ∧
    (∀ k, 1 ≤ k → k ≤ 2 + n →
      (x.feedCRX (f.take k)).usbOut = (x.feedCRX (f.take 1)).usbOut) ∧
    (x.feedCRX f).crxLen = 0 ∧ (x.feedCRX f).crxCkSum = 0xFF := by
  have hn : n ≤ 15 := by
    rw [← hnib]
    exact Nat.le_of_lt_succ (Nat.lt_of_le_of_lt Nat.and_le_right (by decide))
  refine ⟨hn, ?_⟩
  cases f with
  | nil => simp at hlen; omega
  | cons b0 rest =>
    have hb0 : b0 < 256 := hbytes b0 (List.mem_cons_self _ _)
    have hstart' : (x.isMCPU = false ∧ x.state = .IDLE ∧ b0 &&& 0xC0 ≠ 0x40) ∨
      (x.isMCPU = true ∧ x.state = .POLL_EIRQ ∧ 0 ≤ x.poll_cur ∧
        x.poll_list x.poll_cur.toNat &&& 0x3F = b0 &&& 0x3F ∧
        (b0 &&& 0xC0 = 0x80 ∨ b0 &&& 0xC0 = 0xC0)) := by simpa using hstart
    obtain ⟨s1, s2, s3, s4, s5, s5', s6⟩ := On_CRX_first x b0 hb0 hstart'
    have hrest : rest ≠ [] := by
      intro h
      rw [h] at hlen
      simp at hlen
      omega
    have hcls : (x.On_CRX b0).isMCPU = false → (b0 :: rest).getD 0 0 &&& 0xC0 ≠ 0x40 := by
      intro hm
      rw [s6] at hm
      rcases hstart' with ⟨_, _, hc⟩ | ⟨hm', _⟩
      · simpa using hc
      · rw [hm] at hm'; exact absurd hm' (by decide)
    obtain ⟨i1, i2, i2', i3, i4⟩ := feedCRX_rest (b0 :: rest) hbytes (by rw [hnib]; exact hlen)
      rest 1 (x.On_CRX b0) (le_refl 1) rfl hrest s1 s2
      (by
        intro i hi
        have : i = 0 := by omega
        subst this
        rw [s3, setAt_same]
        rfl)
      (by rw [s4]; rfl)
      hcls
    have hone : (x.feedCRX ((b0 :: rest).take 1)).usbOut = (x.On_CRX b0).usbOut := by
      simp [XPI.feedCRX]
    refine ⟨?_, ?_, ?_, ?_, ?_, ?_⟩
    · intro k hk
      cases k with
      | zero => rfl
      | succ k =>
        rw [List.take_succ_cons, feedCRX_cons, i1 k (by simp at hlen; omega), s5]
    · rw [feedCRX_cons, i2, s5]
    · intro hm
      refine ⟨?_, ?_⟩
      · intro k hk
        cases k with
        | zero => rfl
        | succ k =>
          rw [List.take_succ_cons, feedCRX_cons, i1 k (by simp at hlen; omega), s5' hm]
      · rw [feedCRX_cons, i2' (by rw [s6]; exact hm), s5' hm]
    · intro k hk1 hk
      cases k with
      | zero => omega
      | succ k =>
        rw [hone, List.take_succ_cons, feedCRX_cons, i1 k (by simp at hlen; omega)]
    · rw [feedCRX_cons, i3]
    · rw [feedCRX_cons, i4]

/-- Witness of C6: the valid five-octet frame `81 02 01 02 f7` (length nibble 2)
received in passive role from `IDLE`. -/
theorem On_CRX_emits_one_record_per_frame_witness :
    ({ XPI.init with state := .IDLE }.feedCRX [0x81, 0x02, 0x01, 0x02, 0xF7]).usbOut =
      { XPI.init with state := .IDLE }.usbOut ++
        [{ type := XPI_IMSG_TRACE_CRX
           subtype := if acc [0x81, 0x02, 0x01, 0x02, 0xF7] = 0 then 0 else 1
           data := [0x81, 0x02, 0x01, 0x02, 0xF7] }] ∧
    ({ XPI.init with state := .IDLE }.feedCRX [0x81, 0x02, 0x01, 0x02, 0xF7]).crxLen = 0 ∧
    ({ XPI.init with state := .IDLE }.feedCRX [0x81, 0x02, 0x01, 0x02, 0xF7]).crxCkSum = 0xFF :=
  ⟨((On_CRX_emits_one_record_per_frame { XPI.init with state := .IDLE }
      [0x81, 0x02, 0x01, 0x02, 0xF7] 2 (by decide) (by decide) (by decide)
      (Or.inl (by decide))).2.2.2.1 (by decide)).2,
   (On_CRX_emits_one_record_per_frame { XPI.init with state := .IDLE }
      [0x81, 0x02, 0x01, 0x02, 0xF7] 2 (by decide) (by decide) (by decide)
      (Or.inl (by decide))).2.2.2.2.2⟩

/-- C7: in master role, for a queued message whose frame does not begin with an
octet of the sentinel class (`( pRead[0] & 0xE0 ) != 0xC0`), whatever the
completion statuses are: when the first delivery attempt completes with status `0`
Transmitter stops after it (one attempt, no flow-control record); otherwise it
makes exactly one more attempt (two in total) and hands one flow-control record to
`usbOut` exactly when that second attempt completed with a nonzero status; the
record has the final status as subtype (as stored into the `uchar` field, so the
status itself for the values `0..255` that the handlers write) and the two octets
of the request id as payload.  The records are counted among the telemetry
records, that is apart from the text lines that `tracef` hands to `usbOut` as
`XPI_IMSG_LOG` records (`SC: CTX Retrying` after each failed attempt): no other
telemetry record is added. -/
theorem Transmitter_retries_failed_delivery (x : XPI)
    (hrole : x.isMCPU = true)
    (hhdr : 2 ≤ x.semaEmpty)
    (hbody : (x.buf x.pRead <<< 8 ||| x.buf (x.pRead + 1)) ≤ x.semaEmpty - 2)
    (hclass : x.buf (x.pRead + 4) &&& 0xE0 ≠ 0xC0) :
    (∀ rest : List Int, ∃ x' r, x.Transmitter (0 :: rest) = some (x', r) ∧
      r.attempts.length = 1 ∧ x'.ctx_status = 0 ∧
      telemetry x'.usbOut = telemetry x.usbOut) ∧
    (∀ (s1 s2 : Int) (rest : List Int), s1 ≠ 0 →
      ∃ x' r, x.Transmitter (s1 :: s2 :: rest) = some (x', r) ∧
        r.attempts.length = 2 ∧ x'.ctx_status = s2 ∧
        r.requestID = (x.buf (x.pRead + 2) <<< 8 ||| x.buf (x.pRead + 3)) ∧
        telemetry x'.usbOut = telemetry x.usbOut ++
          (if s2 ≠ 0 then
            [{ type := XPI_IMSG_FLOW_CTRL, subtype := (s2 % 256).toNat,
               data := [(r.requestID >>> 8) &&& 0xFF, r.requestID &&& 0xFF] }]
           else []) ∧
        (0 ≤ s2 → s2 < 256 → (((s2 % 256).toNat : Nat) : Int) = s2)) := by
  have h1 : ¬ x.semaEmpty < 2 := by omega
  have h2 : ¬ x.semaEmpty - 2 < (x.buf x.pRead <<< 8 ||| x.buf (x.pRead + 1)) := by omega
  have hflow : XPI_IMSG_FLOW_CTRL ≠ XPI_IMSG_LOG := by decide
  constructor
  · intro rest
    simp [XPI.Transmitter, XPI.deliver, XPI.deliverLoop, h1, h2, hrole, hclass]
    exact ⟨_, _, ⟨rfl, rfl⟩, by simp⟩
  · intro s1 s2 rest hs1
    by_cases hs2 : s2 = 0
    · simp [XPI.Transmitter, XPI.deliver, XPI.deliverLoop, h1, h2, hrole, hclass, hs1, hs2,
        XPI.tracef, deliverLoop_done]
      exact ⟨_, _, ⟨rfl, rfl⟩, by simp [telemetry_append, usbLog_telemetry]⟩
    · simp [XPI.Transmitter, XPI.deliver, XPI.deliverLoop, h1, h2, hrole, hclass, hs1, hs2,
        XPI.tracef, XPI.usbOutPut, flowCtrlFailed, deliverLoop_done]
      refine ⟨_, _, ⟨rfl, rfl⟩, by simp, by simp, by simp,
        by simp [telemetry_append, usbLog_telemetry, telemetry_singleton, hflow], ?_⟩
      intro h0 h1
      omega

/-- Witness of C7 on the queued frame `83 84 85`: statuses `0`, and `3` then `0x83`. -/
theorem Transmitter_retries_failed_delivery_witness :
    (∃ x' r, exampleQueued.Transmitter [0] = some (x', r) ∧
      r.attempts.length = 1 ∧ x'.ctx_status = 0 ∧
      telemetry x'.usbOut = telemetry exampleQueued.usbOut) ∧
    (∃ x' r, exampleQueued.Transmitter [3, 0x83] = some (x', r) ∧
      r.attempts.length = 2 ∧ x'.ctx_status = 0x83 ∧
      r.requestID = (exampleQueued.buf (exampleQueued.pRead + 2) <<< 8 |||
        exampleQueued.buf (exampleQueued.pRead + 3)) ∧
      telemetry x'.usbOut = telemetry exampleQueued.usbOut ++
        (if (0x83 : Int) ≠ 0 then
          [{ type := XPI_IMSG_FLOW_CTRL, subtype := ((0x83 : Int) % 256).toNat,
             data := [(r.requestID >>> 8) &&& 0xFF, r.requestID &&& 0xFF] }]
         else []) ∧
      ((0 : Int) ≤ 0x83 → (0x83 : Int) < 256 → ((((0x83 : Int) % 256).toNat : Nat) : Int) = 0x83)) :=
  ⟨(Transmitter_retries_failed_delivery exampleQueued (by decide) (by decide) (by decide)
      (by decide)).1 [],
   (Transmitter_retries_failed_delivery exampleQueued (by decide) (by decide) (by decide)
      (by decide)).2 3 0x83 [] (by decide)⟩

/-- C8: for a frame of `len >= 2` octets inside the buffer whose checksum
accumulates to `0` and whose first octet has bit 5 clear, the frame left by the
resend step of Transmitter again accumulates to checksum `0`; the step sets bit 5
of the first octet, inverts bit `(5 + len - 1) mod 8` of the last octet and
changes nothing else. -/
theorem resend_keeps_checksum (mem : Nat → Nat) (p len : Nat)
    (hlen : 2 ≤ len) (hin : p + len ≤ XPI_XMTR_BUF_SIZE + 32)
    (hbytes : ∀ i, i < len → mem (p + i) < 256)
    (hck : acc (frameAt mem p len) = 0) (hbit : mem p &&& 0x20 = 0) :
    acc (frameAt (resendFlip mem p len) p len) = 0 ∧
    resendFlip mem p len p = mem p ||| (1 <<< 5) ∧
    resendFlip mem p len p = mem p ^^^ (1 <<< 5) ∧
    resendFlip mem p len (p + len - 1) =
      mem (p + len - 1) ^^^ (1 <<< ((5 + len - 1) % 8)) ∧
    ∀ i, i ≠ p → i ≠ p + len - 1 → resendFlip mem p len i = mem i := by
  obtain ⟨m, rfl⟩ : ∃ m, len = m + 2 := ⟨len - 2, by omega⟩
  have hb0 : mem p < 256 := by simpa using hbytes 0 (by omega)
  have hbl : mem (p + (m + 1)) < 256 := hbytes (m + 1) (by omega)
  have hor := or_bit5_table (mem p) hb0 hbit
  rw [resendFlip_eq mem p (m + 2) (by omega) hin]
  have hne : p + (m + 2) - 1 ≠ p := by omega
  have hlast : p + (m + 2) - 1 = p + (m + 1) := by omega
  have hk : (5 + (m + 2) - 1) % 8 = (6 + m) % 8 := by
    congr 1
    omega
  have hor32 : mem p ||| 32 = mem p ^^^ 32 := hor
  have hpm : p + 1 + m = p + (m + 1) := by omega
  refine ⟨?_, ?_, ?_, ?_, ?_⟩
  · -- the checksum
    have hmid : ∀ b ∈ frameAt mem (p + 1) m, b < 256 := by
      intro b hb
      obtain ⟨i, hi, rfl⟩ := mem_frameAt _ _ _ _ hb
      have := hbytes (1 + i) (by omega)
      rwa [← Nat.add_assoc] at this
    have hold : frameAt mem p (m + 2) =
        mem p :: (frameAt mem (p + 1) m ++ [mem (p + (m + 1))]) := by
      rw [frameAt_succ, frameAt_succ_last, hpm]
    have hnew : frameAt (setAt (setAt mem p (mem p ||| (1 <<< 5))) (p + (m + 2) - 1)
        (setAt mem p (mem p ||| (1 <<< 5)) (p + (m + 2) - 1) ^^^ (1 <<< ((5 + (m + 2) - 1) % 8))))
        p (m + 2) =
        (mem p ^^^ (1 <<< 5)) :: (frameAt mem (p + 1) m ++
          [mem (p + (m + 1)) ^^^ (1 <<< ((6 + m) % 8))]) := by
      rw [frameAt_succ, frameAt_succ_last, hlast, hk]
      congr 1
      · simp [setAt, hor32]
      · congr 1
        · apply frameAt_congr
          intro i hi
          have h1 : p + 1 + i ≠ p + (m + 1) := by omega
          have h2 : p + 1 + i ≠ p := by omega
          simp [setAt, h1, h2]
        · have h1 : p + 1 + m = p + (m + 1) := by omega
          have h2 : p + (m + 1) ≠ p := by omega
          simp [setAt, h1, h2]
    rw [hnew]
    rw [hold] at hck
    simp only [acc, List.foldl_cons, List.foldl_append, List.foldl_nil] at hck ⊢
    have e1 : ckUpdate 0xFF (mem p ^^^ (1 <<< 5)) = ckUpdate 0xFF (mem p) ^^^ (1 <<< 6) := by
      have := ckUpdate_byte_bit (0xFF ^^^ (1 <<< 5)) (mem p) (1 <<< 5)
      rw [Nat.xor_cancel_right] at this
      rw [this]
      exact ckUpdate_seed_bit 0xFF (mem p) 5 (by decide) hb0 (by decide)
    rw [e1, foldl_ckUpdate_seed_bit _ hmid _ 6 (ckUpdate_lt _ _ (by decide) hb0) (by decide),
      frameAt_length, ckUpdate_byte_bit]
    exact hck
  · simp [setAt, hne.symm]
  · simp [setAt, hne.symm, hor32]
  · simp [setAt, hne]
  · intro i hi1 hi2
    rw [hlast] at hi2
    simp only [setAt, hlast, if_neg hi1, if_neg hi2]

/-- Witness of C8 on the frame `c3 05 a1 b6` stored at offset 4. -/
theorem resend_keeps_checksum_witness :
    acc (frameAt (resendFlip (memcpy (fun _ => 0) 4 (fun i => [0xC3, 0x05, 0xA1, 0xB6].getD i 0) 4)
      4 4) 4 4) = 0 :=
  (resend_keeps_checksum (memcpy (fun _ => 0) 4 (fun i => [0xC3, 0x05, 0xA1, 0xB6].getD i 0) 4)
    4 4 (by decide) (by decide) (by decide) (by decide) (by decide)).1

set_option maxRecDepth 100000 in
/-- C9, the code at the failing input: in master role the queued sentinel-class
frame `c3 c4 c5` is delivered with status `0`, the bit-flipped frame `e3 c4 45` is
handed over once and fails with status `0x79`; Transmitter then leaves the loop
(`retry = 0` is followed by the `retry++` of the loop, so the resend runs with
`retry = 1`), sends the flow-control record and never uses the third status,
while the fresh frame `83 84 85` that fails first with `0x79` is handed over a
second time and ends without a record.  The records listed are the telemetry
records; every failed attempt also prints the text line `SC: CTX Retrying`. -/
theorem resend_is_attempted_once :
    ((exampleSentinelQueued.Transmitter [0, 0x79, 0]).map
        (fun r => (r.2.attempts, r.1.ctx_status, telemetry r.1.usbOut)) =
      some ([[0xC3, 0xC4, 0xC5], [0xE3, 0xC4, 0x45]], 0x79,
        [{ type := XPI_IMSG_FLOW_CTRL, subtype := 0x79, data := [0xC1, 0xC2] }])) ∧
    ((exampleQueued.Transmitter [0x79, 0]).map
        (fun r => (r.2.attempts, r.1.ctx_status, telemetry r.1.usbOut)) =
      some ([[0x83, 0x84, 0x85], [0x83, 0x84, 0x85]], 0, [])) := by
  decide

/-- C12: when the countdown timer expires in `WAIT_ACK`, `On_Timer` sets the
completion status to `3`, releases `semaSent` once and moves to `IDLE` with no
timeout armed.  A `Transmitter` call in master role on a queued message whose
second delivery attempt completes with that status (after a first attempt that
failed, or after the successful first attempt of a sentinel-class frame, which is
resent) returns after two attempts and adds exactly one telemetry record, the
flow-control record of subtype `3` with the request id of the frame; and so does
every `Transmitter` call in master role that returns with its last delivery
attempt completed with that status.  Telemetry records are the records other
than the text lines of `tracef` (`SC: CTX Retrying` after a failed attempt). -/
theorem On_Timer_times_out_WAIT_ACK (x : XPI) (xsvfRC : Int)
    (hexp : x.timerExpires) (hstate : x.state = .WAIT_ACK) :
    (x.On_Timer xsvfRC).ctx_status = 3 ∧
    (x.On_Timer xsvfRC).semaSent = x.semaSent + 1 ∧
    (x.On_Timer xsvfRC).state = .IDLE ∧
    (x.On_Timer xsvfRC).timer = -1 ∧
    (∀ (y : XPI) (s1 : Int) (rest : List Int), y.isMCPU = true → 2 ≤ y.semaEmpty →
      (y.buf y.pRead <<< 8 ||| y.buf (y.pRead + 1)) ≤ y.semaEmpty - 2 →
      ((y.buf (y.pRead + 4) &&& 0xE0 ≠ 0xC0 ∧ s1 ≠ 0) ∨
        (y.buf (y.pRead + 4) &&& 0xE0 = 0xC0 ∧ s1 = 0)) →
      ∃ y' r, y.Transmitter (s1 :: (x.On_Timer xsvfRC).ctx_status :: rest) = some (y', r) ∧
        r.attempts.length = 2 ∧ y'.ctx_status = 3 ∧
        r.requestID = (y.buf (y.pRead + 2) <<< 8 ||| y.buf (y.pRead + 3)) ∧
        telemetry y'.usbOut = telemetry y.usbOut ++
          [{ type := XPI_IMSG_FLOW_CTRL, subtype := 3,
             data := [(r.requestID >>> 8) &&& 0xFF, r.requestID &&& 0xFF] }]) ∧
    (∀ (y : XPI) (sts : List Int) (y' : XPI) (r : TxResult),
      y.isMCPU = true → y.Transmitter sts = some (y', r) →
      sts[r.attempts.length - 1]? = some (x.On_Timer xsvfRC).ctx_status →
      telemetry y'.usbOut = telemetry y.usbOut ++
        [{ type := XPI_IMSG_FLOW_CTRL, subtype := 3,
           data := [(r.requestID >>> 8) &&& 0xFF, r.requestID &&& 0xFF] }]) := by
  obtain ⟨h1, h2⟩ := hexp
  unfold XPI.tickDelta at h2
  have hst : (x.On_Timer xsvfRC).ctx_status = 3 := by
    simp [XPI.On_Timer, XPI.tickDelta, h1, h2, hstate, XPI.Goto]
  have hflow : XPI_IMSG_FLOW_CTRL ≠ XPI_IMSG_LOG := by decide
  refine ⟨hst, ?_, ?_, ?_, ?_, ?_⟩
  · simp [XPI.On_Timer, XPI.tickDelta, h1, h2, hstate, XPI.Goto]
  · simp [XPI.On_Timer, XPI.tickDelta, h1, h2, hstate, XPI.Goto]
  · simp [XPI.On_Timer, XPI.tickDelta, h1, h2, hstate, XPI.Goto]
  · intro y s1 rest hrole hhdr hbody hcase
    rw [hst]
    have g1 : ¬ y.semaEmpty < 2 := by omega
    have g2 : ¬ y.semaEmpty - 2 < (y.buf y.pRead <<< 8 ||| y.buf (y.pRead + 1)) := by omega
    rcases hcase with ⟨hclass, hs1⟩ | ⟨hclass, hs1⟩
    · simp [XPI.Transmitter, XPI.deliver, XPI.deliverLoop, g1, g2, hrole, hclass, hs1,
        XPI.tracef, XPI.usbOutPut, flowCtrlFailed, deliverLoop_done]
      exact ⟨_, _, ⟨rfl, rfl⟩, by simp, by simp, by simp,
        by simp [telemetry_append, usbLog_telemetry, telemetry_singleton, hflow]⟩
    · simp [XPI.Transmitter, XPI.deliver, XPI.deliverLoop, g1, g2, hrole, hclass, hs1,
        XPI.tracef, XPI.usbOutPut, flowCtrlFailed, deliverLoop_done]
      exact ⟨_, _, ⟨rfl, rfl⟩, by simp, by simp, by simp,
        by simp [telemetry_append, usbLog_telemetry, telemetry_singleton, hflow]⟩
  · intro y sts y' r hrole hrun hlast
    obtain ⟨-, t2, t3⟩ := Transmitter_reports_last_status y sts y' r hrole hrun
    rw [hst] at hlast
    rw [hlast] at t2
    have e : y'.ctx_status = 3 := by
      simp only [Option.some.injEq] at t2
      exact t2.symm
    rw [t3, e]
    simp [flowCtrlFailed]

set_option maxRecDepth 100000 in
/-- Witness of C12 on the frame `83 84 85` awaiting its acknowledge for 5 ms,
and on the queued frame `83 84 85` whose first attempt fails with `0x79` and whose
second attempt ends with the status that this timeout sets. -/
theorem On_Timer_times_out_WAIT_ACK_witness :
    (exampleAwaitingAck.step (.tick 5)).timerExpires ∧
    (exampleAwaitingAck.step (.tick 5)).state = .WAIT_ACK ∧
    ((exampleAwaitingAck.step (.tick 5)).On_Timer 0).ctx_status = 3 ∧
    ((exampleAwaitingAck.step (.tick 5)).On_Timer 0).state = .IDLE ∧
    (∃ y' r,
      exampleQueued.Transmitter
          [0x79, ((exampleAwaitingAck.step (.tick 5)).On_Timer 0).ctx_status] = some (y', r) ∧
        r.attempts.length = 2 ∧ y'.ctx_status = 3 ∧
        r.requestID = (exampleQueued.buf (exampleQueued.pRead + 2) <<< 8 |||
          exampleQueued.buf (exampleQueued.pRead + 3)) ∧
        telemetry y'.usbOut = telemetry exampleQueued.usbOut ++
          [{ type := XPI_IMSG_FLOW_CTRL, subtype := 3,
             data := [(r.requestID >>> 8) &&& 0xFF, r.requestID &&& 0xFF] }]) :=
  ⟨by decide, by decide,
   (On_Timer_times_out_WAIT_ACK (exampleAwaitingAck.step (.tick 5)) 0 (by decide) (by decide)).1,
   (On_Timer_times_out_WAIT_ACK (exampleAwaitingAck.step (.tick 5)) 0 (by decide)
      (by decide)).2.2.1,
   (On_Timer_times_out_WAIT_ACK (exampleAwaitingAck.step (.tick 5)) 0 (by decide)
      (by decide)).2.2.2.2.1 exampleQueued 0x79 [] (by decide) (by decide) (by decide)
      (Or.inl (by decide))⟩

set_option maxRecDepth 100000 in
/-- C14, as stated, fails: after `exampleFrameEvents` the engine waits in
`WAIT_CTXE`; a new `InitializeFPGA` that does not find the FPGA clears `fpgaOK` and
stores the octet read (`12`) as board position; when the timer then expires,
`ResetFPGA` returns at `if ( ! fpgaOK ) return;` and the board position is still
`12`, not `0xFF`. -/
theorem On_Timer_reset_keeps_board_position :
    Reachable exampleWedgedNoFpga ∧
    exampleWedgedNoFpga.state = .WAIT_CTXE ∧ exampleWedgedNoFpga.timerExpires ∧
    (exampleWedgedNoFpga.On_Timer 0).boardPos = 0x12 ∧
    (exampleWedgedNoFpga.On_Timer 0).boardPos ≠ 0xFF :=
  ⟨⟨_, rfl⟩, by decide, by decide, by decide, by decide⟩

/-- C14, amended: when the countdown timer expires in `WAIT_SENT` or
`WAIT_CTXE`, `On_Timer` prints the text line `SC: SEVERE ERROR: FPGA Failed.
Timeout in ...` (handed to `usbOut` as text, see `usbLog`), calls `ResetFPGA`,
sets the completion status to `0x79` (from `WAIT_SENT`) or `0x78` (from
`WAIT_CTXE`), both nonzero, and releases `semaSent` once.  Afterwards the presence
flag is clear, and in a reachable state so is the role flag.  When the presence
flag was set before, the board position is `0xFF` and after the text exactly one
more record, the status record `0 0 ff rc`, is sent to the host; when it was
clear before, `ResetFPGA` returns early: role flag and board position stay as
they were and nothing but the text is sent.  The text consists of text records
only, so the status record is the only telemetry record added. -/
theorem On_Timer_resets_wedged_transmit (x : XPI) (xsvfRC : Int)
    (hexp : x.timerExpires) (hstate : x.state = .WAIT_SENT ∨ x.state = .WAIT_CTXE) :
    (x.state = .WAIT_SENT → (x.On_Timer xsvfRC).ctx_status = 0x79) ∧
    (x.state = .WAIT_CTXE → (x.On_Timer xsvfRC).ctx_status = 0x78) ∧
    (x.On_Timer xsvfRC).ctx_status ≠ 0 ∧
    (x.On_Timer xsvfRC).semaSent = x.semaSent + 1 ∧
    (x.On_Timer xsvfRC).fpgaOK = false ∧
    (Reachable x → (x.On_Timer xsvfRC).isMCPU = false) ∧
    (∃ text : List Msg,
      text =
        (if x.state = .WAIT_SENT then
          (usbLog x.logLine "SC: SEVERE ERROR: FPGA Failed. Timeout in WAIT_SENT.\n"
            [(STATE.WAIT_SENT.toNat : Int)]).2
         else
          (usbLog x.logLine "SC: SEVERE ERROR: FPGA Failed. Timeout in WAIT_CTXE.\n" []).2) ∧
      telemetry text = [] ∧
      (x.fpgaOK = true →
        (x.On_Timer xsvfRC).isMCPU = false ∧ (x.On_Timer xsvfRC).boardPos = 0xFF ∧
        (x.On_Timer xsvfRC).usbOut = x.usbOut ++ text ++
          [{ type := XPI_IMSG_FPGA_STATUS, subtype := 0,
             data := [0, 0, 0xFF, (xsvfRC % 256).toNat] }] ∧
        telemetry (x.On_Timer xsvfRC).usbOut = telemetry x.usbOut ++
          [{ type := XPI_IMSG_FPGA_STATUS, subtype := 0,
             data := [0, 0, 0xFF, (xsvfRC % 256).toNat] }]) ∧
      (x.fpgaOK = false →
        (x.On_Timer xsvfRC).isMCPU = x.isMCPU ∧ (x.On_Timer xsvfRC).boardPos = x.boardPos ∧
        (x.On_Timer xsvfRC).usbOut = x.usbOut ++ text ∧
        telemetry (x.On_Timer xsvfRC).usbOut = telemetry x.usbOut)) := by
  have hne : x.state = .WAIT_SENT → x.state ≠ .WAIT_CTXE := by
    intro h1 h2
    rw [h1] at h2
    exact absurd h2 (by decide)
  have hstat : XPI_IMSG_FPGA_STATUS ≠ XPI_IMSG_LOG := by decide
  have key : ∀ (y : XPI) (text : List Msg), x.On_Timer xsvfRC =
        { y.ResetFPGA xsvfRC with
          ctx_status := (x.On_Timer xsvfRC).ctx_status
          semaSent := (y.ResetFPGA xsvfRC).semaSent + 1 } →
      y.semaSent = x.semaSent → y.fpgaOK = x.fpgaOK → y.isMCPU = x.isMCPU →
      y.boardPos = x.boardPos → y.usbOut = x.usbOut ++ text → telemetry text = [] →
      (x.On_Timer xsvfRC).semaSent = x.semaSent + 1 ∧
      (x.On_Timer xsvfRC).fpgaOK = false ∧
      (Reachable x → (x.On_Timer xsvfRC).isMCPU = false) ∧
      (x.fpgaOK = true →
        (x.On_Timer xsvfRC).isMCPU = false ∧ (x.On_Timer xsvfRC).boardPos = 0xFF ∧
        (x.On_Timer xsvfRC).usbOut = x.usbOut ++ text ++
          [{ type := XPI_IMSG_FPGA_STATUS, subtype := 0,
             data := [0, 0, 0xFF, (xsvfRC % 256).toNat] }] ∧
        telemetry (x.On_Timer xsvfRC).usbOut = telemetry x.usbOut ++
          [{ type := XPI_IMSG_FPGA_STATUS, subtype := 0,
             data := [0, 0, 0xFF, (xsvfRC % 256).toNat] }]) ∧
      (x.fpgaOK = false →
        (x.On_Timer xsvfRC).isMCPU = x.isMCPU ∧ (x.On_Timer xsvfRC).boardPos = x.boardPos ∧
        (x.On_Timer xsvfRC).usbOut = x.usbOut ++ text ∧
        telemetry (x.On_Timer xsvfRC).usbOut = telemetry x.usbOut) := by
    intro y text e s1 s2 s3 s4 s5 s6
    by_cases hok : x.fpgaOK = true
    · obtain ⟨w, hw⟩ := ResetFPGA_present y xsvfRC (by rw [s2]; exact hok)
      rw [hw] at e
      rw [e]
      refine ⟨by simp [s1], by simp, fun _ => by simp,
        fun _ => ⟨by simp, by simp, by simp [s5],
          by simp [s5, telemetry_append, s6, telemetry_singleton, hstat]⟩, ?_⟩
      intro hno
      rw [hok] at hno
      exact absurd hno (by decide)
    · have hok' : x.fpgaOK = false := by simpa using hok
      rw [ResetFPGA_absent y xsvfRC (by rw [s2]; exact hok')] at e
      rw [e]
      refine ⟨by simp [XPI.Goto, s1], by simp [XPI.Goto, s2, hok'], ?_, ?_,
        fun _ => ⟨by simp [XPI.Goto, s3], by simp [XPI.Goto, s4], by simp [XPI.Goto, s5],
          by simp [XPI.Goto, s5, telemetry_append, s6]⟩⟩
      · intro hr
        have := Reachable_role x hr
        simp only [XPI.Goto, s3]
        cases hm : x.isMCPU
        · rfl
        · rw [this hm] at hok'
          exact absurd hok' (by decide)
      · intro hyes
        exact absurd hyes hok
  rcases hstate with hs | hs
  · have e := (On_Timer_wedged x xsvfRC hexp).2 hs
    have hst : (x.On_Timer xsvfRC).ctx_status = 0x79 := by rw [e]
    refine ⟨fun _ => hst, fun h => absurd h (hne hs), by rw [hst]; decide, ?_⟩
    obtain ⟨k1, k2, k3, k4, k5⟩ := key
      (({ x with lastTick := x.dTimerTick, timer := -1 } : XPI).tracef
        "SC: SEVERE ERROR: FPGA Failed. Timeout in WAIT_SENT.\n" [(STATE.WAIT_SENT.toNat : Int)])
      _ (by rw [hst]; exact e) rfl rfl rfl rfl rfl (usbLog_telemetry _ _ _)
    exact ⟨k1, k2, k3, _, by rw [if_pos hs], usbLog_telemetry _ _ _, k4, k5⟩
  · have e := (On_Timer_wedged x xsvfRC hexp).1 hs
    have hst : (x.On_Timer xsvfRC).ctx_status = 0x78 := by rw [e]
    refine ⟨fun h => absurd hs (hne h), fun _ => hst, by rw [hst]; decide, ?_⟩
    obtain ⟨k1, k2, k3, k4, k5⟩ := key
      (({ x with lastTick := x.dTimerTick, timer := -1 } : XPI).tracef
        "SC: SEVERE ERROR: FPGA Failed. Timeout in WAIT_CTXE.\n" [])
      _ (by rw [hst]; exact e) rfl rfl rfl rfl rfl (usbLog_telemetry _ _ _)
    have hn : ¬ x.state = .WAIT_SENT := fun h => hne h hs
    exact ⟨k1, k2, k3, _, by rw [if_neg hn], usbLog_telemetry _ _ _, k4, k5⟩

set_option maxRecDepth 100000 in
/-- Witness of C14 (amended) on `exampleWedged`, where the FPGA is present: the
text line and the status record are the two records added. -/
theorem On_Timer_resets_wedged_transmit_witness :
    exampleWedged.timerExpires ∧ exampleWedged.state = .WAIT_CTXE ∧
    (exampleWedged.On_Timer 0).ctx_status = 0x78 ∧
    (exampleWedged.On_Timer 0).semaSent = exampleWedged.semaSent + 1 ∧
    (∃ text : List Msg,
      text =
        (if exampleWedged.state = .WAIT_SENT then
          (usbLog exampleWedged.logLine
            "SC: SEVERE ERROR: FPGA Failed. Timeout in WAIT_SENT.\n"
            [(STATE.WAIT_SENT.toNat : Int)]).2
         else
          (usbLog exampleWedged.logLine
            "SC: SEVERE ERROR: FPGA Failed. Timeout in WAIT_CTXE.\n" []).2) ∧
      telemetry text = [] ∧
      (exampleWedged.fpgaOK = true →
        (exampleWedged.On_Timer 0).isMCPU = false ∧ (exampleWedged.On_Timer 0).boardPos = 0xFF ∧
        (exampleWedged.On_Timer 0).usbOut = exampleWedged.usbOut ++ text ++
          [{ type := XPI_IMSG_FPGA_STATUS, subtype := 0,
             data := [0, 0, 0xFF, ((0 : Int) % 256).toNat] }] ∧
        telemetry (exampleWedged.On_Timer 0).usbOut = telemetry exampleWedged.usbOut ++
          [{ type := XPI_IMSG_FPGA_STATUS, subtype := 0,
             data := [0, 0, 0xFF, ((0 : Int) % 256).toNat] }]) ∧
      (exampleWedged.fpgaOK = false →
        (exampleWedged.On_Timer 0).isMCPU = exampleWedged.isMCPU ∧
        (exampleWedged.On_Timer 0).boardPos = exampleWedged.boardPos ∧
        (exampleWedged.On_Timer 0).usbOut = exampleWedged.usbOut ++ text ∧
        telemetry (exampleWedged.On_Timer 0).usbOut = telemetry exampleWedged.usbOut)) ∧
    exampleWedged.fpgaOK = true ∧
    (usbLog exampleWedged.logLine
        "SC: SEVERE ERROR: FPGA Failed. Timeout in WAIT_CTXE.\n" []).2 =
      [{ type := XPI_IMSG_LOG, subtype := 0,
         data := "SC: SEVERE ERROR: FPGA Failed. Timeout in WAIT_CTXE.".toList.map Char.toNat }] :=
  ⟨by decide, by decide,
   (On_Timer_resets_wedged_transmit exampleWedged 0 (by decide) (Or.inr (by decide))).2.1
      (by decide),
   (On_Timer_resets_wedged_transmit exampleWedged 0 (by decide) (Or.inr (by decide))).2.2.2.1,
   (On_Timer_resets_wedged_transmit exampleWedged 0 (by decide)
      (Or.inr (by decide))).2.2.2.2.2.2,
   by decide, by decide⟩

set_option maxRecDepth 100000 in
/-- C15, as stated, fails: on `exampleWedged` the timer expires in `WAIT_CTXE`
and the state after `On_Timer` is `DISABLED`, not `IDLE`. -/
theorem On_Timer_wedged_transmit_is_not_IDLE :
    Reachable exampleWedged ∧
    exampleWedged.state = .WAIT_CTXE ∧ exampleWedged.timerExpires ∧
    (exampleWedged.On_Timer 0).state = .DISABLED ∧
    (exampleWedged.On_Timer 0).state ≠ .IDLE :=
  ⟨⟨_, rfl⟩, by decide, by decide, by decide, by decide⟩

/-- C15, amended: after the countdown timer expires in `WAIT_SENT` or in
`WAIT_CTXE`, the engine state is `DISABLED` (the state `ResetFPGA` moves to), with
no timeout armed. -/
theorem On_Timer_wedged_transmit_ends_DISABLED (x : XPI) (xsvfRC : Int)
    (hexp : x.timerExpires) (hstate : x.state = .WAIT_SENT ∨ x.state = .WAIT_CTXE) :
    (x.On_Timer xsvfRC).state = .DISABLED ∧ (x.On_Timer xsvfRC).timer = -1 := by
  have key : ∀ (y : XPI) (c : Int), x.On_Timer xsvfRC =
        { y.ResetFPGA xsvfRC with
          ctx_status := c
          semaSent := (y.ResetFPGA xsvfRC).semaSent + 1 } →
      (x.On_Timer xsvfRC).state = .DISABLED ∧ (x.On_Timer xsvfRC).timer = -1 := by
    intro y c e
    rw [e]
    by_cases hok : y.fpgaOK = true
    · obtain ⟨w, hw⟩ := ResetFPGA_present y xsvfRC hok
      rw [hw]
      exact ⟨rfl, rfl⟩
    · have hok' : y.fpgaOK = false := by simpa using hok
      rw [ResetFPGA_absent y xsvfRC hok']
      exact ⟨rfl, rfl⟩
  rcases hstate with hs | hs
  · exact key _ _ ((On_Timer_wedged x xsvfRC hexp).2 hs)
  · exact key _ _ ((On_Timer_wedged x xsvfRC hexp).1 hs)

set_option maxRecDepth 100000 in
/-- Witness of C15 (amended) on the sentinel-class frame `c3 c4 c5`, written
out and not reported as sent within 10 ms. -/
theorem On_Timer_wedged_transmit_ends_DISABLED_witness :
    (exampleAwaitingSent.step (.tick 10)).timerExpires ∧
    (exampleAwaitingSent.step (.tick 10)).state = .WAIT_SENT ∧
    ((exampleAwaitingSent.step (.tick 10)).On_Timer 0).state = .DISABLED :=
  ⟨by decide, by decide,
   (On_Timer_wedged_transmit_ends_DISABLED (exampleAwaitingSent.step (.tick 10)) 0 (by decide)
      (Or.inl (by decide))).1⟩

/-- C16: in master role with state `IDLE`, the command channel empty and the
EIRQ flag set, `StartTransmissionIfIdle` clears the flag, sets the poll cursor to
`-1`, clears the rearrange flag, increments the 32-bit EIRQ counter by one, writes
the single octet `0xC0` to the command-channel data register and moves to
`POLL_EIRQ` with `EIRQ_POLL_DELAY`; whatever `ctx_count` is, it is left as it was,
with `pCtx` and the buffer. -/
theorem StartTransmissionIfIdle_begins_poll (x : XPI)
    (hrole : x.isMCPU = true) (hidle : x.state = .IDLE) (hctxe : x.isCTXE = true)
    (heirq : x.isEIRQ = true) :
    x.StartTransmissionIfIdle.isEIRQ = false ∧
    x.StartTransmissionIfIdle.poll_cur = -1 ∧
    x.StartTransmissionIfIdle.rearrange_poll_list = false ∧
    x.StartTransmissionIfIdle.eirq_count = (x.eirq_count + 1) % 2 ^ 32 ∧
    (x.eirq_count + 1 < 2 ^ 32 → x.StartTransmissionIfIdle.eirq_count = x.eirq_count + 1) ∧
    ctxDataWrites x.StartTransmissionIfIdle.fpgaWrites = ctxDataWrites x.fpgaWrites ++ [0xC0] ∧
    x.StartTransmissionIfIdle.state = .POLL_EIRQ ∧
    x.StartTransmissionIfIdle.timer = EIRQ_POLL_DELAY ∧
    x.StartTransmissionIfIdle.isCTXE = false ∧
    x.StartTransmissionIfIdle.ctx_count = x.ctx_count ∧
    x.StartTransmissionIfIdle.pCtx = x.pCtx ∧
    x.StartTransmissionIfIdle.buf = x.buf := by
  refine ⟨?_, ?_, ?_, ?_, ?_, ?_, ?_, ?_, ?_, ?_, ?_, ?_⟩ <;>
    simp [XPI.StartTransmissionIfIdle, hrole, hidle, hctxe, heirq, XPI.FPGA_Write, XPI.Goto,
      ctxDataWrites, EIRQ_POLL_DELAY]

/-- Witness of C16 on the engine with the frame `83 84 85` pending and the EIRQ
flag set. -/
theorem StartTransmissionIfIdle_begins_poll_witness :
    exampleEirqLoaded.ctx_count = 3 ∧
    exampleEirqLoaded.StartTransmissionIfIdle.state = .POLL_EIRQ ∧
    exampleEirqLoaded.StartTransmissionIfIdle.poll_cur = -1 ∧
    exampleEirqLoaded.StartTransmissionIfIdle.ctx_count = 3 :=
  ⟨by decide,
   (StartTransmissionIfIdle_begins_poll exampleEirqLoaded (by decide) (by decide) (by decide)
      (by decide)).2.2.2.2.2.2.1,
   (StartTransmissionIfIdle_begins_poll exampleEirqLoaded (by decide) (by decide) (by decide)
      (by decide)).2.1,
   (StartTransmissionIfIdle_begins_poll exampleEirqLoaded (by decide) (by decide) (by decide)
      (by decide)).2.2.2.2.2.2.2.2.2.1⟩

/-- C17: in master role in `POLL_EIRQ`, for every response octet `b`, `On_CRX`
takes exactly one of five cases.  Cursor below `0`: nothing changes.  The low six
bits of `b` differ from the polled board id: the board is marked passive and the
next board is polled.  Id equal and class tag `00`: the board is marked active and
the next board is polled.  Id equal and class tag `01`: nothing changes.
Otherwise: the board is marked active, `b` is the first octet of a new frame and
the state is `RECEIVE_CRX` with `RECEIVE_TIMEOUT`. -/
theorem On_CRX_answers_poll (x : XPI) (b : Nat) (hb : b < 256)
    (hrole : x.isMCPU = true) (hstate : x.state = .POLL_EIRQ) :
    (x.poll_cur < 0 → x.On_CRX b = x) ∧
    (0 ≤ x.poll_cur → x.poll_list x.poll_cur.toNat &&& 0x3F ≠ b &&& 0x3F →
      x.On_CRX b =
        ((x.tracef "SC: Poll #%d: %02x, Respond %02x\n"
          [x.poll_cur, ((x.poll_list x.poll_cur.toNat &&& 0x3F : Nat) : Int), (b : Int)]).MarkBoardActive
            false).PollNextBoard ∧
      (x.poll_cur + 1 < x.maxboardc →
        (x.On_CRX b).poll_list =
          setAt x.poll_list x.poll_cur.toNat (x.poll_list x.poll_cur.toNat &&& 0x7F) ∧
        (x.On_CRX b).poll_cur = x.poll_cur + 1 ∧ (x.On_CRX b).state = .POLL_EIRQ ∧
        (x.On_CRX b).timer = EIRQ_POLL_DELAY)) ∧
    (0 ≤ x.poll_cur → x.poll_list x.poll_cur.toNat &&& 0x3F = b &&& 0x3F → b &&& 0xC0 = 0x00 →
      x.On_CRX b = (x.MarkBoardActive true).PollNextBoard ∧
      (x.poll_cur + 1 < x.maxboardc →
        (x.On_CRX b).poll_list =
          setAt x.poll_list x.poll_cur.toNat (x.poll_list x.poll_cur.toNat ||| 0x80) ∧
        (x.On_CRX b).poll_cur = x.poll_cur + 1 ∧ (x.On_CRX b).state = .POLL_EIRQ ∧
        (x.On_CRX b).timer = EIRQ_POLL_DELAY)) ∧
    (0 ≤ x.poll_cur → x.poll_list x.poll_cur.toNat &&& 0x3F = b &&& 0x3F → b &&& 0xC0 = 0x40 →
      x.On_CRX b = x) ∧
    (0 ≤ x.poll_cur → x.poll_list x.poll_cur.toNat &&& 0x3F = b &&& 0x3F → b &&& 0xC0 ≠ 0x00 →
      b &&& 0xC0 ≠ 0x40 →
      (x.On_CRX b).poll_list =
        setAt x.poll_list x.poll_cur.toNat (x.poll_list x.poll_cur.toNat ||| 0x80) ∧
      (x.On_CRX b).poll_cur = x.poll_cur ∧
      (x.On_CRX b).state = .RECEIVE_CRX ∧ (x.On_CRX b).timer = RECEIVE_TIMEOUT ∧
      (x.On_CRX b).crxLen = 1 ∧ (x.On_CRX b).sCRX_data 0 = b ∧
      (x.On_CRX b).crxCkSum = ckUpdate 0xFF b) := by
  have hbm : b % 256 = b := Nat.mod_eq_of_lt hb
  refine ⟨?_, ?_, ?_, ?_, ?_⟩
  · intro h
    simp [XPI.On_CRX, hrole, hstate, h]
  · intro h0 hid
    have h0' : ¬ x.poll_cur < 0 := by omega
    have e : x.On_CRX b =
        ((x.tracef "SC: Poll #%d: %02x, Respond %02x\n"
          [x.poll_cur, ((x.poll_list x.poll_cur.toNat &&& 0x3F : Nat) : Int), (b : Int)]).MarkBoardActive
            false).PollNextBoard := by
      simp [XPI.On_CRX, hrole, hstate, h0', hid]
    refine ⟨e, ?_⟩
    intro h1
    rw [e]
    obtain ⟨m1, m2, m3, -, -⟩ := MarkBoardActive_fields
      (x.tracef "SC: Poll #%d: %02x, Respond %02x\n"
          [x.poll_cur, ((x.poll_list x.poll_cur.toNat &&& 0x3F : Nat) : Int), (b : Int)]) false
      (by simpa [XPI.tracef] using h0)
    obtain ⟨p1, p2, p3, p4, -, -⟩ := PollNextBoard_advances _ (by rw [m2]; simpa [XPI.tracef] using h0)
      (by rw [m2, m3]; simpa [XPI.tracef] using h1)
    rw [p1, p2, p3, p4, m1, m2]
    simp [XPI.tracef]
  · intro h0 hid hcl
    have h0' : ¬ x.poll_cur < 0 := by omega
    have e : x.On_CRX b = (x.MarkBoardActive true).PollNextBoard := by
      simp [XPI.On_CRX, hrole, hstate, h0', hid, hcl]
    refine ⟨e, ?_⟩
    intro h1
    rw [e]
    obtain ⟨m1, m2, m3, -, -⟩ := MarkBoardActive_fields x true h0
    obtain ⟨p1, p2, p3, p4, -, -⟩ := PollNextBoard_advances _ (by rw [m2]; exact h0)
      (by rw [m2, m3]; exact h1)
    rw [p1, p2, p3, p4, m1, m2]
    simp
  · intro h0 hid hcl
    have h0' : ¬ x.poll_cur < 0 := by omega
    have hcl0 : ¬ b &&& 0xC0 = 0x00 := by rw [hcl]; decide
    simp [XPI.On_CRX, hrole, hstate, h0', hid, hcl, hcl0]
  · intro h0 hid hc0 hc1
    have h0' : ¬ x.poll_cur < 0 := by omega
    obtain ⟨m1, m2, -, -, -⟩ := MarkBoardActive_fields x true h0
    simp [XPI.On_CRX, hrole, hstate, h0', hid, hc0, hc1, XPI.On_CRX_collect, XPI.Goto,
      XPI.collectCRX, hbm, setAt_same, XPI.FPGA_Write, m1, m2, RECEIVE_TIMEOUT]

/-- Witness of C17: board 0 is polled and answers with the octet `80`. -/
theorem On_CRX_answers_poll_witness :
    (XPI.init.runEvents examplePollEvents).state = .POLL_EIRQ ∧
    (XPI.init.runEvents examplePollEvents).poll_cur = 0 ∧
    ((XPI.init.runEvents examplePollEvents).On_CRX 0x80).state = .RECEIVE_CRX ∧
    ((XPI.init.runEvents examplePollEvents).On_CRX 0x80).crxLen = 1 :=
  ⟨by decide, by decide,
   ((On_CRX_answers_poll (XPI.init.runEvents examplePollEvents) 0x80 (by decide) (by decide)
      (by decide)).2.2.2.2 (by decide) (by decide) (by decide) (by decide)).2.2.1,
   ((On_CRX_answers_poll (XPI.init.runEvents examplePollEvents) 0x80 (by decide) (by decide)
      (by decide)).2.2.2.2 (by decide) (by decide) (by decide) (by decide)).2.2.2.2.1⟩

/-- C18: let the poll sweep be begun by `StartTransmissionIfIdle` on a master
engine with 64 boards, and let 65 timer expiries follow (each after at least 4 ms
and less than `2 ^ 31` ms) with no other event.  After each of the first 64
expiries the engine is in `POLL_EIRQ` polling the next board in turn, with the
stuck-interrupt counter unchanged; after the 65th the engine is in `IDLE`, the
32-bit stuck-interrupt counter has advanced by one, none of the 64 boards is
flagged active, `poll_active_cnt` is `0` and the rearrange flag is clear. -/
theorem poll_sweep_without_answer (y : XPI) (xsvfRC : Int) (ds : List Nat)
    (hrole : y.isMCPU = true) (hidle : y.state = .IDLE) (hctxe : y.isCTXE = true)
    (heirq : y.isEIRQ = true) (hboards : y.maxboardc = 64)
    (hcnt : 0 ≤ y.poll_active_cnt ∧ y.poll_active_cnt ≤ 64)
    (hlen : ds.length = 65) (hds : ∀ d ∈ ds, 4 ≤ d ∧ d < 2 ^ 31) :
    (∀ k, k ≤ 64 →
      (y.StartTransmissionIfIdle.runEvents
        ((ds.take k).flatMap (fun d => [Event.tick d, Event.On_Timer xsvfRC]))).state =
          .POLL_EIRQ ∧
      (y.StartTransmissionIfIdle.runEvents
        ((ds.take k).flatMap (fun d => [Event.tick d, Event.On_Timer xsvfRC]))).poll_cur =
          (k : Int) - 1 ∧
      (y.StartTransmissionIfIdle.runEvents
        ((ds.take k).flatMap (fun d => [Event.tick d, Event.On_Timer xsvfRC]))).stuck_eirq_count =
          y.stuck_eirq_count) ∧
    (y.StartTransmissionIfIdle.runEvents
      (ds.flatMap (fun d => [Event.tick d, Event.On_Timer xsvfRC]))).state = .IDLE ∧
    (y.StartTransmissionIfIdle.runEvents
      (ds.flatMap (fun d => [Event.tick d, Event.On_Timer xsvfRC]))).stuck_eirq_count =
        (y.stuck_eirq_count + 1) % 2 ^ 32 ∧
    (∀ i, i < 64 →
      (y.StartTransmissionIfIdle.runEvents
        (ds.flatMap (fun d => [Event.tick d, Event.On_Timer xsvfRC]))).poll_list i &&& 0x80 = 0) ∧
    (y.StartTransmissionIfIdle.runEvents
      (ds.flatMap (fun d => [Event.tick d, Event.On_Timer xsvfRC]))).poll_active_cnt = 0 ∧
    (y.StartTransmissionIfIdle.runEvents
      (ds.flatMap (fun d => [Event.tick d, Event.On_Timer xsvfRC]))).rearrange_poll_list = false := by
  have h0 := SweepState_begin y hrole hidle hctxe heirq hboards
  have hpre : ∀ k, k ≤ 64 → SweepState y k
      (y.StartTransmissionIfIdle.runEvents
        ((ds.take k).flatMap (fun d => [Event.tick d, Event.On_Timer xsvfRC]))) := by
    intro k hk
    rw [runEvents_expiries]
    have hl : (ds.take k).length = k := by rw [List.length_take]; omega
    have := expiries_poll y xsvfRC (ds.take k) 0 _ h0 (by omega)
      (fun d hd => hds d (List.mem_of_mem_take hd))
    rw [hl, Nat.zero_add] at this
    exact this
  constructor
  · intro k hk
    have := hpre k hk
    exact ⟨this.state, this.cur, this.stuck⟩
  · have h64 := hpre 64 (by omega)
    have hsplit : ds = ds.take 64 ++ ds.drop 64 := (List.take_append_drop 64 ds).symm
    have hdl : (ds.drop 64).length = 1 := by rw [List.length_drop]; omega
    obtain ⟨d, hd⟩ := List.length_eq_one.mp hdl
    have hdm : d ∈ ds := by
      rw [hsplit, hd]
      simp
    have hfin := expire_ends_sweep y _ xsvfRC d h64 hcnt (hds d hdm).1 (hds d hdm).2
    have e : y.StartTransmissionIfIdle.runEvents
          (ds.flatMap (fun d => [Event.tick d, Event.On_Timer xsvfRC])) =
        (y.StartTransmissionIfIdle.runEvents
          ((ds.take 64).flatMap (fun d => [Event.tick d, Event.On_Timer xsvfRC]))).expire xsvfRC d := by
      conv_lhs => rw [hsplit, hd]
      rw [runEvents_expiries, runEvents_expiries, List.foldl_append]
      rfl
    rw [e]
    exact hfin

set_option maxRecDepth 100000 in
/-- Witness of C18 on the engine after `exampleEirqEvents`, with an expiry
every 4 ms. -/
theorem poll_sweep_without_answer_witness :
    (XPI.init.runEvents exampleEirqEvents).maxboardc = 64 ∧
    ((XPI.init.runEvents exampleEirqEvents).StartTransmissionIfIdle.runEvents
      ((List.replicate 65 4).flatMap (fun d => [Event.tick d, Event.On_Timer 0]))).state = .IDLE ∧
    ((XPI.init.runEvents exampleEirqEvents).StartTransmissionIfIdle.runEvents
      ((List.replicate 65 4).flatMap
        (fun d => [Event.tick d, Event.On_Timer 0]))).stuck_eirq_count =
      ((XPI.init.runEvents exampleEirqEvents).stuck_eirq_count + 1) % 2 ^ 32 :=
  ⟨by decide,
   (poll_sweep_without_answer (XPI.init.runEvents exampleEirqEvents) 0 (List.replicate 65 4)
      (by decide) (by decide) (by decide) (by decide) (by decide) (by decide) (by decide)
      (by decide)).2.1,
   (poll_sweep_without_answer (XPI.init.runEvents exampleEirqEvents) 0 (List.replicate 65 4)
      (by decide) (by decide) (by decide) (by decide) (by decide) (by decide) (by decide)
      (by decide)).2.2.1⟩

set_option maxRecDepth 100000 in
set_option maxHeartbeats 4000000 in
/-- C19 fails on the code: after `exampleStaleFlagEvents`, whose last event
completes a frame and so calls `RearrangePollList` with the rearrange flag set,
`poll_active_cnt` is `1` and entry 0 is flagged, but entry 1 (board 1, flagged in
the sweep before, which ended by a timeout in `RECEIVE_CRX` without a
rearrangement) is flagged too: the list is not partitioned and two boards are
flagged. -/
theorem RearrangePollList_leaves_stale_flag :
    Reachable (XPI.init.runEvents exampleStaleFlagEvents) ∧
    (XPI.init.runEvents exampleStaleFlagEvents.dropLast).rearrange_poll_list = true ∧
    (XPI.init.runEvents exampleStaleFlagEvents).rearrange_poll_list = false ∧
    (XPI.init.runEvents exampleStaleFlagEvents).poll_active_cnt = 1 ∧
    (XPI.init.runEvents exampleStaleFlagEvents).poll_list 0 = 0x80 ∧
    (XPI.init.runEvents exampleStaleFlagEvents).poll_list 1 = 0x81 ∧
    ¬ Partitioned (XPI.init.runEvents exampleStaleFlagEvents) := by
  have key : (XPI.init.runEvents exampleStaleFlagEvents.dropLast).rearrange_poll_list = true ∧
      (XPI.init.runEvents exampleStaleFlagEvents).rearrange_poll_list = false ∧
      (XPI.init.runEvents exampleStaleFlagEvents).poll_active_cnt = 1 ∧
      (XPI.init.runEvents exampleStaleFlagEvents).poll_list 0 = 0x80 ∧
      (XPI.init.runEvents exampleStaleFlagEvents).poll_list 1 = 0x81 ∧
      (XPI.init.runEvents exampleStaleFlagEvents).maxboardc = 64 := by
    decide
  obtain ⟨k1, k2, k3, k4, k5, k6⟩ := key
  refine ⟨⟨_, rfl⟩, k1, k2, k3, k4, k5, ?_⟩
  intro h
  have h1 := (h 1 (by rw [k6]; decide)).mp (by rw [k5]; decide)
  rw [k3] at h1
  exact absurd h1 (by decide)

/-- C20: in every reachable state `ResetFPGA` leaves the engine in
`DISABLED` with no timeout armed, the presence flag `fpgaOK` false and the role
flag `isMCPU` false; a second call right after the first leaves state, timer,
presence flag, role flag and board position as the first call left them, and
sends no further record to the host. -/
theorem ResetFPGA_twice_is_once (x : XPI) (rc rc2 : Int) (h : Reachable x) :
    (x.ResetFPGA rc).state = .DISABLED ∧ (x.ResetFPGA rc).timer = -1 ∧
    (x.ResetFPGA rc).fpgaOK = false ∧ (x.ResetFPGA rc).isMCPU = false ∧
    ((x.ResetFPGA rc).ResetFPGA rc2).state = (x.ResetFPGA rc).state ∧
    ((x.ResetFPGA rc).ResetFPGA rc2).timer = (x.ResetFPGA rc).timer ∧
    ((x.ResetFPGA rc).ResetFPGA rc2).fpgaOK = (x.ResetFPGA rc).fpgaOK ∧
    ((x.ResetFPGA rc).ResetFPGA rc2).isMCPU = (x.ResetFPGA rc).isMCPU ∧
    ((x.ResetFPGA rc).ResetFPGA rc2).boardPos = (x.ResetFPGA rc).boardPos ∧
    ((x.ResetFPGA rc).ResetFPGA rc2).usbOut = (x.ResetFPGA rc).usbOut := by
  have first : (x.ResetFPGA rc).state = .DISABLED ∧ (x.ResetFPGA rc).timer = -1 ∧
      (x.ResetFPGA rc).fpgaOK = false ∧ (x.ResetFPGA rc).isMCPU = false := by
    by_cases hok : x.fpgaOK = true
    · obtain ⟨w, hw⟩ := ResetFPGA_present x rc hok
      rw [hw]
      exact ⟨rfl, rfl, rfl, rfl⟩
    · have hok' : x.fpgaOK = false := by simpa using hok
      rw [ResetFPGA_absent x rc hok']
      refine ⟨rfl, rfl, hok', ?_⟩
      have hr := Reachable_role x h
      show x.isMCPU = false
      cases hm : x.isMCPU
      · rfl
      · rw [hr hm] at hok'
        exact absurd hok' (by decide)
  obtain ⟨f1, f2, f3, f4⟩ := first
  rw [ResetFPGA_absent (x.ResetFPGA rc) rc2 f3]
  refine ⟨f1, f2, f3, f4, ?_, ?_, rfl, rfl, rfl, rfl⟩
  · rw [f1]
    rfl
  · rw [f2]
    rfl

set_option maxRecDepth 100000 in
/-- Witness of C20 on the engine after `exampleFrameEvents` (master role, FPGA
present, waiting in `WAIT_CTXE`). -/
theorem ResetFPGA_twice_is_once_witness :
    Reachable (XPI.init.runEvents exampleFrameEvents) ∧
    (XPI.init.runEvents exampleFrameEvents).isMCPU = true ∧
    ((XPI.init.runEvents exampleFrameEvents).ResetFPGA 0).state = .DISABLED ∧
    ((XPI.init.runEvents exampleFrameEvents).ResetFPGA 0).isMCPU = false ∧
    (((XPI.init.runEvents exampleFrameEvents).ResetFPGA 0).ResetFPGA 0).boardPos =
      ((XPI.init.runEvents exampleFrameEvents).ResetFPGA 0).boardPos :=
  ⟨⟨_, rfl⟩, by decide,
   (ResetFPGA_twice_is_once (XPI.init.runEvents exampleFrameEvents) 0 0 ⟨_, rfl⟩).1,
   (ResetFPGA_twice_is_once (XPI.init.runEvents exampleFrameEvents) 0 0 ⟨_, rfl⟩).2.2.2.1,
   (ResetFPGA_twice_is_once (XPI.init.runEvents exampleFrameEvents) 0 0
      ⟨_, rfl⟩).2.2.2.2.2.2.2.2.1⟩

/-- C21: `StartTransmissionIfIdle` returns the engine unchanged unless the role
is master, the state is `IDLE` and `isCTXE` is set; it writes to the
command-channel data register only when moreover the EIRQ flag is set or
`ctx_count > 0`; in that case it leaves a state other than `IDLE` and `isCTXE`
false, so that a second call right after it changes nothing; and in every case a
second call right after the first writes nothing to the command channel. -/
theorem StartTransmissionIfIdle_starts_once (x : XPI) :
    (¬ (x.isMCPU = true ∧ x.state = .IDLE ∧ x.isCTXE = true) → x.StartTransmissionIfIdle = x) ∧
    (ctxDataWrites x.StartTransmissionIfIdle.fpgaWrites ≠ ctxDataWrites x.fpgaWrites →
      x.isMCPU = true ∧ x.state = .IDLE ∧ x.isCTXE = true ∧
      (x.isEIRQ = true ∨ 0 < x.ctx_count)) ∧
    (x.isMCPU = true → x.state = .IDLE → x.isCTXE = true →
      (x.isEIRQ = true ∨ 0 < x.ctx_count) →
      x.StartTransmissionIfIdle.state ≠ .IDLE ∧
      x.StartTransmissionIfIdle.isCTXE = false ∧
      x.StartTransmissionIfIdle.StartTransmissionIfIdle = x.StartTransmissionIfIdle) ∧
    ctxDataWrites x.StartTransmissionIfIdle.StartTransmissionIfIdle.fpgaWrites =
      ctxDataWrites x.StartTransmissionIfIdle.fpgaWrites := by
  have hguard : ∀ y : XPI, ¬ (y.isMCPU = true ∧ y.state = .IDLE ∧ y.isCTXE = true) →
      y.StartTransmissionIfIdle = y := by
    intro y h
    unfold XPI.StartTransmissionIfIdle
    rw [if_pos h]
  have hstart : x.isMCPU = true → x.state = .IDLE → x.isCTXE = true →
      (x.isEIRQ = true ∨ 0 < x.ctx_count) →
      x.StartTransmissionIfIdle.state ≠ .IDLE ∧
      x.StartTransmissionIfIdle.isCTXE = false := by
    intro h1 h2 h3 h4
    by_cases he : x.isEIRQ = true
    · simp [XPI.StartTransmissionIfIdle, h1, h2, h3, he, XPI.FPGA_Write, XPI.Goto]
    · have hc : 0 < x.ctx_count := by
        rcases h4 with h4 | h4
        · exact absurd h4 he
        · exact h4
      by_cases hack : x.buf x.pRead &&& 0xC0 = 0x80 <;>
        simp [XPI.StartTransmissionIfIdle, h1, h2, h3, he, hc, hack, XPI.FPGA_Write, XPI.Goto,
          writeCtx_eq]
  have hidle : ¬ (x.isEIRQ = true ∨ 0 < x.ctx_count) →
      ctxDataWrites x.StartTransmissionIfIdle.fpgaWrites = ctxDataWrites x.fpgaWrites ∧
      ctxDataWrites x.StartTransmissionIfIdle.StartTransmissionIfIdle.fpgaWrites =
        ctxDataWrites x.fpgaWrites := by
    intro h
    have he : ¬ x.isEIRQ = true := fun h' => h (Or.inl h')
    have hc : ¬ 0 < x.ctx_count := fun h' => h (Or.inr h')
    by_cases hg : x.isMCPU = true ∧ x.state = .IDLE ∧ x.isCTXE = true
    · obtain ⟨h1, h2, h3⟩ := hg
      have hc0 : x.ctx_count = 0 := by omega
      simp [XPI.StartTransmissionIfIdle, h1, h2, h3, he, hc0, XPI.FPGA_Write, ctxDataWrites]
    · rw [hguard x hg, hguard x hg]
      exact ⟨rfl, rfl⟩
  refine ⟨hguard x, ?_, ?_, ?_⟩
  · intro hne
    by_cases hg : x.isMCPU = true ∧ x.state = .IDLE ∧ x.isCTXE = true
    · refine ⟨hg.1, hg.2.1, hg.2.2, ?_⟩
      by_contra hno
      exact hne (hidle hno).1
    · rw [hguard x hg] at hne
      exact absurd rfl hne
  · intro h1 h2 h3 h4
    obtain ⟨s1, s2⟩ := hstart h1 h2 h3 h4
    exact ⟨s1, s2, hguard _ (fun hg => s1 hg.2.1)⟩
  · by_cases hg : x.isMCPU = true ∧ x.state = .IDLE ∧ x.isCTXE = true
    · by_cases h4 : x.isEIRQ = true ∨ 0 < x.ctx_count
      · obtain ⟨s1, -⟩ := hstart hg.1 hg.2.1 hg.2.2 h4
        rw [hguard _ (fun hg' => s1 hg'.2.1)]
      · rw [(hidle h4).1, (hidle h4).2]
    · rw [hguard x hg, hguard x hg]

/-- Witness of C21 on the engine with the frame `83 84 85` loaded. -/
theorem StartTransmissionIfIdle_starts_once_witness :
    exampleLoaded.StartTransmissionIfIdle.state ≠ .IDLE ∧
    exampleLoaded.StartTransmissionIfIdle.isCTXE = false ∧
    exampleLoaded.StartTransmissionIfIdle.StartTransmissionIfIdle =
      exampleLoaded.StartTransmissionIfIdle :=
  (StartTransmissionIfIdle_starts_once exampleLoaded).2.2.1 (by decide) (by decide) (by decide)
    (Or.inr (by decide))

/-- C22: in every reachable state, if the state is one of `WAIT_SENT`,
`WAIT_CTXE`, `WAIT_ACK`, `BLOCKED_SEND`, `POLL_EIRQ`, `RECEIVE_CRX`, `RECEIVE_CTX`
then the countdown timer is armed (`timer >= 0`); a negative timer is `-1` and
occurs only in `DISABLED` and `IDLE`.  And when the timer expires, `On_Timer`
ends the wait: from `BLOCKED_SEND`, `RECEIVE_CTX`, `RECEIVE_CRX` and `WAIT_ACK`
the state becomes `IDLE`, from `WAIT_SENT` and `WAIT_CTXE` it becomes `DISABLED`,
and from `POLL_EIRQ` it becomes `IDLE` or the poll of a later board begins
(`POLL_EIRQ` with the cursor advanced, below `maxboardc`, and the timer set to
`EIRQ_POLL_DELAY`). -/
theorem waiting_states_have_armed_timer (x : XPI) (h : Reachable x) :
    (x.state = .WAIT_SENT ∨ x.state = .WAIT_CTXE ∨ x.state = .WAIT_ACK ∨
      x.state = .BLOCKED_SEND ∨ x.state = .POLL_EIRQ ∨ x.state = .RECEIVE_CRX ∨
      x.state = .RECEIVE_CTX → 0 ≤ x.timer) ∧
    (x.timer < 0 → x.timer = -1 ∧ (x.state = .DISABLED ∨ x.state = .IDLE)) ∧
    (∀ xsvfRC : Int, x.timerExpires →
      (x.state = .POLL_EIRQ →
        (x.On_Timer xsvfRC).state = .IDLE ∨
        ((x.On_Timer xsvfRC).state = .POLL_EIRQ ∧
         (x.On_Timer xsvfRC).timer = EIRQ_POLL_DELAY ∧
         x.poll_cur < (x.On_Timer xsvfRC).poll_cur ∧
         (x.On_Timer xsvfRC).poll_cur < x.maxboardc)) ∧
      (x.state = .BLOCKED_SEND ∨ x.state = .RECEIVE_CTX ∨ x.state = .RECEIVE_CRX ∨
        x.state = .WAIT_ACK → (x.On_Timer xsvfRC).state = .IDLE) ∧
      (x.state = .WAIT_SENT ∨ x.state = .WAIT_CTXE →
        (x.On_Timer xsvfRC).state = .DISABLED)) := by
  have hinv := Reachable_TimerOK x h
  refine ⟨?_, ?_, fun rc hexp => On_Timer_expiry_leaves x rc hexp⟩
  · intro hs
    rcases hinv with h0 | ⟨-, h1 | h1⟩
    · exact h0
    · rw [h1] at hs
      simp at hs
    · rw [h1] at hs
      simp at hs
  · intro hneg
    rcases hinv with h0 | h1
    · omega
    · exact h1

set_option maxRecDepth 100000 in
/-- Witness of C22 on the engine after `exampleFrameEvents`, which waits in
`WAIT_CTXE`. -/
theorem waiting_states_have_armed_timer_witness :
    Reachable (XPI.init.runEvents exampleFrameEvents) ∧
    (XPI.init.runEvents exampleFrameEvents).state = .WAIT_CTXE ∧
    0 ≤ (XPI.init.runEvents exampleFrameEvents).timer :=
  ⟨⟨_, rfl⟩, by decide,
   (waiting_states_have_armed_timer (XPI.init.runEvents exampleFrameEvents) ⟨_, rfl⟩).1
     (Or.inr (Or.inl (by decide)))⟩

/-- C23: one wake of the dispatcher (`FPGA_IrqTasklet` after a successful
`fpgaEvent.Wait`), for every sequence `reads` of values read: the bitmap is read
at most 10000 times; when the read number `j + 1 <= 10000` is the first that
returns `0`, the loop stops at that read and the wake ends by enabling the
interrupt line, without `ResetFPGA`; when all 10000 reads are nonzero, the wake
ends by `ResetFPGA` (the engine is left in `DISABLED`) and the interrupt line is
not enabled. -/
theorem interrupt_flood_guard (x : XPI) (reads : Nat → IrqReads) (xsvfRC : Int) :
    (x.FPGA_IrqWake reads xsvfRC).reads ≤ 10000 ∧
    (∀ j, j < 10000 → (reads j).irq_list % 256 = 0 →
      (∀ i, i < j → (reads i).irq_list % 256 ≠ 0) →
      (x.FPGA_IrqWake reads xsvfRC).reads = j + 1 ∧
      (x.FPGA_IrqWake reads xsvfRC).ending = .enableIrq ∧
      (x.FPGA_IrqWake reads xsvfRC).engine = (XPI.irqLoop 10000 reads 0 x).1) ∧
    ((∀ j, j < 10000 → (reads j).irq_list % 256 ≠ 0) →
      (x.FPGA_IrqWake reads xsvfRC).reads = 10000 ∧
      (x.FPGA_IrqWake reads xsvfRC).ending = .resetFPGA ∧
      (x.FPGA_IrqWake reads xsvfRC).engine =
        (((XPI.irqLoop 10000 reads 0 x).1).tracef "SEVERE ERROR: Too many interrupts\n"
          []).ResetFPGA xsvfRC ∧
      (x.FPGA_IrqWake reads xsvfRC).engine.state = .DISABLED) := by
  obtain ⟨i1, i2, i3⟩ := irqLoop_reads reads 10000 0 x
  refine ⟨?_, ?_, ?_⟩
  · unfold XPI.FPGA_IrqWake
    simp only
    split_ifs <;> simpa using i1
  · intro j hj hz hbefore
    have := i3 j hj (by simpa using hz) (fun i hi => by simpa using hbefore i hi)
    have hnn : ¬ (XPI.irqLoop 10000 reads 0 x).2.1 < 0 := by omega
    unfold XPI.FPGA_IrqWake
    simp only [hnn, if_false]
    exact ⟨by rw [this.2]; omega, trivial, trivial⟩
  · intro hall
    have := i2 (fun j hj => by simpa using hall j hj)
    have hneg : (XPI.irqLoop 10000 reads 0 x).2.1 < 0 := by rw [this.1]; decide
    unfold XPI.FPGA_IrqWake
    simp only [hneg, if_true]
    refine ⟨by rw [this.2], trivial, trivial, ?_⟩
    by_cases hok : ((XPI.irqLoop 10000 reads 0 x).1.tracef "SEVERE ERROR: Too many interrupts\n"
        []).fpgaOK = true
    · obtain ⟨w, hw⟩ := ResetFPGA_present _ xsvfRC hok
      rw [hw]
    · have hok' : ((XPI.irqLoop 10000 reads 0 x).1.tracef "SEVERE ERROR: Too many interrupts\n"
          []).fpgaOK = false := by simpa using hok
      rw [ResetFPGA_absent _ xsvfRC hok']
      rfl

set_option maxRecDepth 100000 in
/-- Witness of C23: the bitmap shows the EIRQ bit twice and is empty at the
third read. -/
theorem interrupt_flood_guard_witness :
    (exampleIrqReads 2).irq_list % 256 = 0 ∧
    (XPI.init.FPGA_IrqWake exampleIrqReads 0).reads = 2 + 1 ∧
    (XPI.init.FPGA_IrqWake exampleIrqReads 0).ending = .enableIrq :=
  ⟨by decide,
   ((interrupt_flood_guard XPI.init exampleIrqReads 0).2.1 2 (by decide) (by decide)
      (by decide)).1,
   ((interrupt_flood_guard XPI.init exampleIrqReads 0).2.1 2 (by decide) (by decide)
      (by decide)).2.1⟩

/-- C24: let `N` be `maxboardc` when the cursor is at or past `maxboardc`,
else the larger of `poll_active_cnt` and cursor `+ 1`, and let
`0 <= poll_active_cnt = p <= N = n <= maxboardc = m`.  With the rearrange flag
set, `RearrangePollList` replaces the entries `0 .. n - 1` by their stable
partition (the entries with the high bit set in their order, then the others in
their order), leaves the entries `n .. m - 1` as they were, so that the entries
`0 .. m - 1` are a permutation of the old ones, sets `poll_active_cnt` to `p` plus
the number of flagged entries among `p .. n - 1` minus the number of unflagged
entries among `0 .. p - 1`, and clears the flag.  With the flag clear it changes
nothing. -/
theorem RearrangePollList_is_stable_partition (x : XPI) (p n m : Nat)
    (hp : x.poll_active_cnt = (p : Int)) (hm : x.maxboardc = (m : Int))
    (hN : (if x.poll_cur ≥ x.maxboardc then x.maxboardc
           else if x.poll_cur < x.poll_active_cnt then x.poll_active_cnt
           else x.poll_cur + 1) = (n : Int))
    (hpn : p ≤ n) (hnm : n ≤ m) :
    (x.rearrange_poll_list = true →
      frameAt x.RearrangePollList.poll_list 0 n =
        (frameAt x.poll_list 0 n).filter (fun v => decide (v &&& 0x80 ≠ 0)) ++
        (frameAt x.poll_list 0 n).filter (fun v => decide (v &&& 0x80 = 0)) ∧
      (∀ i, n ≤ i → i < m → x.RearrangePollList.poll_list i = x.poll_list i) ∧
      (frameAt x.RearrangePollList.poll_list 0 m).Perm (frameAt x.poll_list 0 m) ∧
      x.RearrangePollList.poll_active_cnt =
        (p : Int) +
          (((frameAt x.poll_list p (n - p)).filter (fun v => decide (v &&& 0x80 ≠ 0))).length : Int) -
          (((frameAt x.poll_list 0 p).filter (fun v => decide (v &&& 0x80 = 0))).length : Int) ∧
      x.RearrangePollList.rearrange_poll_list = false) ∧
    (x.rearrange_poll_list = false → x.RearrangePollList = x) := by
  refine ⟨?_, RearrangePollList_idle x⟩
  intro hflag
  obtain ⟨s1, s2, s3, s4⟩ := RearrangePollList_spec x p n m hflag hp hm hN hpn hnm
  have e1 : (fun v : Nat => decide (decide (v &&& 0x80 ≠ 0) = true)) =
      (fun v : Nat => decide (v &&& 0x80 ≠ 0)) := by
    funext v
    simp
  have e2 : (fun v : Nat => decide (decide (v &&& 0x80 ≠ 0) = false)) =
      (fun v : Nat => decide (v &&& 0x80 = 0)) := by
    funext v
    simp
  rw [e1, e2] at s1 s3
  have hsplit := frameAt_split x.poll_list 0 n p hpn
  rw [Nat.zero_add] at hsplit
  generalize hA0 : (frameAt x.poll_list 0 p).filter (fun v => decide (v &&& 0x80 ≠ 0)) = A0 at s1
  generalize hA1 : (frameAt x.poll_list p (n - p)).filter (fun v => decide (v &&& 0x80 ≠ 0)) = A1
    at s1 s3
  generalize hP0 : (frameAt x.poll_list 0 p).filter (fun v => decide (v &&& 0x80 = 0)) = P0
    at s1 s3
  generalize hP1 : (frameAt x.poll_list p (n - p)).filter (fun v => decide (v &&& 0x80 = 0)) = P1
    at s1
  have hlen : (A0 ++ A1 ++ P0 ++ P1).length = n := by
    have l1 := filter_length_add (frameAt x.poll_list 0 p) (fun v => decide (v &&& 0x80 ≠ 0))
    have l2 := filter_length_add (frameAt x.poll_list p (n - p))
      (fun v => decide (v &&& 0x80 ≠ 0))
    have e3 : (fun v : Nat => !decide (v &&& 0x80 ≠ 0)) = (fun v : Nat => decide (v &&& 0x80 = 0)) := by
      funext v
      simp
    rw [e3, hA0, hP0, frameAt_length] at l1
    rw [e3, hA1, hP1, frameAt_length] at l2
    simp only [List.length_append]
    omega
  have hfirst : frameAt x.RearrangePollList.poll_list 0 n = A0 ++ A1 ++ P0 ++ P1 := by
    have : frameAt x.RearrangePollList.poll_list 0 n =
        (List.range (A0 ++ A1 ++ P0 ++ P1).length).map
          (fun i => (A0 ++ A1 ++ P0 ++ P1).getD i 0) := by
      rw [hlen]
      unfold frameAt
      apply List.map_congr_left
      intro i hi
      rw [Nat.zero_add]
      exact s1 i (List.mem_range.mp hi)
    rw [this, map_getD_range]
  have hpart : A0 ++ A1 ++ P0 ++ P1 =
      (frameAt x.poll_list 0 n).filter (fun v => decide (v &&& 0x80 ≠ 0)) ++
      (frameAt x.poll_list 0 n).filter (fun v => decide (v &&& 0x80 = 0)) := by
    rw [hsplit, List.filter_append, List.filter_append, hA0, hA1, hP0, hP1]
    simp only [List.append_assoc]
  refine ⟨by rw [hfirst, hpart], s2, ?_, s3, s4⟩
  have hrest : frameAt x.RearrangePollList.poll_list n (m - n) = frameAt x.poll_list n (m - n) := by
    unfold frameAt
    apply List.map_congr_left
    intro i hi
    have := List.mem_range.mp hi
    exact s2 (n + i) (by omega) (by omega)
  have t1 := frameAt_split x.RearrangePollList.poll_list 0 m n hnm
  have t2 := frameAt_split x.poll_list 0 m n hnm
  rw [Nat.zero_add] at t1 t2
  rw [t1, t2, hrest, hfirst, hpart]
  apply List.Perm.append_right
  have e3 : (fun v : Nat => decide (v &&& 0x80 = 0)) = (fun v : Nat => !decide (v &&& 0x80 ≠ 0)) := by
    funext v
    simp
  rw [e3]
  exact List.filter_append_perm _ _

set_option maxRecDepth 100000 in
/-- Witness of C24 on the engine after `exampleActiveEvents`: board 0 has just
been marked active, the cursor is `1`, so `N = 2`. -/
theorem RearrangePollList_is_stable_partition_witness :
    (XPI.init.runEvents exampleActiveEvents).rearrange_poll_list = true ∧
    (XPI.init.runEvents exampleActiveEvents).poll_cur = 1 ∧
    (XPI.init.runEvents exampleActiveEvents).RearrangePollList.rearrange_poll_list = false ∧
    frameAt (XPI.init.runEvents exampleActiveEvents).RearrangePollList.poll_list 0 2 =
      (frameAt (XPI.init.runEvents exampleActiveEvents).poll_list 0 2).filter
        (fun v => decide (v &&& 0x80 ≠ 0)) ++
      (frameAt (XPI.init.runEvents exampleActiveEvents).poll_list 0 2).filter
        (fun v => decide (v &&& 0x80 = 0)) :=
  ⟨by decide, by decide,
   ((RearrangePollList_is_stable_partition (XPI.init.runEvents exampleActiveEvents) 0 2 64
      (by decide) (by decide) (by decide) (by decide) (by decide)).1 (by decide)).2.2.2.2,
   ((RearrangePollList_is_stable_partition (XPI.init.runEvents exampleActiveEvents) 0 2 64
      (by decide) (by decide) (by decide) (by decide) (by decide)).1 (by decide)).1⟩

/-- C25: `MarkBoardActive( active )` returns the engine unchanged when the
cursor is negative.  Otherwise the high bit of the entry at the cursor is set
exactly when `active` holds, the low seven bits of that entry, every other entry,
the cursor and `poll_active_cnt` stay, and the rearrange flag is set afterwards
exactly when it was set before or the boundary is crossed (`active` and cursor
`>= poll_active_cnt`, or not `active` and cursor `< poll_active_cnt`); apart from
the poll list, the flag and the text line printed (which goes to `usbOut` as
text, through the line that `usb_putc` collects), no member changes, and no
telemetry record is added. -/
theorem MarkBoardActive_touches_one_entry (x : XPI) (active : Bool) :
    (x.poll_cur < 0 → x.MarkBoardActive active = x) ∧
    (0 ≤ x.poll_cur →
      ((x.MarkBoardActive active).poll_list x.poll_cur.toNat &&& 0x80 ≠ 0 ↔ active = true) ∧
      (x.MarkBoardActive active).poll_list x.poll_cur.toNat &&& 0x7F =
        x.poll_list x.poll_cur.toNat &&& 0x7F ∧
      (∀ i, i ≠ x.poll_cur.toNat → (x.MarkBoardActive active).poll_list i = x.poll_list i) ∧
      (x.MarkBoardActive active).poll_cur = x.poll_cur ∧
      (x.MarkBoardActive active).poll_active_cnt = x.poll_active_cnt ∧
      ((x.MarkBoardActive active).rearrange_poll_list = true ↔
        (x.rearrange_poll_list = true ∨
         (active = true ∧ x.poll_cur ≥ x.poll_active_cnt) ∨
         (active = false ∧ x.poll_cur < x.poll_active_cnt))) ∧
      x.MarkBoardActive active =
        { x with
          poll_list := (x.MarkBoardActive active).poll_list
          rearrange_poll_list := (x.MarkBoardActive active).rearrange_poll_list
          usbOut := (x.MarkBoardActive active).usbOut
          logLine := (x.MarkBoardActive active).logLine
          traceOut := (x.MarkBoardActive active).traceOut }) ∧
    telemetry (x.MarkBoardActive active).usbOut = telemetry x.usbOut := by
  refine ⟨?_, ?_, (MarkBoardActive_crx x active).1⟩
  · intro h
    simp [XPI.MarkBoardActive, h]
  · intro h0
    have h0' : ¬ x.poll_cur < 0 := by omega
    cases active
    · by_cases hc : x.poll_cur < x.poll_active_cnt
      · have hc' : ¬ x.poll_active_cnt ≤ x.poll_cur := by omega
        simp [XPI.MarkBoardActive, h0', hc, XPI.tracef, setAt, and_7F_unflagged, and_7F_low]
        intro i hi
        simp [hi]
      · simp [XPI.MarkBoardActive, h0', hc, XPI.tracef, setAt, and_7F_unflagged, and_7F_low]
        intro i hi
        simp [hi]
    · by_cases hc : x.poll_cur < x.poll_active_cnt
      · have hc' : ¬ x.poll_active_cnt ≤ x.poll_cur := by omega
        simp [XPI.MarkBoardActive, h0', hc, hc', XPI.tracef, setAt, or_80_flagged, or_80_low]
        intro i hi
        simp [hi]
      · have hc' : x.poll_active_cnt ≤ x.poll_cur := by omega
        simp [XPI.MarkBoardActive, h0', hc, hc', XPI.tracef, setAt, or_80_flagged, or_80_low]
        intro i hi
        simp [hi]

set_option maxRecDepth 100000 in
/-- Witness of C25 on the engine after `examplePollEvents` (cursor `0`, no
board active), with `active` true. -/
theorem MarkBoardActive_touches_one_entry_witness :
    (XPI.init.runEvents examplePollEvents).poll_cur = 0 ∧
    ((XPI.init.runEvents examplePollEvents).MarkBoardActive true).poll_cur = 0 ∧
    ((XPI.init.runEvents examplePollEvents).MarkBoardActive true).poll_list
      (XPI.init.runEvents examplePollEvents).poll_cur.toNat &&& 0x80 ≠ 0 :=
  ⟨by decide,
   ((MarkBoardActive_touches_one_entry (XPI.init.runEvents examplePollEvents) true).2.1
      (by decide)).2.2.2.1.trans (by decide),
   ((MarkBoardActive_touches_one_entry (XPI.init.runEvents examplePollEvents) true).2.1
      (by decide)).1.mpr rfl⟩

/-- C26: in every reachable state the lengths `crxLen` and `ctxLen` of the
two reassembly contexts are at most `17`; these are the indices at which the
next call of `On_CRX` or `On_CTX` stores its octet (when it does not start the
frame again at index `0`).  The length that `On_CTX` holds after the store is at
most `18`, so the test `ctxLen > 18` of the overflow branch is false whenever it is
made. -/
theorem reassembly_stays_within_18 (x : XPI) (h : Reachable x) :
    x.crxLen ≤ 17 ∧ x.ctxLen ≤ 17 ∧
    (∀ octet : Nat, (x.collectCRX octet).crxLen ≤ 18) ∧
    (∀ octet : Nat, ¬ ((x.FPGA_Write .XPI_W_PAGE_ADDR 0).collectCTX octet).ctxLen > 18) := by
  obtain ⟨h1, h2⟩ := Reachable_len x h
  have l1 := LenOK_le _ _ h1
  have l2 := LenOK_le _ _ h2
  refine ⟨l1, l2, ?_, ?_⟩
  · intro octet
    show x.crxLen + 1 ≤ 18
    omega
  · intro octet
    show ¬ x.ctxLen + 1 > 18
    omega

set_option maxRecDepth 100000 in
/-- Witness of C26 on the engine after `exampleFirstOctetEvents`. -/
theorem reassembly_stays_within_18_witness :
    Reachable (XPI.init.runEvents exampleFirstOctetEvents) ∧
    (XPI.init.runEvents exampleFirstOctetEvents).crxLen = 1 ∧
    (XPI.init.runEvents exampleFirstOctetEvents).crxLen ≤ 17 :=
  ⟨⟨_, rfl⟩, by decide,
   (reassembly_stays_within_18
      (XPI.init.runEvents exampleFirstOctetEvents) ⟨_, rfl⟩).1⟩

set_option maxRecDepth 100000 in
/-- C27 fails on the code: in the engine `exampleRingEnd` the queue is empty
(`semaFull = 4096`) and the write cursor is at offset 4094, below the ring end.
A `Put` of 100 octets passes the wait for `100 + 2` free octets, and the last
octet it writes has the index `4094 + 2 + 100 - 1 = 4195`, past the end of `buf`
(`4096 + 32` octets): the call has no defined result. -/
theorem Put_writes_past_buf :
    exampleRingEnd.pWrite = 4094 ∧ exampleRingEnd.pWrite < XPI_XMTR_BUF_SIZE ∧
    exampleRingEnd.semaFull = 4096 ∧ 100 + 2 ≤ exampleRingEnd.semaFull ∧
    XPI_BUF_LEN ≤ exampleRingEnd.pWrite + 2 + 100 - 1 ∧
    (exampleRingEnd.Put (fun _ => 0) 100 100).isNone = true := by
  decide

set_option maxRecDepth 100000 in
/-- C28 fails on the code: for the queued frame `c5` of one octet (sentinel
class) in master role, with the completion statuses `0, 0, 0, 0x79` the delivery
loop hands the frame over four times; and with `n` statuses `0`, for every `n`,
the call has no result: the loop asks for a further completion after every one
of them and never exits. -/
theorem one_octet_sentinel_frame_is_resent_without_bound :
    exampleOneOctetQueued.isMCPU = true ∧
    ((exampleOneOctetQueued.Transmitter [0, 0, 0, 0x79]).map (fun r => r.2.len)) = some 1 ∧
    ((exampleOneOctetQueued.Transmitter [0, 0, 0, 0x79]).map (fun r => r.2.attempts)) =
      some [[0xC5], [0xC5], [0xC5], [0xC5]] ∧
    ∀ n, (exampleOneOctetQueued.Transmitter (List.replicate n 0)).isNone = true := by
  refine ⟨by decide, by decide, by decide, ?_⟩
  intro n
  have h1 : ¬ exampleOneOctetQueued.semaEmpty < 2 := by decide
  have h2 : ¬ exampleOneOctetQueued.semaEmpty - 2 <
      (exampleOneOctetQueued.buf exampleOneOctetQueued.pRead <<< 8 |||
        exampleOneOctetQueued.buf (exampleOneOctetQueued.pRead + 1)) := by decide
  have h3 : exampleOneOctetQueued.isMCPU = true := by decide
  have h4 : ((exampleOneOctetQueued.buf exampleOneOctetQueued.pRead <<< 8 |||
        exampleOneOctetQueued.buf (exampleOneOctetQueued.pRead + 1)) + 2 ^ 32 - 2) % 2 ^ 32 = 1 := by
    decide
  have h5 : exampleOneOctetQueued.pRead + 4 < 2 ^ 32 := by decide
  have h6 : exampleOneOctetQueued.buf (exampleOneOctetQueued.pRead + 4) &&& 0xE0 = 0xC0 := by
    decide
  unfold XPI.Transmitter
  rw [if_neg h1]
  simp only []
  rw [if_neg h2, if_pos h3, h4]
  unfold XPI.deliver
  rw [deliverLoop_one_octet_sentinel n 0 _ [] (by decide) h5 h6]
  rfl

set_option maxRecDepth 100000 in
/-- C29 fails on the code: after `examplePassivePollEvents` the engine is in
passive role in `POLL_EIRQ` (entered by `On_CTX` on the sentinel `c0`) and the
timer of 100 ms expires; no octet has been written to the command-channel data
register so far.  `On_Timer` then calls `PollNextBoard`, which writes the poll id
of the first board to that register, with the role still passive. -/
theorem On_Timer_polls_in_passive_role :
    Reachable (XPI.init.runEvents examplePassivePollEvents) ∧
    (XPI.init.runEvents examplePassivePollEvents).isMCPU = false ∧
    (XPI.init.runEvents examplePassivePollEvents).state = .POLL_EIRQ ∧
    (XPI.init.runEvents examplePassivePollEvents).timerExpires ∧
    ctxDataWrites (XPI.init.runEvents examplePassivePollEvents).fpgaWrites = [] ∧
    ((XPI.init.runEvents examplePassivePollEvents).On_Timer 0).isMCPU = false ∧
    ((XPI.init.runEvents examplePassivePollEvents).On_Timer 0).poll_cur = 0 ∧
    (ctxDataWrites
      ((XPI.init.runEvents examplePassivePollEvents).On_Timer 0).fpgaWrites).length = 1 :=
  ⟨⟨_, rfl⟩, by decide, by decide, by decide, by decide, by decide, by decide, by decide⟩

set_option maxRecDepth 100000 in
/-- C30 fails on the code: after `exampleLostFpgaEvents` (the engine has become
master, then a second `InitializeFPGA` reads a wrong magic) the presence flag is
false and the state is `IDLE`, not `DISABLED`. -/
theorem InitializeFPGA_failure_keeps_state :
    Reachable (XPI.init.runEvents exampleLostFpgaEvents) ∧
    (XPI.init.runEvents exampleLostFpgaEvents).fpgaOK = false ∧
    (XPI.init.runEvents exampleLostFpgaEvents).state = .IDLE ∧
    (XPI.init.runEvents exampleLostFpgaEvents).state ≠ .DISABLED :=
  ⟨⟨_, rfl⟩, by decide, by decide, by decide⟩

end XPI_Model
